import Mathlib

/-!
# Admittance interpolation: `iers2010::hisp::admint`

A shallow embedding of `src/admint.cpp`.  The routine matches the caller's
tidal constituents against a fixed catalogue of 342 harmonics, turns every
match into an admittance sample, sorts the samples by frequency, fits one
spline per species and evaluates it at every catalogue harmonic.

Conventions of the embedding.

* `double` values live in an arbitrary linearly ordered field `R`, so the
  arithmetic is exact; the theorems that need the true `cos`, `sin`, `sqrt`
  and `atan2` are stated for `R = ℝ`.
* The `int` arithmetic of the match test is 32-bit and wraps around
  (`wrap32`); the counters `k`, `nlp`, `ndi`, `nsd`, `j`, which stay below 343,
  are natural numbers.
* The parallel input arrays `ampin`, `idtin`, `phin` of length `nin` are one
  list of records, entry `ll` holding `ampin[ll]`, `idtin[ll]`, `phin[ll]`.
* A local buffer is the list of its initialised leading elements; the pointer
  `rf+nlp` is `rf.drop nlp`.  A read outside the initialised part, which the
  source leaves undefined, yields 0.
* `tdfrph`, `shells`, `spline` and `eval` are declared in `hardisp.hpp`; they
  are parameters of the embedding, as are the functions of `<cmath>`.
* The calls made to `eval` and `spline` are listed, with their arguments, by
  `evalCalls`, `longPeriodSplineCalls` and `speciesSplineCalls`, which follow
  the control flow of the synthesis loop and of the spline set-up.
-/

namespace Hisp

/-- A Doodson number, `int[6]`. -/
abbrev Doodson := Fin 6 → Int

/-- The date `itm`: year, day of year, hours, minutes, seconds. -/
abbrev Epoch := Fin 5 → Int

/-- The number of harmonics used in the prediction. -/
def nt : Nat := 342

/-- The number of constituents whose amplitude and phase may be specified. -/
def ncon : Nat := 20

/-- The conversion factor `dtr ( .01745329252e0 )`. -/
def dtr (R : Type) [DivisionRing R] : R := 0.01745329252

/-- One row `{a, b, c, d, e, f}` of `idd`. -/
def row (a b c d e f : Int) : Doodson := ![a, b, c, d, e, f]

/-- The table `idd` of Doodson numbers of all stored constituents. -/
def idd : List Doodson := [
  row  2   0   0   0   0   0 , row  2   2  (-2)  0   0   0 , row  2  (-1)  0   1   0   0 ,
  row  2   2   0   0   0   0 , row  2   2   0   0   1   0 , row  2   0   0   0  (-1)  0 ,
  row  2  (-1)  2  (-1)  0   0 , row  2  (-2)  2   0   0   0 , row  2   1   0  (-1)  0   0 ,
  row  2   2  (-3)  0   0   1 , row  2  (-2)  0   2   0   0 , row  2  (-3)  2   1   0   0 ,
  row  2   1  (-2)  1   0   0 , row  2  (-1)  0   1  (-1)  0 , row  2   3   0  (-1)  0   0 ,
  row  2   1   0   1   0   0 , row  2   2   0   0   2   0 , row  2   2  (-1)  0   0  (-1),
  row  2   0  (-1)  0   0   1 , row  2   1   0   1   1   0 , row  2   3   0  (-1)  1   0 ,
  row  2   0   1   0   0  (-1), row  2   0  (-2)  2   0   0 , row  2  (-3)  0   3   0   0 ,
  row  2  (-2)  3   0   0  (-1), row  2   4   0   0   0   0 , row  2  (-1)  1   1   0  (-1),
  row  2  (-1)  3  (-1)  0  (-1), row  2   2   0   0  (-1)  0 , row  2  (-1) (-1)  1   0   1 ,
  row  2   4   0   0   1   0 , row  2  (-3)  4  (-1)  0   0 , row  2  (-1)  2  (-1) (-1)  0 ,
  row  2   3  (-2)  1   0   0 , row  2   1   2  (-1)  0   0 , row  2  (-4)  2   2   0   0 ,
  row  2   4  (-2)  0   0   0 , row  2   0   2   0   0   0 , row  2  (-2)  2   0  (-1)  0 ,
  row  2   2  (-4)  0   0   2 , row  2   2  (-2)  0  (-1)  0 , row  2   1   0  (-1) (-1)  0 ,
  row  2  (-1)  1   0   0   0 , row  2   2  (-1)  0   0   1 , row  2   2   1   0   0  (-1),
  row  2  (-2)  0   2  (-1)  0 , row  2  (-2)  4  (-2)  0   0 , row  2   2   2   0   0   0 ,
  row  2  (-4)  4   0   0   0 , row  2  (-1)  0  (-1) (-2)  0 , row  2   1   2  (-1)  1   0 ,
  row  2  (-1) (-2)  3   0   0 , row  2   3  (-2)  1   1   0 , row  2   4   0  (-2)  0   0 ,
  row  2   0   0   2   0   0 , row  2   0   2  (-2)  0   0 , row  2   0   2   0   1   0 ,
  row  2  (-3)  3   1   0  (-1), row  2   0   0   0  (-2)  0 , row  2   4   0   0   2   0 ,
  row  2   4  (-2)  0   1   0 , row  2   0   0   0   0   2 , row  2   1   0   1   2   0 ,
  row  2   0  (-2)  0  (-2)  0 , row  2  (-2)  1   0   0   1 , row  2  (-2)  1   2   0  (-1),
  row  2  (-1)  1  (-1)  0   1 , row  2   5   0  (-1)  0   0 , row  2   1  (-3)  1   0   1 ,
  row  2  (-2) (-1)  2   0   1 , row  2   3   0  (-1)  2   0 , row  2   1  (-2)  1  (-1)  0 ,
  row  2   5   0  (-1)  1   0 , row  2  (-4)  0   4   0   0 , row  2  (-3)  2   1  (-1)  0 ,
  row  2  (-2)  1   1   0   0 , row  2   4   0  (-2)  1   0 , row  2   0   0   2   1   0 ,
  row  2  (-5)  4   1   0   0 , row  2   0   2   0   2   0 , row  2  (-1)  2   1   0   0 ,
  row  2   5  (-2) (-1)  0   0 , row  2   1  (-1)  0   0   0 , row  2   2  (-2)  0   0   2 ,
  row  2  (-5)  2   3   0   0 , row  2  (-1) (-2)  1  (-2)  0 , row  2  (-3)  5  (-1)  0  (-1),
  row  2  (-1)  0   0   0   1 , row  2  (-2)  0   0  (-2)  0 , row  2   0  (-1)  1   0   0 ,
  row  2  (-3)  1   1   0   1 , row  2   3   0  (-1) (-1)  0 , row  2   1   0   1  (-1)  0 ,
  row  2  (-1)  2   1   1   0 , row  2   0  (-3)  2   0   1 , row  2   1  (-1) (-1)  0   1 ,
  row  2  (-3)  0   3  (-1)  0 , row  2   0  (-2)  2  (-1)  0 , row  2  (-4)  3   2   0  (-1),
  row  2  (-1)  0   1  (-2)  0 , row  2   5   0  (-1)  2   0 , row  2  (-4)  5   0   0  (-1),
  row  2  (-2)  4   0   0  (-2), row  2  (-1)  0   1   0   2 , row  2  (-2) (-2)  4   0   0 ,
  row  2   3  (-2) (-1) (-1)  0 , row  2  (-2)  5  (-2)  0  (-1), row  2   0  (-1)  0  (-1)  1 ,
  row  2   5  (-2) (-1)  1   0 , row  1   1   0   0   0   0 , row  1  (-1)  0   0   0   0 ,
  row  1   1  (-2)  0   0   0 , row  1  (-2)  0   1   0   0 , row  1   1   0   0   1   0 ,
  row  1  (-1)  0   0  (-1)  0 , row  1   2   0  (-1)  0   0 , row  1   0   0   1   0   0 ,
  row  1   3   0   0   0   0 , row  1  (-2)  2  (-1)  0   0 , row  1  (-2)  0   1  (-1)  0 ,
  row  1  (-3)  2   0   0   0 , row  1   0   0  (-1)  0   0 , row  1   1   0   0  (-1)  0 ,
  row  1   3   0   0   1   0 , row  1   1  (-3)  0   0   1 , row  1  (-3)  0   2   0   0 ,
  row  1   1   2   0   0   0 , row  1   0   0   1   1   0 , row  1   2   0  (-1)  1   0 ,
  row  1   0   2  (-1)  0   0 , row  1   2  (-2)  1   0   0 , row  1   3  (-2)  0   0   0 ,
  row  1  (-1)  2   0   0   0 , row  1   1   1   0   0  (-1), row  1   1  (-1)  0   0   1 ,
  row  1   4   0  (-1)  0   0 , row  1  (-4)  2   1   0   0 , row  1   0  (-2)  1   0   0 ,
  row  1  (-2)  2  (-1) (-1)  0 , row  1   3   0  (-2)  0   0 , row  1  (-1)  0   2   0   0 ,
  row  1  (-1)  0   0  (-2)  0 , row  1   3   0   0   2   0 , row  1  (-3)  2   0  (-1)  0 ,
  row  1   4   0  (-1)  1   0 , row  1   0   0  (-1) (-1)  0 , row  1   1  (-2)  0  (-1)  0 ,
  row  1  (-3)  0   2  (-1)  0 , row  1   1   0   0   2   0 , row  1   1  (-1)  0   0  (-1),
  row  1  (-1) (-1)  0   0   1 , row  1   0   2  (-1)  1   0 , row  1  (-1)  1   0   0  (-1),
  row  1  (-1) (-2)  2   0   0 , row  1   2  (-2)  1   1   0 , row  1  (-4)  0   3   0   0 ,
  row  1  (-1)  2   0   1   0 , row  1   3  (-2)  0   1   0 , row  1   2   0  (-1) (-1)  0 ,
  row  1   0   0   1  (-1)  0 , row  1  (-2)  2   1   0   0 , row  1   4  (-2) (-1)  0   0 ,
  row  1  (-3)  3   0   0  (-1), row  1  (-2)  1   1   0  (-1), row  1  (-2)  3  (-1)  0  (-1),
  row  1   0  (-2)  1  (-1)  0 , row  1  (-2) (-1)  1   0   1 , row  1   4  (-2)  1   0   0 ,
  row  1  (-4)  4  (-1)  0   0 , row  1  (-4)  2   1  (-1)  0 , row  1   5  (-2)  0   0   0 ,
  row  1   3   0  (-2)  1   0 , row  1  (-5)  2   2   0   0 , row  1   2   0   1   0   0 ,
  row  1   1   3   0   0  (-1), row  1  (-2)  0   1  (-2)  0 , row  1   4   0  (-1)  2   0 ,
  row  1   1  (-4)  0   0   2 , row  1   5   0  (-2)  0   0 , row  1  (-1)  0   2   1   0 ,
  row  1  (-2)  1   0   0   0 , row  1   4  (-2)  1   1   0 , row  1  (-3)  4  (-2)  0   0 ,
  row  1  (-1)  3   0   0  (-1), row  1   3  (-3)  0   0   1 , row  1   5  (-2)  0   1   0 ,
  row  1   1   2   0   1   0 , row  1   2   0   1   1   0 , row  1  (-5)  4   0   0   0 ,
  row  1  (-2)  0  (-1) (-2)  0 , row  1   5   0  (-2)  1   0 , row  1   1   2  (-2)  0   0 ,
  row  1   1  (-2)  2   0   0 , row  1  (-2)  2   1   1   0 , row  1   0   3  (-1)  0  (-1),
  row  1   2  (-3)  1   0   1 , row  1  (-2) (-2)  3   0   0 , row  1  (-1)  2  (-2)  0   0 ,
  row  1  (-4)  3   1   0  (-1), row  1  (-4)  0   3  (-1)  0 , row  1  (-1) (-2)  2  (-1)  0 ,
  row  1  (-2)  0   3   0   0 , row  1   4   0  (-3)  0   0 , row  1   0   1   1   0  (-1),
  row  1   2  (-1) (-1)  0   1 , row  1   2  (-2)  1  (-1)  0 , row  1   0   0  (-1) (-2)  0 ,
  row  1   2   0   1   2   0 , row  1   2  (-2) (-1) (-1)  0 , row  1   0   0   1   2   0 ,
  row  1   0   1   0   0   0 , row  1   2  (-1)  0   0   0 , row  1   0   2  (-1) (-1)  0 ,
  row  1  (-1) (-2)  0  (-2)  0 , row  1  (-3)  1   0   0   1 , row  1   3  (-2)  0  (-1)  0 ,
  row  1  (-1) (-1)  0  (-1)  1 , row  1   4  (-2) (-1)  1   0 , row  1   2   1  (-1)  0  (-1),
  row  1   0  (-1)  1   0   1 , row  1  (-2)  4  (-1)  0   0 , row  1   4  (-4)  1   0   0 ,
  row  1  (-3)  1   2   0  (-1), row  1  (-3)  3   0  (-1) (-1), row  1   1   2   0   2   0 ,
  row  1   1  (-2)  0  (-2)  0 , row  1   3   0   0   3   0 , row  1  (-1)  2   0  (-1)  0 ,
  row  1  (-2)  1  (-1)  0   1 , row  1   0  (-3)  1   0   1 , row  1  (-3) (-1)  2   0   1 ,
  row  1   2   0  (-1)  2   0 , row  1   6  (-2) (-1)  0   0 , row  1   2   2  (-1)  0   0 ,
  row  1  (-1)  1   0  (-1) (-1), row  1  (-2)  3  (-1) (-1) (-1), row  1  (-1)  0   0   0   2 ,
  row  1  (-5)  0   4   0   0 , row  1   1   0   0   0  (-2), row  1  (-2)  1   1  (-1) (-1),
  row  1   1  (-1)  0   1   1 , row  1   1   2   0   0  (-2), row  1  (-3)  1   1   0   0 ,
  row  1  (-4)  4  (-1) (-1)  0 , row  1   1   0  (-2) (-1)  0 , row  1  (-2) (-1)  1  (-1)  1 ,
  row  1  (-3)  2   2   0   0 , row  1   5  (-2) (-2)  0   0 , row  1   3  (-4)  2   0   0 ,
  row  1   1  (-2)  0   0   2 , row  1  (-1)  4  (-2)  0   0 , row  1   2   2  (-1)  1   0 ,
  row  1  (-5)  2   2  (-1)  0 , row  1   1  (-3)  0  (-1)  1 , row  1   1   1   0   1  (-1),
  row  1   6  (-2) (-1)  1   0 , row  1  (-2)  2  (-1) (-2)  0 , row  1   4  (-2)  1   2   0 ,
  row  1  (-6)  4   1   0   0 , row  1   5  (-4)  0   0   0 , row  1  (-3)  4   0   0   0 ,
  row  1   1   2  (-2)  1   0 , row  1  (-2)  1   0  (-1)  0 , row  0   2   0   0   0   0 ,
  row  0   1   0  (-1)  0   0 , row  0   0   2   0   0   0 , row  0   0   0   0   1   0 ,
  row  0   2   0   0   1   0 , row  0   3   0  (-1)  0   0 , row  0   1  (-2)  1   0   0 ,
  row  0   2  (-2)  0   0   0 , row  0   3   0  (-1)  1   0 , row  0   0   1   0   0  (-1),
  row  0   2   0  (-2)  0   0 , row  0   2   0   0   2   0 , row  0   3  (-2)  1   0   0 ,
  row  0   1   0  (-1) (-1)  0 , row  0   1   0  (-1)  1   0 , row  0   4  (-2)  0   0   0 ,
  row  0   1   0   1   0   0 , row  0   0   3   0   0  (-1), row  0   4   0  (-2)  0   0 ,
  row  0   3  (-2)  1   1   0 , row  0   3  (-2) (-1)  0   0 , row  0   4  (-2)  0   1   0 ,
  row  0   0   2   0   1   0 , row  0   1   0   1   1   0 , row  0   4   0  (-2)  1   0 ,
  row  0   3   0  (-1)  2   0 , row  0   5  (-2) (-1)  0   0 , row  0   1   2  (-1)  0   0 ,
  row  0   1  (-2)  1  (-1)  0 , row  0   1  (-2)  1   1   0 , row  0   2  (-2)  0  (-1)  0 ,
  row  0   2  (-3)  0   0   1 , row  0   2  (-2)  0   1   0 , row  0   0   2  (-2)  0   0 ,
  row  0   1  (-3)  1   0   1 , row  0   0   0   0   2   0 , row  0   0   1   0   0   1 ,
  row  0   1   2  (-1)  1   0 , row  0   3   0  (-3)  0   0 , row  0   2   1   0   0  (-1),
  row  0   1  (-1) (-1)  0   1 , row  0   1   0   1   2   0 , row  0   5  (-2) (-1)  1   0 ,
  row  0   2  (-1)  0   0   1 , row  0   2   2  (-2)  0   0 , row  0   1  (-1)  0   0   0 ,
  row  0   5   0  (-3)  0   0 , row  0   2   0  (-2)  1   0 , row  0   1   1  (-1)  0  (-1),
  row  0   3  (-4)  1   0   0 , row  0   0   2   0   2   0 , row  0   2   0  (-2) (-1)  0 ,
  row  0   4  (-3)  0   0   1 , row  0   3  (-1) (-1)  0   1 , row  0   0   2   0   0  (-2),
  row  0   3  (-3)  1   0   1 , row  0   2  (-4)  2   0   0 , row  0   4  (-2) (-2)  0   0 ,
  row  0   3   1  (-1)  0  (-1), row  0   5  (-4)  1   0   0 , row  0   3  (-2) (-1) (-1)  0 ,
  row  0   3  (-2)  1   2   0 , row  0   4  (-4)  0   0   0 , row  0   6  (-2) (-2)  0   0 ,
  row  0   5   0  (-3)  1   0 , row  0   4  (-2)  0   2   0 , row  0   2   2  (-2)  1   0 ,
  row  0   0   4   0   0  (-2), row  0   3  (-1)  0   0   0 , row  0   3  (-3) (-1)  0   1 ,
  row  0   4   0  (-2)  2   0 , row  0   1  (-2) (-1) (-1)  0 , row  0   2  (-1)  0   0  (-1),
  row  0   4  (-4)  2   0   0 , row  0   2   1   0   1  (-1), row  0   3  (-2) (-1)  1   0 ,
  row  0   4  (-3)  0   1   1 , row  0   2   0   0   3   0 , row  0   6  (-4)  0   0   0 
]

/-- The table `tamp` of Cartwright-Edden amplitudes of all stored constituents. -/
def tamp (R : Type) [DivisionRing R] : List R := [
   0.632208,  0.294107,  0.121046,  0.079915,  0.023818, -0.023589,  0.022994,
   0.019333, -0.017871,  0.017192,  0.016018,  0.004671, -0.004662, -0.004519,
   0.004470,  0.004467,  0.002589, -0.002455, -0.002172,  0.001972,  0.001947,
   0.001914, -0.001898,  0.001802,  0.001304,  0.001170,  0.001130,  0.001061,
  -0.001022, -0.001017,  0.001014,  0.000901, -0.000857,  0.000855,  0.000855,
   0.000772,  0.000741,  0.000741, -0.000721,  0.000698,  0.000658,  0.000654,
  -0.000653,  0.000633,  0.000626, -0.000598,  0.000590,  0.000544,  0.000479,
  -0.000464,  0.000413, -0.000390,  0.000373,  0.000366,  0.000366, -0.000360,
  -0.000355,  0.000354,  0.000329,  0.000328,  0.000319,  0.000302,  0.000279,
  -0.000274, -0.000272,  0.000248, -0.000225,  0.000224, -0.000223, -0.000216,
   0.000211,  0.000209,  0.000194,  0.000185, -0.000174, -0.000171,  0.000159,
   0.000131,  0.000127,  0.000120,  0.000118,  0.000117,  0.000108,  0.000107,
   0.000105, -0.000102,  0.000102,  0.000099, -0.000096,  0.000095, -0.000089,
  -0.000085, -0.000084, -0.000081, -0.000077, -0.000072, -0.000067,  0.000066,
   0.000064,  0.000063,  0.000063,  0.000063,  0.000062,  0.000062, -0.000060,
   0.000056,  0.000053,  0.000051,  0.000050,  0.368645, -0.262232, -0.121995,
  -0.050208,  0.050031, -0.049470,  0.020620,  0.020613,  0.011279, -0.009530,
  -0.009469, -0.008012,  0.007414, -0.007300,  0.007227, -0.007131, -0.006644,
   0.005249,  0.004137,  0.004087,  0.003944,  0.003943,  0.003420,  0.003418,
   0.002885,  0.002884,  0.002160, -0.001936,  0.001934, -0.001798,  0.001690,
   0.001689,  0.001516,  0.001514, -0.001511,  0.001383,  0.001372,  0.001371,
  -0.001253, -0.001075,  0.001020,  0.000901,  0.000865, -0.000794,  0.000788,
   0.000782, -0.000747, -0.000745,  0.000670, -0.000603, -0.000597,  0.000542,
   0.000542, -0.000541, -0.000469, -0.000440,  0.000438,  0.000422,  0.000410,
  -0.000374, -0.000365,  0.000345,  0.000335, -0.000321, -0.000319,  0.000307,
   0.000291,  0.000290, -0.000289,  0.000286,  0.000275,  0.000271,  0.000263,
  -0.000245,  0.000225,  0.000225,  0.000221, -0.000202, -0.000200, -0.000199,
   0.000192,  0.000183,  0.000183,  0.000183, -0.000170,  0.000169,  0.000168,
   0.000162,  0.000149, -0.000147, -0.000141,  0.000138,  0.000136,  0.000136,
   0.000127,  0.000127, -0.000126, -0.000121, -0.000121,  0.000117, -0.000116,
  -0.000114, -0.000114, -0.000114,  0.000114,  0.000113,  0.000109,  0.000108,
   0.000106, -0.000106, -0.000106,  0.000105,  0.000104, -0.000103, -0.000100,
  -0.000100, -0.000100,  0.000099, -0.000098,  0.000093,  0.000093,  0.000090,
  -0.000088,  0.000083, -0.000083, -0.000082, -0.000081, -0.000079, -0.000077,
  -0.000075, -0.000075, -0.000075,  0.000071,  0.000071, -0.000071,  0.000068,
   0.000068,  0.000065,  0.000065,  0.000064,  0.000064,  0.000064, -0.000064,
  -0.000060,  0.000056,  0.000056,  0.000053,  0.000053,  0.000053, -0.000053,
   0.000053,  0.000053,  0.000052,  0.000050, -0.066607, -0.035184, -0.030988,
   0.027929, -0.027616, -0.012753, -0.006728, -0.005837, -0.005286, -0.004921,
  -0.002884, -0.002583, -0.002422,  0.002310,  0.002283, -0.002037,  0.001883,
  -0.001811, -0.001687, -0.001004, -0.000925, -0.000844,  0.000766,  0.000766,
  -0.000700, -0.000495, -0.000492,  0.000491,  0.000483,  0.000437, -0.000416,
  -0.000384,  0.000374, -0.000312, -0.000288, -0.000273,  0.000259,  0.000245,
  -0.000232,  0.000229, -0.000216,  0.000206, -0.000204, -0.000202,  0.000200,
   0.000195, -0.000190,  0.000187,  0.000180, -0.000179,  0.000170,  0.000153,
  -0.000137, -0.000119, -0.000119, -0.000112, -0.000110, -0.000110,  0.000107,
  -0.000095, -0.000095, -0.000091, -0.000090, -0.000081, -0.000079, -0.000079,
   0.000077, -0.000073,  0.000069, -0.000067, -0.000066,  0.000065,  0.000064,
  -0.000062,  0.000060,  0.000059, -0.000056,  0.000055, -0.000051
]

/-- The row `idd[kk]`. -/
def iddAt (kk : Nat) : Doodson := idd.getD kk 0

/-- The entry `tamp[kk]`. -/
def tampAt (R : Type) [DivisionRing R] (kk : Nat) : R := (tamp R).getD kk 0

/-- The routines declared in `hardisp.hpp` that `admint` calls. -/
structure Hardisp (R : Type) where
  /-- The call `tdfrph (idood, itm, freq, phase)`: the frequency in cycles per
  day and the phase in degrees of a Doodson number at the date `itm`. -/
  tdfrph : Doodson → Epoch → R × R
  /-- The call `shells (x, k, n)` on the `n` values of `x`: the values as left
  in `x`, and the key array `k`. -/
  shells : List R → List R × List Nat
  /-- The call `spline (nn, x, u, s, a)`: the array `s` it fills. -/
  spline : Nat → List R → List R → List R
  /-- The call `eval (y, nn, x, u, s, val)`: the value `val` it returns. -/
  eval : R → Nat → List R → List R → List R → R

/-- The functions of `<cmath>` that `admint` calls. -/
structure LibM (R : Type) where
  cos : R → R
  sin : R → R
  sqrt : R → R
  /-- The call `atan2 (y, x)`. -/
  atan2 : R → R → R

/-- One input constituent: `idtin[ll]`, `ampin[ll]`, `phin[ll]`. -/
structure Constituent (R : Type) where
  idtin : Doodson
  ampin : R
  phin : R

/-- A value brought back into the range of a 32-bit `int`, as two's
complement arithmetic does on overflow. -/
def wrap32 (x : Int) : Int := (x + 2147483648) % 4294967296 - 2147483648

/-- The test quantity `ii` as the code computes it: starting from 0, for each
`i < 6` the statement `ii += std::abs (idd[kk][i] - idtin[ll][i])`, every
operation in 32-bit `int`. -/
def doodsonDiff (a b : Doodson) : Int :=
  (List.finRange 6).foldl (fun ii i => wrap32 (ii + wrap32 |wrap32 (a i - b i)|)) 0

/-- The sum of the six absolute differences in exact integer arithmetic: what
`doodsonDiff` is when nothing overflows. -/
def doodsonDiffExact (a b : Doodson) : Int :=
  (List.finRange 6).foldl (fun ii i => ii + |a i - b i|) 0

/-- A Doodson code whose six components have magnitude at most `2^27`; the
sum `ii` of such a code against a catalogue row cannot overflow. -/
def SmallCode (d : Doodson) : Prop := ∀ i, |d i| ≤ 134217728

/-- The samples collected by the matching loop: the count `k` and the
initialised part of the buffers `rl`, `aim`, `rf`. -/
structure Samples (R : Type) where
  k : Nat
  rl : List R
  aim : List R
  rf : List R

/-- The body of the loop over `kk`: on a match with room left, store the
sample at position `k` and increment `k`. -/
def matchStep {R : Type} [LinearOrderedField R] (M : LibM R) (H : Hardisp R)
    (itm : Epoch) (c : Constituent R) (st : Samples R) (kk : Nat) : Samples R :=
  let ii := doodsonDiff (iddAt kk) c.idtin
  if ii = 0 ∧ st.k < ncon then
    { k := st.k + 1
      rl := st.rl ++ [c.ampin * M.cos (dtr R * c.phin) / |tampAt R kk|]
      aim := st.aim ++ [c.ampin * M.sin (dtr R * c.phin) / |tampAt R kk|]
      rf := st.rf ++ [(H.tdfrph (iddAt kk) itm).1] }
  else st

/-- The loop `for (int kk=0;kk<nt;kk++)` for one input constituent. -/
def scanCatalog {R : Type} [LinearOrderedField R] (M : LibM R) (H : Hardisp R)
    (itm : Epoch) (st : Samples R) (c : Constituent R) : Samples R :=
  (List.range nt).foldl (matchStep M H itm c) st

/-- The loop `for (int ll=0;ll<nin;ll++)`, started with `k = 0`. -/
def matchLoop {R : Type} [LinearOrderedField R] (M : LibM R) (H : Hardisp R)
    (itm : Epoch) (inputs : List (Constituent R)) : Samples R :=
  inputs.foldl (scanCatalog M H itm) { k := 0, rl := [], aim := [], rf := [] }

/-- The species counters and the scratch array of the first loop after the sort. -/
structure Counts (R : Type) where
  nlp : Nat
  ndi : Nat
  nsd : Nat
  scr : List R

/-- The body of the first loop after the sort: count `rf[i]` into the species
and set `scr[i] = rl[key[i]]`. -/
def countStep {R : Type} [LinearOrderedField R] (rf rl : List R) (key : List Nat)
    (c : Counts R) (i : Nat) : Counts R :=
  { nlp := if rf.getD i 0 < 0.5 then c.nlp + 1 else c.nlp
    ndi := if rf.getD i 0 < 1.5 ∧ rf.getD i 0 > 0.5 then c.ndi + 1 else c.ndi
    nsd := if rf.getD i 0 < 2.5 ∧ rf.getD i 0 > 1.5 then c.nsd + 1 else c.nsd
    scr := c.scr ++ [rl.getD (key.getD i 0) 0] }

/-- The first loop after the sort, started with `nlp = ndi = nsd = 0`. -/
def countLoop {R : Type} [LinearOrderedField R] (k : Nat) (rf rl : List R)
    (key : List Nat) : Counts R :=
  (List.range k).foldl (countStep rf rl key) { nlp := 0, ndi := 0, nsd := 0, scr := [] }

/-- The second loop after the sort: `rl[i] = scr[i]; scr[i] = aim[key[i]]`. -/
def copyLoop2 {R : Type} [Zero R] (k : Nat) (rl scr aim : List R) (key : List Nat) :
    List R × List R :=
  (List.range k).foldl
    (fun s i => (s.1.set i (s.2.getD i 0), s.2.set i (aim.getD (key.getD i 0) 0))) (rl, scr)

/-- The third loop after the sort: `aim[i] = scr[i]`. -/
def copyLoop3 {R : Type} [Zero R] (k : Nat) (aim scr : List R) : List R :=
  (List.range k).foldl (fun a i => a.set i (scr.getD i 0)) aim

/-- Everything the synthesis loop reads: the sorted samples, the species
counts and the spline arrays. -/
structure Splines (R : Type) where
  k : Nat
  nlp : Nat
  ndi : Nat
  nsd : Nat
  rf : List R
  rl : List R
  aim : List R
  zdr : List R
  zdi : List R
  dr : List R
  di : List R
  sdr : List R
  sdi : List R

/-- The code between the matching loop and the synthesis loop: sort by
frequency, count the species, reorder `rl` and `aim`, set up the splines.
The arrays `zdr`, `zdi` stay empty when `nlp = 0`, the two calls being guarded
by `if (nlp)`. -/
def prepare {R : Type} [LinearOrderedField R] (H : Hardisp R) (s : Samples R) : Splines R :=
  let sorted := H.shells s.rf
  let rf := sorted.1
  let key := sorted.2
  let c := countLoop s.k rf s.rl key
  let r2 := copyLoop2 s.k s.rl c.scr s.aim key
  let rl := r2.1
  let aim := copyLoop3 s.k s.aim r2.2
  { k := s.k, nlp := c.nlp, ndi := c.ndi, nsd := c.nsd, rf := rf, rl := rl, aim := aim
    zdr := if c.nlp ≠ 0 then H.spline c.nlp rf rl else []
    zdi := if c.nlp ≠ 0 then H.spline c.nlp rf aim else []
    dr := H.spline c.ndi (rf.drop c.nlp) (rl.drop c.nlp)
    di := H.spline c.ndi (rf.drop c.nlp) (aim.drop c.nlp)
    sdr := H.spline c.nsd (rf.drop (c.nlp + c.ndi)) (rl.drop (c.nlp + c.ndi))
    sdi := H.spline c.nsd (rf.drop (c.nlp + c.ndi)) (aim.drop (c.nlp + c.ndi)) }

/-- The state of the synthesis loop: the count `j`, the slots written so far
of `amp`, `f`, `p`, and the locals `re`, `am`, which keep their value from
one iteration to the next when none of the three species branches is taken. -/
structure Synth (R : Type) where
  j : Nat
  amp : List R
  f : List R
  p : List R
  re : R
  am : R

/-- The phase `p[j]` after the species correction. -/
def phaseOffset {R : Type} [LinearOrderedField R] (d : Doodson) (pr : R) : R :=
  if d 0 = 0 then pr + 180 else if d 0 = 1 then pr + 90 else pr

/-- The value `re` after the three-way branch on `idd[i][0]`. -/
def evalRe {R : Type} (H : Hardisp R) (S : Splines R) (d : Doodson) (sf re : R) : R :=
  if d 0 = 0 then H.eval sf S.nlp S.rf S.rl S.zdr
  else if d 0 = 1 then H.eval sf S.ndi (S.rf.drop S.nlp) (S.rl.drop S.nlp) S.dr
  else if d 0 = 2 then
    H.eval sf S.nsd (S.rf.drop (S.nlp + S.ndi)) (S.rl.drop (S.nlp + S.ndi)) S.sdr
  else re

/-- The value `am` after the three-way branch on `idd[i][0]`. -/
def evalAm {R : Type} (H : Hardisp R) (S : Splines R) (d : Doodson) (sf am : R) : R :=
  if d 0 = 0 then H.eval sf S.nlp S.rf S.aim S.zdi
  else if d 0 = 1 then H.eval sf S.ndi (S.rf.drop S.nlp) (S.aim.drop S.nlp) S.di
  else if d 0 = 2 then
    H.eval sf S.nsd (S.rf.drop (S.nlp + S.ndi)) (S.aim.drop (S.nlp + S.ndi)) S.sdi
  else am

/-- The final phase: add `atan2(am,re) / dtr`, then subtract 360 if above 180. -/
def wrapPhase {R : Type} [LinearOrderedField R] (M : LibM R) (pj re am : R) : R :=
  if pj + M.atan2 am re / dtr R > 180 then pj + M.atan2 am re / dtr R - 360
  else pj + M.atan2 am re / dtr R

/-- The body of the synthesis loop for the catalogue index `i`. -/
def synthStep {R : Type} [LinearOrderedField R] (M : LibM R) (H : Hardisp R)
    (itm : Epoch) (S : Splines R) (o : Synth R) (i : Nat) : Synth R :=
  if iddAt i 0 + (S.nlp : Int) ≠ 0 then
    let fp := H.tdfrph (iddAt i) itm
    let re := evalRe H S (iddAt i) fp.1 o.re
    let am := evalAm H S (iddAt i) fp.1 o.am
    { j := o.j + 1
      amp := o.amp ++ [tampAt R i * M.sqrt (re * re + am * am)]
      f := o.f ++ [fp.1]
      p := o.p ++ [wrapPhase M (phaseOffset (iddAt i) fp.2) re am]
      re := re
      am := am }
  else o

/-- The synthesis loop `for (int i=0;i<nt;i++)`, started with `j = 0`.  The
source leaves `re` and `am` uninitialised; they start at 0 here. -/
def synthLoop {R : Type} [LinearOrderedField R] (M : LibM R) (H : Hardisp R)
    (itm : Epoch) (S : Splines R) : Synth R :=
  (List.range nt).foldl (synthStep M H itm S)
    { j := 0, amp := [], f := [], p := [], re := 0, am := 0 }

/-- What `admint` hands back: the slots written of `amp`, `f`, `p`, and `nout`. -/
structure Output (R : Type) where
  amp : List R
  f : List R
  p : List R
  nout : Int

/-- The routine `admint`. -/
def admint {R : Type} [LinearOrderedField R] (M : LibM R) (H : Hardisp R)
    (itm : Epoch) (inputs : List (Constituent R)) : Output R :=
  let o := synthLoop M H itm (prepare H (matchLoop M H itm inputs))
  { amp := o.amp, f := o.f, p := o.p, nout := (o.j : Int) - 1 }

/-- The sample `(rl, aim, rf)` stored when the input `c` matches the catalogue
index `kk`. -/
def sampleOf {R : Type} [LinearOrderedField R] (M : LibM R) (H : Hardisp R)
    (itm : Epoch) (c : Constituent R) (kk : Nat) : R × R × R :=
  (c.ampin * M.cos (dtr R * c.phin) / |tampAt R kk|,
   c.ampin * M.sin (dtr R * c.phin) / |tampAt R kk|,
   (H.tdfrph (iddAt kk) itm).1)

/-- The pairs (input, catalogue index) for which the match test of the code
succeeds, in scan order: inputs in input order, catalogue indices increasing
within each input. -/
def matchedPairs {R : Type} (inputs : List (Constituent R)) : List (Constituent R × Nat) :=
  inputs.flatMap fun c =>
    ((List.range nt).filter fun kk => doodsonDiff (iddAt kk) c.idtin = 0).map fun kk => (c, kk)

/-- The pairs (input, catalogue index) with identical Doodson codes, in scan
order. -/
def identicalPairs {R : Type} (inputs : List (Constituent R)) : List (Constituent R × Nat) :=
  inputs.flatMap fun c =>
    ((List.range nt).filter fun kk => iddAt kk = c.idtin).map fun kk => (c, kk)

/-- A Doodson code with components near `2^30`, in no catalogue row, for
which the 32-bit sum `ii` wraps around to 0 against many catalogue rows. -/
def overflowCode : Doodson := row 1073741826 1073741824 1073741824 1073741824 0 0

/-- An input constituent with the code `overflowCode`, amplitude 1, phase 0. -/
def overflowInput (R : Type) [LinearOrderedField R] : Constituent R :=
  { idtin := overflowCode, ampin := 1, phin := 0 }

/-- The buffers holding exactly the samples of a list. -/
def Samples.ofList {R : Type} (L : List (R × R × R)) : Samples R :=
  { k := L.length, rl := L.map (·.1), aim := L.map (·.2.1), rf := L.map (·.2.2) }

/-- The triple `(amp[j], f[j], p[j])` written when the catalogue index `i` is
evaluated. -/
def harmonic {R : Type} [LinearOrderedField R] (M : LibM R) (H : Hardisp R)
    (itm : Epoch) (S : Splines R) (i : Nat) : R × R × R :=
  (tampAt R i * M.sqrt
      (evalRe H S (iddAt i) (H.tdfrph (iddAt i) itm).1 0 *
          evalRe H S (iddAt i) (H.tdfrph (iddAt i) itm).1 0 +
        evalAm H S (iddAt i) (H.tdfrph (iddAt i) itm).1 0 *
          evalAm H S (iddAt i) (H.tdfrph (iddAt i) itm).1 0),
   (H.tdfrph (iddAt i) itm).1,
   wrapPhase M (phaseOffset (iddAt i) (H.tdfrph (iddAt i) itm).2)
     (evalRe H S (iddAt i) (H.tdfrph (iddAt i) itm).1 0)
     (evalAm H S (iddAt i) (H.tdfrph (iddAt i) itm).1 0))

/-- The catalogue indices that the synthesis loop evaluates, in catalogue
order: those that are not long-period, and all of them when `nlp > 0`. -/
def evaluated (nlp : Nat) : List Nat :=
  (List.range nt).filter fun i => iddAt i 0 ≠ 0 ∨ 0 < nlp

/-- A stand-in for the routines of `hardisp.hpp`, used in the examples: the
provider returns the frequency `idood[0] + 1/4` and the phase 300, the sorter
hands back its input with the identity key (a correct sort of at most one
value), and the evaluator returns the first sample value (what a spline
through a single sample does). -/
def exampleHardisp (R : Type) [LinearOrderedField R] : Hardisp R :=
  { tdfrph := fun d _ => (((d 0 : Int) : R) + 1 / 4, 300)
    shells := fun l => (l, List.range l.length)
    spline := fun _ _ _ => []
    eval := fun _ _ _ u _ => u.getD 0 0 }

/-- A stand-in for `<cmath>` over the rationals, used in the examples of the
claims that do not depend on the values of its functions. -/
def exampleLibM : LibM ℚ :=
  { cos := fun _ => 1, sin := fun _ => 0, sqrt := fun x => x, atan2 := fun _ _ => 0 }

/-- The date 2009, day 176, 00:00:00, used in the examples. -/
def exampleEpoch : Epoch := ![2009, 176, 0, 0, 0]

/-- A number attached to a Doodson code, distinct for distinct catalogue
entries; it serves to check that the catalogue has no repeated code. -/
def catalogueKey (d : Doodson) : Nat :=
  (d 0 + 13 * d 1 + 169 * d 2 + 2197 * d 3 + 28561 * d 4 + 371293 * d 5 + 3000000).toNat

/-- The functions of `<cmath>` read as the real functions: `atan2 (y, x)` is
the argument of the point `(x, y)`, in `(-π, π]`, and 0 at the origin. -/
def IsRealLibM (M : LibM ℝ) : Prop :=
  M.cos = Real.cos ∧ M.sin = Real.sin ∧ M.sqrt = Real.sqrt ∧
    ∀ y x : ℝ, M.atan2 y x = Complex.arg ⟨x, y⟩

/-- The constituent M2 of the examples: code `{2,0,0,0,0,0}`, amplitude 1.0, phase 0. -/
def exampleM2 (R : Type) [LinearOrderedField R] : Constituent R :=
  { idtin := row 2 0 0 0 0 0, ampin := 1.0, phin := 0 }

/-- The constituent Mf of the examples: code `{0,2,0,0,0,0}`, amplitude 1, phase 90. -/
def exampleMf (R : Type) [LinearOrderedField R] : Constituent R :=
  { idtin := row 0 2 0 0 0 0, ampin := 1, phin := 90 }

/-- A sample set with a frequency on the species boundary 0.5, already in
ascending order of frequency: the frequencies are 0.3, 0.5, 1.0. -/
def boundarySamples : Samples ℚ :=
  { k := 3, rl := [1, 2, 3], aim := [4, 5, 6], rf := [0.3, 0.5, 1.0] }

/-- One call of `eval`: the catalogue index `i` of the iteration of the
synthesis loop that makes it, and its arguments `y`, `nn`, `x`, `u`, `s`. -/
structure EvalCall (R : Type) where
  i : Nat
  y : R
  nn : Nat
  x : List R
  u : List R
  s : List R

/-- The calls of `eval` made by the body of the synthesis loop for the
catalogue index `i`, in order: none when the entry is skipped, else the two
calls of the branch taken. -/
def evalCallsAt {R : Type} (H : Hardisp R) (itm : Epoch) (S : Splines R) (i : Nat) :
    List (EvalCall R) :=
  if iddAt i 0 + (S.nlp : Int) ≠ 0 then
    if iddAt i 0 = 0 then
      [⟨i, (H.tdfrph (iddAt i) itm).1, S.nlp, S.rf, S.rl, S.zdr⟩,
       ⟨i, (H.tdfrph (iddAt i) itm).1, S.nlp, S.rf, S.aim, S.zdi⟩]
    else if iddAt i 0 = 1 then
      [⟨i, (H.tdfrph (iddAt i) itm).1, S.ndi, S.rf.drop S.nlp, S.rl.drop S.nlp, S.dr⟩,
       ⟨i, (H.tdfrph (iddAt i) itm).1, S.ndi, S.rf.drop S.nlp, S.aim.drop S.nlp, S.di⟩]
    else if iddAt i 0 = 2 then
      [⟨i, (H.tdfrph (iddAt i) itm).1, S.nsd, S.rf.drop (S.nlp + S.ndi),
          S.rl.drop (S.nlp + S.ndi), S.sdr⟩,
       ⟨i, (H.tdfrph (iddAt i) itm).1, S.nsd, S.rf.drop (S.nlp + S.ndi),
          S.aim.drop (S.nlp + S.ndi), S.sdi⟩]
    else []
  else []

/-- All the calls of `eval` made by the synthesis loop, in order. -/
def evalCalls {R : Type} (H : Hardisp R) (itm : Epoch) (S : Splines R) : List (EvalCall R) :=
  (List.range nt).flatMap (evalCallsAt H itm S)

/-- One call of `spline`: its arguments `nn`, `x`, `u`. -/
structure SplineCall (R : Type) where
  nn : Nat
  x : List R
  u : List R

/-- The calls of `spline` for the long-period species, each inside its
`if (nlp)`. -/
def longPeriodSplineCalls {R : Type} (S : Splines R) : List (SplineCall R) :=
  (if S.nlp ≠ 0 then [⟨S.nlp, S.rf, S.rl⟩] else []) ++
    (if S.nlp ≠ 0 then [⟨S.nlp, S.rf, S.aim⟩] else [])

/-- The four unguarded calls of `spline`, for the diurnal and the semidiurnal
species. -/
def speciesSplineCalls {R : Type} (S : Splines R) : List (SplineCall R) :=
  [⟨S.ndi, S.rf.drop S.nlp, S.rl.drop S.nlp⟩, ⟨S.ndi, S.rf.drop S.nlp, S.aim.drop S.nlp⟩,
   ⟨S.nsd, S.rf.drop (S.nlp + S.ndi), S.rl.drop (S.nlp + S.ndi)⟩,
   ⟨S.nsd, S.rf.drop (S.nlp + S.ndi), S.aim.drop (S.nlp + S.ndi)⟩]

/-- The constituent K1 of the examples: code `{1,1,0,0,0,0}`, amplitude 2, phase 10. -/
def exampleK1 (R : Type) [LinearOrderedField R] : Constituent R :=
  { idtin := row 1 1 0 0 0 0, ampin := 2, phin := 10 }

/-- The first 20 catalogue indices at which the 32-bit match test succeeds
for the code `overflowCode`. -/
def overflowRows : List Nat :=
  [0, 1, 2, 6, 7, 8, 10, 11, 12, 16, 17, 21, 22, 23, 24, 26, 27, 31, 35, 42]

/-- Eighteen inputs M2 followed by K1, M2, K1: the two K1 carry the same
Doodson code, with 18 samples stored before the first of them. -/
def crowdedInputs : List (Constituent ℚ) :=
  List.replicate 18 (exampleM2 ℚ) ++ [exampleK1 ℚ, exampleM2 ℚ, exampleK1 ℚ]

/-- A sample set with one frequency in each species band, in ascending order:
the frequencies are 0.3, 1.0, 2.0. -/
def bandSamples : Samples ℚ :=
  { k := 3, rl := [1, 2, 3], aim := [4, 5, 6], rf := [0.3, 1.0, 2.0] }

/-- A sample set whose frequencies 1.0, 0.3, 0.5 are not in ascending order. -/
def unsortedSamples : Samples ℚ :=
  { k := 3, rl := [1, 2, 3], aim := [4, 5, 6], rf := [1.0, 0.3, 0.5] }

/-- The contract of `shells` on the values `l`: the array is left sorted in
ascending order, the key is a permutation of the positions `0 .. n-1`, and the
value left at position `i` is the value that was at position `key[i]`. -/
def SortsWithKey {R : Type} [LinearOrderedField R] (H : Hardisp R) (l : List R) : Prop :=
  (H.shells l).1.length = l.length ∧ (H.shells l).1.Sorted (· ≤ ·) ∧
  (H.shells l).2.Perm (List.range l.length) ∧
  ∀ i, i < l.length → (H.shells l).1.getD i 0 = l.getD ((H.shells l).2.getD i 0) 0

/-- The samples as triples (frequency, real part, imaginary part), position by
position. -/
def triples {R : Type} (rf rl aim : List R) : List (R × R × R) :=
  rf.zip (rl.zip aim)

/-- A stand-in for `shells`, used in the examples: insertion sort of the
values paired with their positions; it returns the sorted values and the
positions they came from. -/
def sortWithKey {R : Type} [LinearOrder R] (l : List R) : List R × List Nat :=
  (((l.zip (List.range l.length)).insertionSort (fun a b => a.1 ≤ b.1)).map (·.1),
   ((l.zip (List.range l.length)).insertionSort (fun a b => a.1 ≤ b.1)).map (·.2))

/-- The stand-in routines with the sorter `sortWithKey`. -/
def sortingHardisp (R : Type) [LinearOrderedField R] : Hardisp R :=
  { tdfrph := (exampleHardisp R).tdfrph
    shells := sortWithKey
    spline := (exampleHardisp R).spline
    eval := (exampleHardisp R).eval }

/-! ## The Doodson match test -/

theorem doodsonDiffExact_unfold (a b : Doodson) : doodsonDiffExact a b =
    |a 0 - b 0| + |a 1 - b 1| + |a 2 - b 2| + |a 3 - b 3| + |a 4 - b 4| + |a 5 - b 5| := by
  simp [doodsonDiffExact, List.finRange, List.pmap, List.range, List.range.loop]
  rfl

theorem doodsonDiffExact_eq_zero_iff (a b : Doodson) : doodsonDiffExact a b = 0 ↔ a = b := by
  rw [doodsonDiffExact_unfold]
  have h0 := abs_nonneg (a 0 - b 0)
  have h1 := abs_nonneg (a 1 - b 1)
  have h2 := abs_nonneg (a 2 - b 2)
  have h3 := abs_nonneg (a 3 - b 3)
  have h4 := abs_nonneg (a 4 - b 4)
  have h5 := abs_nonneg (a 5 - b 5)
  constructor
  · intro h
    have e0 : |a 0 - b 0| = 0 := by omega
    have e1 : |a 1 - b 1| = 0 := by omega
    have e2 : |a 2 - b 2| = 0 := by omega
    have e3 : |a 3 - b 3| = 0 := by omega
    have e4 : |a 4 - b 4| = 0 := by omega
    have e5 : |a 5 - b 5| = 0 := by omega
    rw [abs_eq_zero, sub_eq_zero] at e0 e1 e2 e3 e4 e5
    funext i
    fin_cases i <;> assumption
  · intro h
    simp [h]

theorem wrap32_of_range {x : Int} (h1 : -2147483648 ≤ x) (h2 : x < 2147483648) :
    wrap32 x = x := by
  unfold wrap32
  omega

theorem doodsonDiff_unfold (a b : Doodson) : doodsonDiff a b =
    wrap32 (wrap32 (wrap32 (wrap32 (wrap32 (wrap32 (0 + wrap32 |wrap32 (a 0 - b 0)|) +
      wrap32 |wrap32 (a 1 - b 1)|) + wrap32 |wrap32 (a 2 - b 2)|) +
      wrap32 |wrap32 (a 3 - b 3)|) + wrap32 |wrap32 (a 4 - b 4)|) +
      wrap32 |wrap32 (a 5 - b 5)|) := by
  simp [doodsonDiff, List.finRange, List.pmap, List.range, List.range.loop]
  rfl

theorem abs_sub_small {x y : Int} (hx : |x| ≤ 134217728) (hy : |y| ≤ 134217728) :
    0 ≤ |x - y| ∧ |x - y| ≤ 268435456 ∧ wrap32 |wrap32 (x - y)| = |x - y| := by
  have h1 := abs_le.1 hx
  have h2 := abs_le.1 hy
  have h3 : |x - y| ≤ 268435456 := abs_le.2 ⟨by omega, by omega⟩
  have h4 := abs_nonneg (x - y)
  have h5 : wrap32 (x - y) = x - y := wrap32_of_range (by omega) (by omega)
  refine ⟨h4, h3, ?_⟩
  rw [h5, wrap32_of_range (by omega) (by omega)]

theorem doodsonDiff_eq_exact (a b : Doodson) (ha : SmallCode a) (hb : SmallCode b) :
    doodsonDiff a b = doodsonDiffExact a b := by
  rw [doodsonDiff_unfold, doodsonDiffExact_unfold]
  obtain ⟨p0, q0, e0⟩ := abs_sub_small (ha 0) (hb 0)
  obtain ⟨p1, q1, e1⟩ := abs_sub_small (ha 1) (hb 1)
  obtain ⟨p2, q2, e2⟩ := abs_sub_small (ha 2) (hb 2)
  obtain ⟨p3, q3, e3⟩ := abs_sub_small (ha 3) (hb 3)
  obtain ⟨p4, q4, e4⟩ := abs_sub_small (ha 4) (hb 4)
  obtain ⟨p5, q5, e5⟩ := abs_sub_small (ha 5) (hb 5)
  rw [e0, e1, e2, e3, e4, e5]
  rw [wrap32_of_range (x := 0 + |a 0 - b 0|) (by omega) (by omega)]
  rw [wrap32_of_range (x := 0 + |a 0 - b 0| + |a 1 - b 1|) (by omega) (by omega)]
  rw [wrap32_of_range (x := 0 + |a 0 - b 0| + |a 1 - b 1| + |a 2 - b 2|) (by omega) (by omega)]
  rw [wrap32_of_range (x := 0 + |a 0 - b 0| + |a 1 - b 1| + |a 2 - b 2| + |a 3 - b 3|)
    (by omega) (by omega)]
  rw [wrap32_of_range (x := 0 + |a 0 - b 0| + |a 1 - b 1| + |a 2 - b 2| + |a 3 - b 3| +
    |a 4 - b 4|) (by omega) (by omega)]
  rw [wrap32_of_range (x := 0 + |a 0 - b 0| + |a 1 - b 1| + |a 2 - b 2| + |a 3 - b 3| +
    |a 4 - b 4| + |a 5 - b 5|) (by omega) (by omega)]
  omega

theorem doodsonDiff_self (a : Doodson) : doodsonDiff a a = 0 := by
  rw [doodsonDiff_unfold]
  simp [wrap32]

theorem doodsonDiff_eq_zero_iff (a b : Doodson) (ha : SmallCode a) (hb : SmallCode b) :
    doodsonDiff a b = 0 ↔ a = b := by
  rw [doodsonDiff_eq_exact a b ha hb, doodsonDiffExact_eq_zero_iff]

set_option maxRecDepth 100000 in
theorem idd_bounds : ∀ d ∈ idd, ∀ i, -6 ≤ d i ∧ d i ≤ 6 := by decide

theorem smallCode_iddAt (kk : Nat) : SmallCode (iddAt kk) := by
  intro i
  unfold iddAt
  by_cases h : kk < idd.length
  · rw [List.getD_eq_getElem _ _ h]
    have hb := idd_bounds _ (List.getElem_mem h) i
    exact abs_le.2 ⟨by omega, by omega⟩
  · rw [List.getD_eq_default _ _ (by omega)]
    simp

theorem match_iff_eq (kk : Nat) (b : Doodson) (hb : SmallCode b) :
    doodsonDiff (iddAt kk) b = 0 ↔ iddAt kk = b :=
  doodsonDiff_eq_zero_iff _ _ (smallCode_iddAt kk) hb

theorem filter_match_eq (x : Doodson) (hx : SmallCode x) (ks : List Nat) :
    (ks.filter fun kk => doodsonDiff (iddAt kk) x = 0) = ks.filter fun kk => iddAt kk = x := by
  apply List.filter_congr
  intro kk _
  simp [match_iff_eq kk x hx]

theorem matchedPairs_eq_identical {R : Type} (inputs : List (Constituent R))
    (h : ∀ c ∈ inputs, SmallCode c.idtin) : matchedPairs inputs = identicalPairs inputs := by
  induction inputs with
  | nil => rfl
  | cons c cs ih =>
    have hc := h c (List.mem_cons_self _ _)
    have ih' := ih (fun x hx => h x (List.mem_cons_of_mem _ hx))
    simp only [matchedPairs, identicalPairs, List.flatMap_cons] at ih' ⊢
    rw [ih', filter_match_eq c.idtin hc]

/-! ## The matching loop -/

theorem take_append_singleton {α : Type} (n : Nat) (A : List α) (s : α) :
    (A ++ [s]).take n = if (A.take n).length < n then A.take n ++ [s] else A.take n := by
  by_cases h : A.length < n
  · have h1 : A.take n = A := List.take_of_length_le (by omega)
    have h2 : (A ++ [s]).take n = A ++ [s] := List.take_of_length_le (by simp; omega)
    rw [h1, h2, if_pos h]
  · have h1 : (A.take n).length = n := by simp; omega
    rw [List.take_append_of_le_length (by omega), if_neg (by omega)]

theorem matchStep_ofList {R : Type} [LinearOrderedField R] (M : LibM R) (H : Hardisp R)
    (itm : Epoch) (c : Constituent R) (L : List (R × R × R)) (kk : Nat) :
    matchStep M H itm c (Samples.ofList L) kk =
      Samples.ofList (if doodsonDiff (iddAt kk) c.idtin = 0 ∧ L.length < ncon
        then L ++ [sampleOf M H itm c kk] else L) := by
  simp only [matchStep]
  by_cases h : doodsonDiff (iddAt kk) c.idtin = 0 ∧ L.length < ncon
  · have h' : doodsonDiff (iddAt kk) c.idtin = 0 ∧ (Samples.ofList L).k < ncon := h
    rw [if_pos h', if_pos h]
    simp [Samples.ofList, sampleOf]
  · have h' : ¬ (doodsonDiff (iddAt kk) c.idtin = 0 ∧ (Samples.ofList L).k < ncon) := h
    rw [if_neg h', if_neg h]

theorem foldl_matchStep {R : Type} [LinearOrderedField R] (M : LibM R) (H : Hardisp R)
    (itm : Epoch) (c : Constituent R) (ks : List Nat) (A : List (R × R × R)) :
    ks.foldl (matchStep M H itm c) (Samples.ofList (A.take ncon)) =
      Samples.ofList ((A ++ (ks.filter fun kk => doodsonDiff (iddAt kk) c.idtin = 0).map
        (sampleOf M H itm c)).take ncon) := by
  induction ks generalizing A with
  | nil => simp
  | cons kk ks ih =>
    rw [List.foldl_cons, matchStep_ofList]
    by_cases hm : doodsonDiff (iddAt kk) c.idtin = 0
    · have e : (if doodsonDiff (iddAt kk) c.idtin = 0 ∧ (A.take ncon).length < ncon
          then A.take ncon ++ [sampleOf M H itm c kk] else A.take ncon) =
          (A ++ [sampleOf M H itm c kk]).take ncon := by
        rw [take_append_singleton]
        simp [hm]
      rw [e, ih, List.filter_cons_of_pos (by simpa using hm)]
      simp
    · rw [if_neg (fun h => hm h.1), ih, List.filter_cons_of_neg (by simpa using hm)]

theorem foldl_scanCatalog {R : Type} [LinearOrderedField R] (M : LibM R) (H : Hardisp R)
    (itm : Epoch) (inputs : List (Constituent R)) (A : List (R × R × R)) :
    inputs.foldl (scanCatalog M H itm) (Samples.ofList (A.take ncon)) =
      Samples.ofList ((A ++ (matchedPairs inputs).map
        (fun q => sampleOf M H itm q.1 q.2)).take ncon) := by
  induction inputs generalizing A with
  | nil => simp [matchedPairs]
  | cons c cs ih =>
    rw [List.foldl_cons, scanCatalog, foldl_matchStep, ih]
    simp [matchedPairs, Function.comp_def]

theorem matchLoop_eq {R : Type} [LinearOrderedField R] (M : LibM R) (H : Hardisp R)
    (itm : Epoch) (inputs : List (Constituent R)) :
    matchLoop M H itm inputs =
      Samples.ofList (((matchedPairs inputs).map
        (fun q => sampleOf M H itm q.1 q.2)).take ncon) := by
  have h := foldl_scanCatalog M H itm inputs []
  simpa [matchLoop, Samples.ofList] using h

/-! ## The catalogue -/

set_option maxRecDepth 100000 in
theorem idd_length : idd.length = nt := by decide

set_option maxRecDepth 100000 in
theorem species_range : ∀ i ∈ List.range nt, iddAt i 0 = 0 ∨ iddAt i 0 = 1 ∨ iddAt i 0 = 2 := by
  decide

set_option maxRecDepth 100000 in
theorem evaluated_zero : evaluated 0 = List.range 263 := by decide

set_option maxRecDepth 100000 in
theorem filter_species_length : (idd.filter fun d => d 0 ≠ 0).length = 263 := by decide

theorem evaluated_pos {nlp : Nat} (h : 0 < nlp) : evaluated nlp = List.range nt := by
  unfold evaluated
  rw [List.filter_eq_self]
  intro i _
  simp [h]

theorem iddAt_mem {kk : Nat} (h : kk < nt) : iddAt kk ∈ idd := by
  have hl : kk < idd.length := by rw [idd_length]; exact h
  unfold iddAt
  rw [List.getD_eq_getElem _ _ hl]
  exact List.getElem_mem hl

/-! ## The counting loop -/

theorem foldl_countStep {R : Type} [LinearOrderedField R] (rf rl : List R) (key : List Nat)
    (is : List Nat) (c : Counts R) :
    (is.foldl (countStep rf rl key) c).nlp = c.nlp + is.countP (fun i => rf.getD i 0 < 0.5) ∧
    (is.foldl (countStep rf rl key) c).ndi =
      c.ndi + is.countP (fun i => rf.getD i 0 < 1.5 ∧ rf.getD i 0 > 0.5) ∧
    (is.foldl (countStep rf rl key) c).nsd =
      c.nsd + is.countP (fun i => rf.getD i 0 < 2.5 ∧ rf.getD i 0 > 1.5) ∧
    (is.foldl (countStep rf rl key) c).scr =
      c.scr ++ is.map (fun i => rl.getD (key.getD i 0) 0) := by
  induction is generalizing c with
  | nil => simp
  | cons i is ih =>
    rw [List.foldl_cons]
    obtain ⟨h1, h2, h3, h4⟩ := ih (countStep rf rl key c i)
    rw [h1, h2, h3, h4]
    simp only [countStep, List.countP_cons, List.map_cons]
    refine ⟨?_, ?_, ?_, ?_⟩
    · by_cases h : rf.getD i 0 < 0.5
      · simp only [if_pos h, decide_eq_true h]; simp; omega
      · simp only [if_neg h, decide_eq_false h]; simp
    · by_cases h : rf.getD i 0 < 1.5 ∧ rf.getD i 0 > 0.5
      · simp only [if_pos h, decide_eq_true h]; simp; omega
      · simp only [if_neg h, decide_eq_false h]; simp
    · by_cases h : rf.getD i 0 < 2.5 ∧ rf.getD i 0 > 1.5
      · simp only [if_pos h, decide_eq_true h]; simp; omega
      · simp only [if_neg h, decide_eq_false h]; simp
    · simp

theorem countLoop_nlp_pos {R : Type} [LinearOrderedField R] (k : Nat) (rf rl : List R)
    (key : List Nat) : 0 < (countLoop k rf rl key).nlp ↔ ∃ i < k, rf.getD i 0 < 0.5 := by
  unfold countLoop
  rw [(foldl_countStep rf rl key (List.range k) _).1]
  simp [List.countP_pos_iff]

/-! ## The synthesis loop -/

theorem evalRe_indep {R : Type} (H : Hardisp R) (S : Splines R) (d : Doodson) (sf a b : R)
    (h : d 0 = 0 ∨ d 0 = 1 ∨ d 0 = 2) : evalRe H S d sf a = evalRe H S d sf b := by
  unfold evalRe
  rcases h with h | h | h <;> simp [h]

theorem evalAm_indep {R : Type} (H : Hardisp R) (S : Splines R) (d : Doodson) (sf a b : R)
    (h : d 0 = 0 ∨ d 0 = 1 ∨ d 0 = 2) : evalAm H S d sf a = evalAm H S d sf b := by
  unfold evalAm
  rcases h with h | h | h <;> simp [h]

theorem keep_iff {i nlp : Nat} (h : iddAt i 0 = 0 ∨ iddAt i 0 = 1 ∨ iddAt i 0 = 2) :
    iddAt i 0 + (nlp : Int) ≠ 0 ↔ (iddAt i 0 ≠ 0 ∨ 0 < nlp) := by
  omega

theorem foldl_synthStep {R : Type} [LinearOrderedField R] (M : LibM R) (H : Hardisp R)
    (itm : Epoch) (S : Splines R) (is : List Nat)
    (hs : ∀ i ∈ is, iddAt i 0 = 0 ∨ iddAt i 0 = 1 ∨ iddAt i 0 = 2) (o : Synth R) :
    (is.foldl (synthStep M H itm S) o).j =
      o.j + (is.filter fun i => iddAt i 0 ≠ 0 ∨ 0 < S.nlp).length ∧
    (is.foldl (synthStep M H itm S) o).amp =
      o.amp ++ (is.filter fun i => iddAt i 0 ≠ 0 ∨ 0 < S.nlp).map
        (fun i => (harmonic M H itm S i).1) ∧
    (is.foldl (synthStep M H itm S) o).f =
      o.f ++ (is.filter fun i => iddAt i 0 ≠ 0 ∨ 0 < S.nlp).map
        (fun i => (harmonic M H itm S i).2.1) ∧
    (is.foldl (synthStep M H itm S) o).p =
      o.p ++ (is.filter fun i => iddAt i 0 ≠ 0 ∨ 0 < S.nlp).map
        (fun i => (harmonic M H itm S i).2.2) := by
  induction is generalizing o with
  | nil => simp
  | cons i is ih =>
    have hi := hs i (List.mem_cons_self _ _)
    have hs' : ∀ i ∈ is, iddAt i 0 = 0 ∨ iddAt i 0 = 1 ∨ iddAt i 0 = 2 :=
      fun x hx => hs x (List.mem_cons_of_mem _ hx)
    rw [List.foldl_cons]
    obtain ⟨h1, h2, h3, h4⟩ := ih hs' (synthStep M H itm S o i)
    rw [h1, h2, h3, h4]
    by_cases hk : iddAt i 0 ≠ 0 ∨ 0 < S.nlp
    · have hk' : iddAt i 0 + (S.nlp : Int) ≠ 0 := (keep_iff hi).2 hk
      rw [List.filter_cons_of_pos (by simpa using hk)]
      simp only [synthStep, if_pos hk', harmonic, List.map_cons, List.length_cons,
        evalRe_indep H S _ _ o.re 0 hi, evalAm_indep H S _ _ o.am 0 hi]
      refine ⟨by omega, ?_, ?_, ?_⟩ <;> simp
    · have hk' : ¬ (iddAt i 0 + (S.nlp : Int) ≠ 0) := fun h => hk ((keep_iff hi).1 h)
      rw [List.filter_cons_of_neg (by simpa using hk)]
      simp [synthStep, hk']

theorem synthLoop_eq {R : Type} [LinearOrderedField R] (M : LibM R) (H : Hardisp R)
    (itm : Epoch) (S : Splines R) :
    (synthLoop M H itm S).j = (evaluated S.nlp).length ∧
    (synthLoop M H itm S).amp = (evaluated S.nlp).map (fun i => (harmonic M H itm S i).1) ∧
    (synthLoop M H itm S).f = (evaluated S.nlp).map (fun i => (harmonic M H itm S i).2.1) ∧
    (synthLoop M H itm S).p = (evaluated S.nlp).map (fun i => (harmonic M H itm S i).2.2) := by
  have h := foldl_synthStep M H itm S (List.range nt) species_range
    { j := 0, amp := [], f := [], p := [], re := 0, am := 0 }
  simpa [synthLoop, evaluated] using h

theorem evaluated_length (nlp : Nat) :
    (evaluated nlp).length = if nlp = 0 then 263 else 342 := by
  by_cases h : nlp = 0
  · subst h; rw [evaluated_zero]; simp
  · rw [evaluated_pos (by omega), if_neg h]; simp [nt]

/-! ## Claims on the matching phase -/

theorem matchLoop_k {R : Type} [LinearOrderedField R] (M : LibM R) (H : Hardisp R)
    (itm : Epoch) (inputs : List (Constituent R)) :
    (matchLoop M H itm inputs).k = min 20 (matchedPairs inputs).length := by
  rw [matchLoop_eq]
  simp [Samples.ofList, ncon]

theorem mem_identicalPairs {R : Type} (inputs : List (Constituent R))
    (q : Constituent R × Nat) :
    q ∈ identicalPairs inputs ↔ q.1 ∈ inputs ∧ q.2 < nt ∧ iddAt q.2 = q.1.idtin := by
  obtain ⟨c, kk⟩ := q
  simp only [identicalPairs, List.mem_flatMap, List.mem_map, List.mem_filter, List.mem_range,
    decide_eq_true_eq, Prod.mk.injEq]
  constructor
  · rintro ⟨c', hc', kk', ⟨h1, h2⟩, rfl, rfl⟩
    exact ⟨hc', h1, h2⟩
  · rintro ⟨h1, h2, h3⟩
    exact ⟨c, h1, kk, ⟨h2, h3⟩, rfl, rfl⟩

theorem capacity_truncation_small {R : Type} [LinearOrderedField R] (M : LibM R)
    (H : Hardisp R) (itm : Epoch) (inputs : List (Constituent R))
    (hs : ∀ c ∈ inputs, SmallCode c.idtin) :
    (matchLoop M H itm inputs).k = min 20 (identicalPairs inputs).length ∧
    matchLoop M H itm inputs =
      Samples.ofList (((identicalPairs inputs).take (matchLoop M H itm inputs).k).map
        (fun q => sampleOf M H itm q.1 q.2)) := by
  have hk := matchLoop_k M H itm inputs
  rw [matchedPairs_eq_identical inputs hs] at hk
  refine ⟨hk, ?_⟩
  rw [hk, matchLoop_eq, matchedPairs_eq_identical inputs hs, List.map_take]
  have e : ∀ L : List (R × R × R), L.take ncon = L.take (min 20 L.length) := by
    intro L
    rw [List.take_eq_take]
    simp [ncon]
  have h := e ((identicalPairs inputs).map (fun q => sampleOf M H itm q.1 q.2))
  rw [List.length_map] at h
  rw [h]

theorem unmatched_small_input_ignored {R : Type} [LinearOrderedField R] (M : LibM R)
    (H : Hardisp R) (itm : Epoch) (pre post : List (Constituent R)) (c : Constituent R)
    (hs : SmallCode c.idtin) (h : ∀ d ∈ idd, d ≠ c.idtin) :
    matchLoop M H itm (pre ++ c :: post) = matchLoop M H itm (pre ++ post) ∧
    admint M H itm (pre ++ c :: post) = admint M H itm (pre ++ post) := by
  have hf : ((List.range nt).filter fun kk => doodsonDiff (iddAt kk) c.idtin = 0) = [] := by
    rw [filter_match_eq c.idtin hs, List.filter_eq_nil_iff]
    intro kk hkk
    have := h (iddAt kk) (iddAt_mem (List.mem_range.1 hkk))
    simpa using this
  have hp : matchedPairs (pre ++ c :: post) = matchedPairs (pre ++ post) := by
    simp [matchedPairs, hf]
  have hm : matchLoop M H itm (pre ++ c :: post) = matchLoop M H itm (pre ++ post) := by
    rw [matchLoop_eq, matchLoop_eq, hp]
  exact ⟨hm, by unfold admint; rw [hm]⟩

set_option maxRecDepth 100000 in
theorem matches_M2 :
    ((List.range nt).filter fun kk => doodsonDiff (iddAt kk) (row 2 0 0 0 0 0) = 0) = [0] := by
  have h : SmallCode (row 2 0 0 0 0 0) := smallCode_iddAt 0
  rw [filter_match_eq _ h]
  decide

/-! ### The match test at a code that overflows -/

set_option maxRecDepth 100000 in
theorem overflowCode_not_in_catalogue : overflowCode ∉ idd := by decide

set_option maxRecDepth 100000 in
theorem overflow_rows_length :
    ((List.range nt).filter fun kk => doodsonDiff (iddAt kk) overflowCode = 0).length = 98 := by
  decide!

set_option maxRecDepth 100000 in
theorem overflow_rows_take :
    ((List.range nt).filter fun kk => doodsonDiff (iddAt kk) overflowCode = 0).take 20 =
      overflowRows := by
  decide!

set_option maxRecDepth 100000 in
theorem overflow_identical :
    ((List.range nt).filter fun kk => iddAt kk = overflowCode) = [] := by
  decide

theorem matchLoop_overflow {R : Type} [LinearOrderedField R] (M : LibM R) (H : Hardisp R)
    (itm : Epoch) :
    matchLoop M H itm [overflowInput R] =
      Samples.ofList (overflowRows.map (sampleOf M H itm (overflowInput R))) := by
  have e : matchedPairs [overflowInput R] =
      ((List.range nt).filter fun kk => doodsonDiff (iddAt kk) overflowCode = 0).map
        fun kk => (overflowInput R, kk) := by
    simp [matchedPairs, overflowInput]
  rw [matchLoop_eq, e, List.map_map, ← List.map_take]
  have hn : ncon = 20 := rfl
  rw [hn, overflow_rows_take]
  rfl

theorem overflow_first_row :
    doodsonDiff (iddAt 0) overflowCode = 0 ∧
    doodsonDiffExact (iddAt 0) overflowCode = 4294967296 := by
  decide

theorem overflow_admint :
    (admint exampleLibM (exampleHardisp ℚ) exampleEpoch [overflowInput ℚ]).amp.getD 0 0 ≠
    (admint exampleLibM (exampleHardisp ℚ) exampleEpoch []).amp.getD 0 0 := by
  decide!

/-- C3, the code at the failing input: the Doodson code `overflowCode`, whose
components fit a 32-bit `int`, equals no catalogue entry, and yet the 32-bit
sum `ii` is 0 against the entry 0 (the exact sum is `2^32`); the input
contributes 20 samples, those of the catalogue entries `overflowRows`, where
the list without it gives none, and the outputs differ. -/
theorem unmatched_input_stored {R : Type} [LinearOrderedField R] (M : LibM R)
    (H : Hardisp R) (itm : Epoch) :
    (overflowInput R).idtin = overflowCode ∧
    (∀ i : Fin 6, -2147483648 ≤ overflowCode i ∧ overflowCode i < 2147483648) ∧
    overflowCode ∉ idd ∧
    doodsonDiff (iddAt 0) overflowCode = 0 ∧
    doodsonDiffExact (iddAt 0) overflowCode = 4294967296 ∧
    (matchLoop M H itm ([] ++ overflowInput R :: [])).k = 20 ∧
    (matchLoop M H itm ([] ++ overflowInput R :: [])).rf =
      overflowRows.map (fun kk => (H.tdfrph (iddAt kk) itm).1) ∧
    (matchLoop M H itm ([] ++ overflowInput R :: [])).rl =
      overflowRows.map (fun kk => 1 * M.cos (dtr R * 0) / |tampAt R kk|) ∧
    (matchLoop M H itm ([] ++ overflowInput R :: [])).aim =
      overflowRows.map (fun kk => 1 * M.sin (dtr R * 0) / |tampAt R kk|) ∧
    (matchLoop M H itm ([] ++ [])).k = 0 ∧
    matchLoop M H itm ([] ++ overflowInput R :: []) ≠ matchLoop M H itm ([] ++ []) ∧
    (admint exampleLibM (exampleHardisp ℚ) exampleEpoch ([] ++ overflowInput ℚ :: [])).amp.getD 0 0 ≠
      (admint exampleLibM (exampleHardisp ℚ) exampleEpoch ([] ++ [])).amp.getD 0 0 := by
  have h := matchLoop_overflow M H itm
  have e : ([] : List (Constituent R)) ++ overflowInput R :: [] = [overflowInput R] := rfl
  have hk : (matchLoop M H itm [overflowInput R]).k = 20 := by rw [h]; rfl
  refine ⟨rfl, by decide, overflowCode_not_in_catalogue, overflow_first_row.1,
    overflow_first_row.2, ?_, ?_, ?_, ?_, rfl, ?_, overflow_admint⟩
  · rw [e, hk]
  · rw [e, h]
    simp [Samples.ofList, sampleOf, Function.comp_def]
  · rw [e, h]
    simp [Samples.ofList, sampleOf, overflowInput, Function.comp_def]
  · rw [e, h]
    simp [Samples.ofList, sampleOf, overflowInput, Function.comp_def]
  · intro hne
    have h0 : (matchLoop M H itm ([] ++ [])).k = 0 := rfl
    rw [← hne, e, hk] at h0
    exact absurd h0 (by decide)

/-- C4, the code at the failing input: for the single input `overflowInput`
no (input, catalogue entry) pair has identical Doodson codes, so `M = 0` and
`min (20, M) = 0`, and yet 98 catalogue entries pass the 32-bit test and the
loop stores `k = 20` samples, those of the first 20 of these entries. -/
theorem samples_without_identical_pair {R : Type} [LinearOrderedField R] (M : LibM R)
    (H : Hardisp R) (itm : Epoch) :
    identicalPairs [overflowInput R] = [] ∧
    min 20 (identicalPairs [overflowInput R]).length = 0 ∧
    (matchedPairs [overflowInput R]).length = 98 ∧
    (matchLoop M H itm [overflowInput R]).k = 20 ∧
    matchLoop M H itm [overflowInput R] =
      Samples.ofList (overflowRows.map (sampleOf M H itm (overflowInput R))) ∧
    (matchLoop M H itm [overflowInput R]).k ≠ min 20 (identicalPairs [overflowInput R]).length := by
  have h := matchLoop_overflow M H itm
  have hk : (matchLoop M H itm [overflowInput R]).k = 20 := by rw [h]; rfl
  have hi : identicalPairs [overflowInput R] = [] := by
    simp only [identicalPairs, List.flatMap_cons, List.flatMap_nil, List.append_nil]
    have : (overflowInput R).idtin = overflowCode := rfl
    rw [this, overflow_identical]
    rfl
  have hm : (matchedPairs [overflowInput R]).length = 98 := by
    simp only [matchedPairs, List.flatMap_cons, List.flatMap_nil, List.append_nil,
      List.length_map]
    exact overflow_rows_length
  refine ⟨hi, by rw [hi]; rfl, hm, hk, h, ?_⟩
  rw [hk, hi]
  simp

/-- C6: a match at catalogue index `kk` while fewer than 20 samples are
stored appends the sample `rl = ampin*cos(dtr*phin)/|tamp[kk]|`,
`aim = ampin*sin(dtr*phin)/|tamp[kk]|`, `rf` = the provider frequency of
`idd[kk]`; and the single input `{2,0,0,0,0,0}` with amplitude 1.0 and phase 0
yields exactly one sample, with `rl = 1/0.632208` and `aim = 0`, as soon as
`cos 0 = 1` and `sin 0 = 0`. -/
theorem stored_sample_formula {R : Type} [LinearOrderedField R] (M : LibM R) (H : Hardisp R)
    (itm : Epoch) :
    (∀ (c : Constituent R) (st : Samples R) (kk : Nat),
      iddAt kk = c.idtin → st.k < ncon →
      matchStep M H itm c st kk =
        { k := st.k + 1
          rl := st.rl ++ [c.ampin * M.cos (dtr R * c.phin) / |tampAt R kk|]
          aim := st.aim ++ [c.ampin * M.sin (dtr R * c.phin) / |tampAt R kk|]
          rf := st.rf ++ [(H.tdfrph (iddAt kk) itm).1] }) ∧
    (M.cos 0 = 1 → M.sin 0 = 0 →
      matchLoop M H itm [{ idtin := row 2 0 0 0 0 0, ampin := 1.0, phin := 0 }] =
        { k := 1, rl := [1 / 0.632208], aim := [0]
          rf := [(H.tdfrph (row 2 0 0 0 0 0) itm).1] }) := by
  constructor
  · intro c st kk hm hk
    have hd : doodsonDiff (iddAt kk) c.idtin = 0 := by rw [← hm]; exact doodsonDiff_self _
    simp [matchStep, hd, hk]
  · intro hc hs
    have h0 : iddAt 0 = row 2 0 0 0 0 0 := rfl
    have ht : tampAt R 0 = 0.632208 := rfl
    have ha : |(0.632208 : R)| = 0.632208 := abs_of_pos (by norm_num)
    rw [matchLoop_eq]
    simp [matchedPairs, matches_M2, Samples.ofList, sampleOf, ncon, hc, hs, h0, ht, ha]
    norm_num

/-- With the real cosine and sine, the input `{2,0,0,0,0,0}`, amplitude 1.0,
phase 0 is stored as the one sample `rl = 1/0.632208`, `aim = 0`. -/
theorem stored_sample_formula_witness :
    matchLoop (⟨Real.cos, Real.sin, Real.sqrt, fun y x => Complex.arg ⟨x, y⟩⟩ : LibM ℝ)
        (exampleHardisp ℝ) exampleEpoch
        [{ idtin := row 2 0 0 0 0 0, ampin := 1.0, phin := 0 }] =
      { k := 1, rl := [1 / 0.632208], aim := [0]
        rf := [((exampleHardisp ℝ).tdfrph (row 2 0 0 0 0 0) exampleEpoch).1] } :=
  (stored_sample_formula ⟨Real.cos, Real.sin, Real.sqrt, fun y x => Complex.arg ⟨x, y⟩⟩
    (exampleHardisp ℝ) exampleEpoch).2 Real.cos_zero Real.sin_zero

/-! ## Claims on the synthesis loop -/

set_option maxRecDepth 100000 in
theorem range_map_iddAt : (List.range nt).map iddAt = idd := by decide

theorem evaluated_map_iddAt (nlp : Nat) :
    (evaluated nlp).map iddAt = idd.filter fun d => d 0 ≠ 0 ∨ 0 < nlp := by
  unfold evaluated
  conv_rhs => rw [← range_map_iddAt, List.filter_map]
  rfl

theorem matchLoop_rf_length {R : Type} [LinearOrderedField R] (M : LibM R) (H : Hardisp R)
    (itm : Epoch) (inputs : List (Constituent R)) :
    (matchLoop M H itm inputs).rf.length = (matchLoop M H itm inputs).k := by
  rw [matchLoop_eq]
  simp [Samples.ofList]

theorem admint_f {R : Type} [LinearOrderedField R] (M : LibM R) (H : Hardisp R)
    (itm : Epoch) (inputs : List (Constituent R)) :
    (admint M H itm inputs).f =
      (idd.filter fun d => d 0 ≠ 0 ∨ 0 < (prepare H (matchLoop M H itm inputs)).nlp).map
        (fun d => (H.tdfrph d itm).1) := by
  have h := (synthLoop_eq M H itm (prepare H (matchLoop M H itm inputs))).2.2.1
  rw [← evaluated_map_iddAt, List.map_map]
  simpa [admint, harmonic, Function.comp_def] using h

theorem admint_lengths {R : Type} [LinearOrderedField R] (M : LibM R) (H : Hardisp R)
    (itm : Epoch) (inputs : List (Constituent R)) :
    (admint M H itm inputs).nout =
      (if (prepare H (matchLoop M H itm inputs)).nlp = 0 then 262 else 341) ∧
    (admint M H itm inputs).amp.length =
      (if (prepare H (matchLoop M H itm inputs)).nlp = 0 then 263 else 342) ∧
    (admint M H itm inputs).f.length =
      (if (prepare H (matchLoop M H itm inputs)).nlp = 0 then 263 else 342) ∧
    (admint M H itm inputs).p.length =
      (if (prepare H (matchLoop M H itm inputs)).nlp = 0 then 263 else 342) := by
  obtain ⟨h1, h2, h3, h4⟩ := synthLoop_eq M H itm (prepare H (matchLoop M H itm inputs))
  have hl := evaluated_length (prepare H (matchLoop M H itm inputs)).nlp
  simp only [admint, h1, h2, h3, h4, List.length_map, hl]
  refine ⟨?_, trivial, trivial, trivial⟩
  split <;> simp

/-- C9: the output is the catalogue filtered, in catalogue order, by
`doodson[0] != 0 or nlp > 0`: an entry is skipped exactly when it is
long-period and `nlp = 0`, an entry that is not skipped takes the next output
slot, and `f[j]` is the provider frequency of the `j`-th evaluated entry. -/
theorem output_is_filtered_catalogue {R : Type} [LinearOrderedField R] (M : LibM R)
    (H : Hardisp R) (itm : Epoch) (inputs : List (Constituent R)) :
    (admint M H itm inputs).f =
      (idd.filter fun d => d 0 ≠ 0 ∨ 0 < (prepare H (matchLoop M H itm inputs)).nlp).map
        (fun d => (H.tdfrph d itm).1) ∧
    (admint M H itm inputs).amp.length = (admint M H itm inputs).f.length ∧
    (admint M H itm inputs).p.length = (admint M H itm inputs).f.length ∧
    (∀ (o : Synth R) (i : Nat), i < nt →
      (iddAt i 0 = 0 ∧ (prepare H (matchLoop M H itm inputs)).nlp = 0 →
        synthStep M H itm (prepare H (matchLoop M H itm inputs)) o i = o) ∧
      (¬ (iddAt i 0 = 0 ∧ (prepare H (matchLoop M H itm inputs)).nlp = 0) →
        (synthStep M H itm (prepare H (matchLoop M H itm inputs)) o i).j = o.j + 1 ∧
        (synthStep M H itm (prepare H (matchLoop M H itm inputs)) o i).f =
          o.f ++ [(H.tdfrph (iddAt i) itm).1])) := by
  obtain ⟨_, h2, h3, h4⟩ := admint_lengths M H itm inputs
  refine ⟨admint_f M H itm inputs, by rw [h2, h3], by rw [h4, h3], ?_⟩
  intro o i hi
  have hsp := species_range i (List.mem_range.2 hi)
  constructor
  · rintro ⟨h0, hn⟩
    simp [synthStep, h0, hn]
  · intro hne
    have hk : iddAt i 0 + ((prepare H (matchLoop M H itm inputs)).nlp : Int) ≠ 0 := by
      rw [keep_iff hsp]
      by_contra hc
      exact hne ⟨by omega, by omega⟩
    simp [synthStep, hk]

/-- C10: with no input constituent no sample is collected, the three species
counts are zero, the long-period entries are skipped and the 263 diurnal and
semidiurnal entries are evaluated in catalogue order, and `nout = 262`. -/
theorem zero_inputs {R : Type} [LinearOrderedField R] (M : LibM R) (H : Hardisp R)
    (itm : Epoch) :
    (matchLoop M H itm []).k = 0 ∧
    (prepare H (matchLoop M H itm [])).nlp = 0 ∧
    (prepare H (matchLoop M H itm [])).ndi = 0 ∧
    (prepare H (matchLoop M H itm [])).nsd = 0 ∧
    (admint M H itm []).f = (idd.filter fun d => d 0 ≠ 0).map (fun d => (H.tdfrph d itm).1) ∧
    (admint M H itm []).amp.length = 263 ∧
    (admint M H itm []).f.length = 263 ∧
    (admint M H itm []).p.length = 263 ∧
    (admint M H itm []).nout = 262 := by
  have hn : (prepare H (matchLoop M H itm [])).nlp = 0 := rfl
  obtain ⟨h1, h2, h3, h4⟩ := admint_lengths M H itm []
  refine ⟨rfl, rfl, rfl, rfl, ?_, ?_, ?_, ?_, ?_⟩
  · rw [admint_f, hn]
    simp
  · rw [h2, if_pos hn]
  · rw [h3, if_pos hn]
  · rw [h4, if_pos hn]
  · rw [h1, if_pos hn]

/-- C1: `nout` is the number of output slots written minus one; it is 341,
all 342 catalogue entries being evaluated, when `nlp > 0`, which holds exactly
when a sample has a frequency below 0.5, and 262, exactly the 263 entries with
`doodson[0] != 0` being evaluated, when `nlp = 0`; so `0 <= nout <= 341`. -/
theorem nout_value {R : Type} [LinearOrderedField R] (M : LibM R) (H : Hardisp R)
    (itm : Epoch) (inputs : List (Constituent R)) :
    (admint M H itm inputs).nout = ((admint M H itm inputs).amp.length : Int) - 1 ∧
    (admint M H itm inputs).f.length = (admint M H itm inputs).amp.length ∧
    (admint M H itm inputs).p.length = (admint M H itm inputs).amp.length ∧
    (0 < (prepare H (matchLoop M H itm inputs)).nlp →
      (admint M H itm inputs).nout = 341 ∧
      (admint M H itm inputs).f = idd.map (fun d => (H.tdfrph d itm).1)) ∧
    ((prepare H (matchLoop M H itm inputs)).nlp = 0 →
      (admint M H itm inputs).nout = 262 ∧
      (admint M H itm inputs).f =
        (idd.filter fun d => d 0 ≠ 0).map (fun d => (H.tdfrph d itm).1) ∧
      (idd.filter fun d => d 0 ≠ 0).length = 263) ∧
    (0 ≤ (admint M H itm inputs).nout ∧ (admint M H itm inputs).nout ≤ 341) ∧
    (0 < (prepare H (matchLoop M H itm inputs)).nlp ↔
      ∃ i < (matchLoop M H itm inputs).k,
        (prepare H (matchLoop M H itm inputs)).rf.getD i 0 < 0.5) ∧
    ((H.shells (matchLoop M H itm inputs).rf).1.Perm (matchLoop M H itm inputs).rf →
      (0 < (prepare H (matchLoop M H itm inputs)).nlp ↔
        ∃ x ∈ (matchLoop M H itm inputs).rf, x < 0.5)) := by
  obtain ⟨h1, h2, h3, h4⟩ := admint_lengths M H itm inputs
  have hc : 0 < (prepare H (matchLoop M H itm inputs)).nlp ↔
      ∃ i < (matchLoop M H itm inputs).k,
        (prepare H (matchLoop M H itm inputs)).rf.getD i 0 < 0.5 :=
    countLoop_nlp_pos _ _ _ _
  refine ⟨?_, by rw [h3, h2], by rw [h4, h2], ?_, ?_, ?_, hc, ?_⟩
  · rw [h1, h2]; split <;> simp
  · intro hp
    refine ⟨by rw [h1, if_neg (by omega)], ?_⟩
    have hf : (idd.filter fun d =>
        d 0 ≠ 0 ∨ 0 < (prepare H (matchLoop M H itm inputs)).nlp) = idd := by
      rw [List.filter_eq_self]
      intro d _
      simp [hp]
    rw [admint_f, hf]
  · intro hz
    refine ⟨by rw [h1, if_pos hz], ?_, filter_species_length⟩
    rw [admint_f, hz]
    simp
  · rw [h1]; split <;> simp
  · intro hperm
    rw [hc]
    have hrf : (prepare H (matchLoop M H itm inputs)).rf =
        (H.shells (matchLoop M H itm inputs).rf).1 := rfl
    have hlen : (H.shells (matchLoop M H itm inputs).rf).1.length =
        (matchLoop M H itm inputs).k := by
      rw [hperm.length_eq, matchLoop_rf_length]
    rw [hrf]
    constructor
    · rintro ⟨i, hi, hlt⟩
      have hi' : i < (H.shells (matchLoop M H itm inputs).rf).1.length := by omega
      rw [List.getD_eq_getElem _ _ hi'] at hlt
      exact ⟨_, hperm.mem_iff.1 (List.getElem_mem hi'), hlt⟩
    · rintro ⟨x, hx, hlt⟩
      obtain ⟨i, hi, rfl⟩ := List.getElem_of_mem (hperm.mem_iff.2 hx)
      exact ⟨i, by omega, by rw [List.getD_eq_getElem _ _ hi]; exact hlt⟩

/-- With the stand-in sorter, which returns its input, and no input
constituent: `nlp > 0` exactly when a collected sample lies below 0.5. -/
theorem nout_value_witness :
    (0 < (prepare (exampleHardisp ℚ) (matchLoop exampleLibM (exampleHardisp ℚ)
        exampleEpoch [])).nlp ↔
      ∃ x ∈ (matchLoop exampleLibM (exampleHardisp ℚ) exampleEpoch []).rf, x < 0.5) :=
  (nout_value exampleLibM (exampleHardisp ℚ) exampleEpoch []).2.2.2.2.2.2.2
    (List.Perm.refl _)

/-! ## A single input constituent -/

set_option maxRecDepth 1000000 in
theorem idd_nodup : idd.Nodup := by
  have h : (idd.map catalogueKey).Nodup := by decide!
  exact List.Nodup.of_map catalogueKey h

set_option maxRecDepth 1000000 in
theorem tamp_ne_zero (R : Type) [LinearOrderedField R] : ∀ x ∈ tamp R, x ≠ 0 := by
  unfold tamp
  simp only [List.forall_mem_cons]
  norm_num

set_option maxRecDepth 1000000 in
theorem tamp_length (R : Type) [LinearOrderedField R] : (tamp R).length = nt := rfl

theorem tampAt_ne_zero (R : Type) [LinearOrderedField R] {i : Nat} (hi : i < nt) :
    tampAt R i ≠ 0 := by
  have hl : i < (tamp R).length := by rw [tamp_length]; exact hi
  unfold tampAt
  rw [List.getD_eq_getElem _ _ hl]
  exact tamp_ne_zero R _ (List.getElem_mem hl)

theorem iddAt_inj {i j : Nat} (hi : i < nt) (hj : j < nt) (h : iddAt i = iddAt j) : i = j := by
  have hi' : i < idd.length := by rw [idd_length]; exact hi
  have hj' : j < idd.length := by rw [idd_length]; exact hj
  unfold iddAt at h
  rw [List.getD_eq_getElem _ _ hi', List.getD_eq_getElem _ _ hj'] at h
  exact (List.Nodup.getElem_inj_iff idd_nodup).1 h

theorem filter_iddAt {i : Nat} (hi : i < nt) :
    ((List.range nt).filter fun kk => iddAt kk = iddAt i) = [i] := by
  have h1 : ((List.range nt).filter fun kk => iddAt kk = iddAt i) =
      (List.range nt).filter fun kk => kk == i := by
    apply List.filter_congr
    intro kk hkk
    have hk := List.mem_range.1 hkk
    by_cases h : kk = i
    · simp [h]
    · have : iddAt kk ≠ iddAt i := fun e => h (iddAt_inj hk hi e)
      simp [h, this]
  rw [h1, List.filter_beq, List.count_eq_one_of_mem (List.nodup_range nt) (List.mem_range.2 hi)]
  rfl

theorem filter_match_iddAt {i : Nat} (hi : i < nt) :
    ((List.range nt).filter fun kk => doodsonDiff (iddAt kk) (iddAt i) = 0) = [i] := by
  rw [filter_match_eq _ (smallCode_iddAt i), filter_iddAt hi]

theorem matchLoop_single {R : Type} [LinearOrderedField R] (M : LibM R) (H : Hardisp R)
    (itm : Epoch) (c : Constituent R) {i : Nat} (hi : i < nt) (hc : c.idtin = iddAt i) :
    matchLoop M H itm [c] = Samples.ofList [sampleOf M H itm c i] := by
  rw [matchLoop_eq]
  simp [matchedPairs, hc, filter_match_iddAt hi, ncon]

theorem prepare_single {R : Type} [LinearOrderedField R] (H : Hardisp R)
    (hsort : ∀ x : R, H.shells [x] = ([x], [0])) (s : R × R × R) :
    (prepare H (Samples.ofList [s])).nlp = (if s.2.2 < 0.5 then 1 else 0) ∧
    (prepare H (Samples.ofList [s])).ndi = (if s.2.2 < 1.5 ∧ s.2.2 > 0.5 then 1 else 0) ∧
    (prepare H (Samples.ofList [s])).nsd = (if s.2.2 < 2.5 ∧ s.2.2 > 1.5 then 1 else 0) ∧
    (prepare H (Samples.ofList [s])).rf = [s.2.2] ∧
    (prepare H (Samples.ofList [s])).rl = [s.1] ∧
    (prepare H (Samples.ofList [s])).aim = [s.2.1] := by
  simp [prepare, Samples.ofList, hsort, countLoop, countStep, copyLoop2, copyLoop3,
    List.range, List.range.loop]

set_option maxRecDepth 100000 in
theorem species_index_lt : ∀ i ∈ List.range nt, iddAt i 0 ≠ 0 → i < 263 := by decide

theorem evaluated_getElem? {nlp i : Nat} (hi : i < nt) (h : iddAt i 0 ≠ 0 ∨ 0 < nlp) :
    (evaluated nlp)[i]? = some i := by
  by_cases hn : nlp = 0
  · subst hn
    have h0 : iddAt i 0 ≠ 0 := by
      rcases h with h | h
      · exact h
      · omega
    rw [evaluated_zero, List.getElem?_range (species_index_lt i (List.mem_range.2 hi) h0)]
  · rw [evaluated_pos (by omega), List.getElem?_range hi]

theorem admint_getD {R : Type} [LinearOrderedField R] (M : LibM R) (H : Hardisp R)
    (itm : Epoch) (inputs : List (Constituent R)) {i : Nat} (hi : i < nt)
    (h : iddAt i 0 ≠ 0 ∨ 0 < (prepare H (matchLoop M H itm inputs)).nlp) :
    (admint M H itm inputs).amp.getD i 0 =
      (harmonic M H itm (prepare H (matchLoop M H itm inputs)) i).1 ∧
    (admint M H itm inputs).f.getD i 0 =
      (harmonic M H itm (prepare H (matchLoop M H itm inputs)) i).2.1 ∧
    (admint M H itm inputs).p.getD i 0 =
      (harmonic M H itm (prepare H (matchLoop M H itm inputs)) i).2.2 := by
  obtain ⟨_, h2, h3, h4⟩ := synthLoop_eq M H itm (prepare H (matchLoop M H itm inputs))
  simp only [admint, h2, h3, h4, List.getD_eq_getElem?_getD, List.getElem?_map,
    evaluated_getElem? hi h, Option.map_some', Option.getD_some, and_self]

theorem single_eval {R : Type} [LinearOrderedField R] (M : LibM R) (H : Hardisp R)
    (itm : Epoch) (c : Constituent R) (i : Nat) (hi : i < nt) (hc : c.idtin = iddAt i)
    (hlp : iddAt i 0 = 0 → (H.tdfrph (iddAt i) itm).1 < 0.5)
    (hdi : iddAt i 0 = 1 → 0.5 < (H.tdfrph (iddAt i) itm).1 ∧ (H.tdfrph (iddAt i) itm).1 < 1.5)
    (hsd : iddAt i 0 = 2 → 1.5 < (H.tdfrph (iddAt i) itm).1 ∧ (H.tdfrph (iddAt i) itm).1 < 2.5)
    (hsort : ∀ x : R, H.shells [x] = ([x], [0]))
    (heval : ∀ (x u : R) (s : List R), H.eval x 1 [x] [u] s = u) :
    evalRe H (prepare H (matchLoop M H itm [c])) (iddAt i) (H.tdfrph (iddAt i) itm).1 0 =
      c.ampin * M.cos (dtr R * c.phin) / |tampAt R i| ∧
    evalAm H (prepare H (matchLoop M H itm [c])) (iddAt i) (H.tdfrph (iddAt i) itm).1 0 =
      c.ampin * M.sin (dtr R * c.phin) / |tampAt R i| ∧
    (iddAt i 0 ≠ 0 ∨ 0 < (prepare H (matchLoop M H itm [c])).nlp) := by
  rw [matchLoop_single M H itm c hi hc]
  obtain ⟨e1, e2, e3, e4, e5, e6⟩ := prepare_single H hsort (sampleOf M H itm c i)
  have hf : (sampleOf M H itm c i).2.2 = (H.tdfrph (iddAt i) itm).1 := rfl
  rw [hf] at e1 e2 e3 e4
  rcases species_range i (List.mem_range.2 hi) with h | h | h
  · have hlt := hlp h
    rw [if_pos hlt] at e1
    refine ⟨?_, ?_, Or.inr (by omega)⟩
    · simp only [evalRe, h, if_true, e1, e4, e5, heval]; rfl
    · simp only [evalAm, h, if_true, e1, e4, e6, heval]; rfl
  · obtain ⟨hgt, hlt⟩ := hdi h
    rw [if_neg (not_lt.2 hgt.le)] at e1
    rw [if_pos ⟨hlt, hgt⟩] at e2
    refine ⟨?_, ?_, Or.inl (by omega)⟩
    · simp [evalRe, h, e1, e2, e4, e5, heval]; rfl
    · simp [evalAm, h, e1, e2, e4, e6, heval]; rfl
  · obtain ⟨hgt, hlt⟩ := hsd h
    have h15 : (0.5 : R) < 1.5 := by norm_num
    rw [if_neg (not_lt.2 (h15.trans hgt).le)] at e1
    rw [if_neg (fun hh => absurd hh.1 (not_lt.2 hgt.le))] at e2
    rw [if_pos ⟨hlt, hgt⟩] at e3
    refine ⟨?_, ?_, Or.inl (by omega)⟩
    · simp [evalRe, h, e1, e2, e3, e4, e5, heval]; rfl
    · simp [evalAm, h, e1, e2, e3, e4, e6, heval]; rfl

/-! ## Real arithmetic -/

theorem dtr_pos : 0 < dtr ℝ := by
  unfold dtr
  norm_num

theorem pi_lt_180_dtr : Real.pi < 180 * dtr ℝ := by
  have h := Real.pi_lt_d20
  unfold dtr
  norm_num at h ⊢
  linarith

theorem atan2_deg_bounds (M : LibM ℝ) (hM : IsRealLibM M) (am re : ℝ) :
    -180 < M.atan2 am re / dtr ℝ ∧ M.atan2 am re / dtr ℝ < 180 := by
  obtain ⟨_, _, _, hat⟩ := hM
  rw [hat, lt_div_iff₀ dtr_pos, div_lt_iff₀ dtr_pos]
  have h1 := Complex.neg_pi_lt_arg (⟨re, am⟩ : ℂ)
  have h2 := Complex.arg_le_pi (⟨re, am⟩ : ℂ)
  have h3 := pi_lt_180_dtr
  constructor <;> linarith

theorem wrapPhase_bounds (M : LibM ℝ) (hM : IsRealLibM M) (pj re am : ℝ)
    (h0 : 0 ≤ pj) (h1 : pj < 540) :
    -180 < wrapPhase M pj re am ∧ wrapPhase M pj re am < 360 ∧
      (pj < 360 → wrapPhase M pj re am ≤ 180) := by
  obtain ⟨ha, hb⟩ := atan2_deg_bounds M hM am re
  unfold wrapPhase
  split
  · refine ⟨by linarith, by linarith, fun _ => by linarith⟩
  · refine ⟨by linarith, by linarith, fun _ => by linarith⟩

theorem phaseOffset_eq (d : Doodson) (pr : ℝ) :
    phaseOffset d pr = pr + (if d 0 = 0 then 180 else if d 0 = 1 then 90 else 0) := by
  unfold phaseOffset
  split
  · rfl
  · split
    · rfl
    · simp

theorem phaseOffset_bounds (d : Doodson) (pr : ℝ) (h0 : 0 ≤ pr) (h1 : pr < 360) :
    0 ≤ phaseOffset d pr ∧ phaseOffset d pr < 540 ∧ (d 0 = 2 → phaseOffset d pr < 360) := by
  rw [phaseOffset_eq]
  refine ⟨?_, ?_, ?_⟩
  · split
    · linarith
    · split <;> linarith
  · split
    · linarith
    · split <;> linarith
  · intro h
    simp [h]
    exact h1

/-- C2, as amended: when the provider returns phases in `[0, 360)`, every
output phase lies in `(-180, 360)`: the single subtraction of 360 leaves values
above 180 for long-period and diurnal entries.  For a semidiurnal entry the
phase is at most 180. -/
theorem output_phase_range (M : LibM ℝ) (H : Hardisp ℝ) (itm : Epoch)
    (inputs : List (Constituent ℝ)) (hM : IsRealLibM M)
    (hph : ∀ d e, 0 ≤ (H.tdfrph d e).2 ∧ (H.tdfrph d e).2 < 360) :
    (∀ p ∈ (admint M H itm inputs).p, -180 < p ∧ p < 360) ∧
    (∀ i, i < nt → iddAt i 0 = 2 → (admint M H itm inputs).p.getD i 0 ≤ 180) := by
  constructor
  · intro p hp
    have h4 := (synthLoop_eq M H itm (prepare H (matchLoop M H itm inputs))).2.2.2
    simp only [admint, h4, List.mem_map] at hp
    obtain ⟨i, _, rfl⟩ := hp
    obtain ⟨h0, h1⟩ := hph (iddAt i) itm
    obtain ⟨b0, b1, _⟩ := phaseOffset_bounds (iddAt i) _ h0 h1
    obtain ⟨w0, w1, _⟩ := wrapPhase_bounds M hM _
      (evalRe H (prepare H (matchLoop M H itm inputs)) (iddAt i) (H.tdfrph (iddAt i) itm).1 0)
      (evalAm H (prepare H (matchLoop M H itm inputs)) (iddAt i) (H.tdfrph (iddAt i) itm).1 0)
      b0 b1
    exact ⟨w0, w1⟩
  · intro i hi h2
    rw [(admint_getD M H itm inputs hi (Or.inl (by omega))).2.2]
    obtain ⟨h0, h1⟩ := hph (iddAt i) itm
    obtain ⟨b0, b1, b2⟩ := phaseOffset_bounds (iddAt i) _ h0 h1
    exact (wrapPhase_bounds M hM _ _ _ b0 b1).2.2 (b2 h2)

theorem sqrt_admittance (a c s T : ℝ) (h : c * c + s * s = 1) :
    Real.sqrt (a * c / T * (a * c / T) + a * s / T * (a * s / T)) = |a| / |T| := by
  have e : a * c / T * (a * c / T) + a * s / T * (a * s / T) =
      a / T * (a / T) * (c * c + s * s) := by ring
  rw [e, h, mul_one, Real.sqrt_mul_self_eq_abs, abs_div]

theorem arg_admittance (a θ T : ℝ) (ha : 0 < a) (hT : 0 < T) (h1 : -Real.pi < θ)
    (h2 : θ ≤ Real.pi) :
    Complex.arg ⟨a * Real.cos θ / T, a * Real.sin θ / T⟩ = θ := by
  have e : (⟨a * Real.cos θ / T, a * Real.sin θ / T⟩ : ℂ) =
      ((a / T : ℝ) : ℂ) * (Complex.cos θ + Complex.sin θ * Complex.I) := by
    apply Complex.ext
    · simp [Complex.cos_ofReal_re, Complex.sin_ofReal_im, Complex.sin_ofReal_re,
        Complex.cos_ofReal_im]
      ring
    · simp [Complex.cos_ofReal_re, Complex.sin_ofReal_im, Complex.sin_ofReal_re,
        Complex.cos_ofReal_im]
      ring
  rw [e]
  exact Complex.arg_mul_cos_add_sin_mul_I (div_pos ha hT) ⟨h1, h2⟩

theorem single_amp (M : LibM ℝ) (H : Hardisp ℝ) (itm : Epoch) (c : Constituent ℝ) (i : Nat)
    (hM : IsRealLibM M) (hi : i < nt) (hc : c.idtin = iddAt i)
    (hlp : iddAt i 0 = 0 → (H.tdfrph (iddAt i) itm).1 < 0.5)
    (hdi : iddAt i 0 = 1 → 0.5 < (H.tdfrph (iddAt i) itm).1 ∧ (H.tdfrph (iddAt i) itm).1 < 1.5)
    (hsd : iddAt i 0 = 2 → 1.5 < (H.tdfrph (iddAt i) itm).1 ∧ (H.tdfrph (iddAt i) itm).1 < 2.5)
    (hsort : ∀ x : ℝ, H.shells [x] = ([x], [0]))
    (heval : ∀ (x u : ℝ) (s : List ℝ), H.eval x 1 [x] [u] s = u) :
    (admint M H itm [c]).amp.getD i 0 = tampAt ℝ i * (|c.ampin| / |tampAt ℝ i|) := by
  obtain ⟨e1, e2, e3⟩ := single_eval M H itm c i hi hc hlp hdi hsd hsort heval
  obtain ⟨hcos, hsin, hsqrt, _⟩ := hM
  have hcs : Real.cos (dtr ℝ * c.phin) * Real.cos (dtr ℝ * c.phin) +
      Real.sin (dtr ℝ * c.phin) * Real.sin (dtr ℝ * c.phin) = 1 := by
    rw [← sq, ← sq]
    exact Real.cos_sq_add_sin_sq _
  rw [(admint_getD M H itm [c] hi e3).1]
  simp only [harmonic, e1, e2]
  rw [hsqrt, hcos, hsin, sqrt_admittance _ _ _ _ hcs, abs_abs]

theorem single_phase (M : LibM ℝ) (H : Hardisp ℝ) (itm : Epoch) (c : Constituent ℝ) (i : Nat)
    (hM : IsRealLibM M) (hi : i < nt) (hc : c.idtin = iddAt i)
    (hlp : iddAt i 0 = 0 → (H.tdfrph (iddAt i) itm).1 < 0.5)
    (hdi : iddAt i 0 = 1 → 0.5 < (H.tdfrph (iddAt i) itm).1 ∧ (H.tdfrph (iddAt i) itm).1 < 1.5)
    (hsd : iddAt i 0 = 2 → 1.5 < (H.tdfrph (iddAt i) itm).1 ∧ (H.tdfrph (iddAt i) itm).1 < 2.5)
    (hsort : ∀ x : ℝ, H.shells [x] = ([x], [0]))
    (heval : ∀ (x u : ℝ) (s : List ℝ), H.eval x 1 [x] [u] s = u)
    (ha : 0 < c.ampin) (hθ : |dtr ℝ * c.phin| < Real.pi) :
    (admint M H itm [c]).p.getD i 0 =
      if (H.tdfrph (iddAt i) itm).2 +
          (if iddAt i 0 = 0 then 180 else if iddAt i 0 = 1 then 90 else 0) + c.phin > 180
      then (H.tdfrph (iddAt i) itm).2 +
          (if iddAt i 0 = 0 then 180 else if iddAt i 0 = 1 then 90 else 0) + c.phin - 360
      else (H.tdfrph (iddAt i) itm).2 +
          (if iddAt i 0 = 0 then 180 else if iddAt i 0 = 1 then 90 else 0) + c.phin := by
  obtain ⟨e1, e2, e3⟩ := single_eval M H itm c i hi hc hlp hdi hsd hsort heval
  obtain ⟨hcos, hsin, _, hat⟩ := hM
  have hT : 0 < |tampAt ℝ i| := abs_pos.2 (tampAt_ne_zero ℝ hi)
  obtain ⟨h1, h2⟩ := abs_lt.1 hθ
  have harg := arg_admittance c.ampin (dtr ℝ * c.phin) |tampAt ℝ i| ha hT h1 h2.le
  have hdiv : dtr ℝ * c.phin / dtr ℝ = c.phin := mul_div_cancel_left₀ _ dtr_pos.ne'
  rw [(admint_getD M H itm [c] hi e3).2.2]
  simp only [harmonic, e1, e2, wrapPhase, hat, hcos, hsin, harg, hdiv, phaseOffset_eq]

/-! ## The stand-in routines -/

theorem example_band {R : Type} [LinearOrderedField R] (e : Epoch) (i : Nat) :
    (iddAt i 0 = 0 → ((exampleHardisp R).tdfrph (iddAt i) e).1 < 0.5) ∧
    (iddAt i 0 = 1 → 0.5 < ((exampleHardisp R).tdfrph (iddAt i) e).1 ∧
      ((exampleHardisp R).tdfrph (iddAt i) e).1 < 1.5) ∧
    (iddAt i 0 = 2 → 1.5 < ((exampleHardisp R).tdfrph (iddAt i) e).1 ∧
      ((exampleHardisp R).tdfrph (iddAt i) e).1 < 2.5) := by
  refine ⟨fun h => ?_, fun h => ?_, fun h => ?_⟩
  · simp only [exampleHardisp, h]; norm_num
  · simp only [exampleHardisp, h]; norm_num
  · simp only [exampleHardisp, h]; norm_num

theorem example_phase {R : Type} [LinearOrderedField R] (d : Doodson) (e : Epoch) :
    0 ≤ ((exampleHardisp R).tdfrph d e).2 ∧ ((exampleHardisp R).tdfrph d e).2 < 360 := by
  simp only [exampleHardisp]
  norm_num

theorem example_sort {R : Type} [LinearOrderedField R] (x : R) :
    (exampleHardisp R).shells [x] = ([x], [0]) := rfl

theorem example_eval {R : Type} [LinearOrderedField R] (x u : R) (s : List R) :
    (exampleHardisp R).eval x 1 [x] [u] s = u := rfl

set_option maxRecDepth 100000 in
theorem iddAt_263 : iddAt 263 = row 0 2 0 0 0 0 := by decide

theorem mem_of_getD_ne_zero {l : List ℝ} {i : Nat} {v : ℝ} (h : l.getD i 0 = v) (hv : v ≠ 0) :
    v ∈ l := by
  by_cases hi : i < l.length
  · rw [List.getD_eq_getElem _ _ hi] at h
    rw [← h]
    exact List.getElem_mem hi
  · rw [List.getD_eq_default _ _ (by omega)] at h
    exact absurd h.symm hv

theorem example_Mf_angle : |dtr ℝ * (exampleMf ℝ).phin| < Real.pi := by
  have h := Real.pi_gt_d2
  have e : dtr ℝ * (exampleMf ℝ).phin = 1.5707963268 := by
    simp only [dtr, exampleMf]
    norm_num
  rw [e, abs_of_pos (by norm_num)]
  norm_num at h ⊢
  linarith

/-- C2, counterexample: with a provider whose phase is 300 throughout, the
single input Mf `{0,2,0,0,0,0}` of amplitude 1 and phase 90 gives, for the
catalogue entry 263 (Mf itself, long-period), the phase
`300 + 180 + 90 - 360 = 210`, which is above 180. -/
theorem phase_above_180 :
    (∀ d e, 0 ≤ ((exampleHardisp ℝ).tdfrph d e).2 ∧ ((exampleHardisp ℝ).tdfrph d e).2 < 360) ∧
    (admint ⟨Real.cos, Real.sin, Real.sqrt, fun y x => Complex.arg ⟨x, y⟩⟩
      (exampleHardisp ℝ) exampleEpoch [exampleMf ℝ]).p.getD 263 0 = 210 ∧
    ¬ (∀ p ∈ (admint ⟨Real.cos, Real.sin, Real.sqrt, fun y x => Complex.arg ⟨x, y⟩⟩
      (exampleHardisp ℝ) exampleEpoch [exampleMf ℝ]).p, -360 < p ∧ p ≤ 180) := by
  have h := single_phase ⟨Real.cos, Real.sin, Real.sqrt, fun y x => Complex.arg ⟨x, y⟩⟩
    (exampleHardisp ℝ) exampleEpoch (exampleMf ℝ) 263 ⟨rfl, rfl, rfl, fun _ _ => rfl⟩
    (by decide) iddAt_263.symm (example_band exampleEpoch 263).1
    (example_band exampleEpoch 263).2.1 (example_band exampleEpoch 263).2.2
    example_sort example_eval (by simp [exampleMf]) example_Mf_angle
  have h0 : iddAt 263 0 = 0 := by rw [iddAt_263]; rfl
  have hv : (admint ⟨Real.cos, Real.sin, Real.sqrt, fun y x => Complex.arg ⟨x, y⟩⟩
      (exampleHardisp ℝ) exampleEpoch [exampleMf ℝ]).p.getD 263 0 = 210 := by
    rw [h]
    simp only [h0, exampleHardisp, exampleMf]
    norm_num
  refine ⟨example_phase, hv, ?_⟩
  intro hall
  have hm := mem_of_getD_ne_zero hv (by norm_num)
  have := (hall 210 hm).2
  norm_num at this

/-- The phase written for the semidiurnal catalogue entry 0, with the stand-in
routines and the input Mf, is at most 180. -/
theorem output_phase_range_witness :
    (admint ⟨Real.cos, Real.sin, Real.sqrt, fun y x => Complex.arg ⟨x, y⟩⟩
      (exampleHardisp ℝ) exampleEpoch [exampleMf ℝ]).p.getD 0 0 ≤ 180 :=
  (output_phase_range ⟨Real.cos, Real.sin, Real.sqrt, fun y x => Complex.arg ⟨x, y⟩⟩
    (exampleHardisp ℝ) exampleEpoch [exampleMf ℝ] ⟨rfl, rfl, rfl, fun _ _ => rfl⟩
    example_phase).2 0 (by decide) rfl

/-- C7: round trip at a sample point.  For a single input constituent that
matches the catalogue entry `i`, whose provider frequency lies strictly inside
the band of its species, with an evaluator that returns the value of a single
sample at its abscissa (and a sorter that leaves a single value in place), the
admittance `(re, am)` evaluated for entry `i` is the stored sample
`(rl, aim)`, and the output amplitude of entry `i` is
`tamp[i]*|ampin|/|tamp[i]|`: the magnitude of the input amplitude with the
sign of `tamp[i]`. -/
theorem round_trip_at_sample (M : LibM ℝ) (H : Hardisp ℝ) (itm : Epoch)
    (c : Constituent ℝ) (i : Nat)
    (hM : IsRealLibM M) (hi : i < nt) (hc : c.idtin = iddAt i)
    (hlp : iddAt i 0 = 0 → (H.tdfrph (iddAt i) itm).1 < 0.5)
    (hdi : iddAt i 0 = 1 → 0.5 < (H.tdfrph (iddAt i) itm).1 ∧ (H.tdfrph (iddAt i) itm).1 < 1.5)
    (hsd : iddAt i 0 = 2 → 1.5 < (H.tdfrph (iddAt i) itm).1 ∧ (H.tdfrph (iddAt i) itm).1 < 2.5)
    (hsort : ∀ x : ℝ, H.shells [x] = ([x], [0]))
    (heval : ∀ (x u : ℝ) (s : List ℝ), H.eval x 1 [x] [u] s = u) :
    (matchLoop M H itm [c]).k = 1 ∧
    (matchLoop M H itm [c]).rl = [c.ampin * Real.cos (dtr ℝ * c.phin) / |tampAt ℝ i|] ∧
    (matchLoop M H itm [c]).aim = [c.ampin * Real.sin (dtr ℝ * c.phin) / |tampAt ℝ i|] ∧
    (∀ re0 : ℝ, evalRe H (prepare H (matchLoop M H itm [c])) (iddAt i)
        (H.tdfrph (iddAt i) itm).1 re0 =
      c.ampin * Real.cos (dtr ℝ * c.phin) / |tampAt ℝ i|) ∧
    (∀ am0 : ℝ, evalAm H (prepare H (matchLoop M H itm [c])) (iddAt i)
        (H.tdfrph (iddAt i) itm).1 am0 =
      c.ampin * Real.sin (dtr ℝ * c.phin) / |tampAt ℝ i|) ∧
    (admint M H itm [c]).amp.getD i 0 = tampAt ℝ i * (|c.ampin| / |tampAt ℝ i|) ∧
    (0 < tampAt ℝ i → (admint M H itm [c]).amp.getD i 0 = |c.ampin|) ∧
    (tampAt ℝ i < 0 → (admint M H itm [c]).amp.getD i 0 = -|c.ampin|) := by
  obtain ⟨e1, e2, _⟩ := single_eval M H itm c i hi hc hlp hdi hsd hsort heval
  have hamp := single_amp M H itm c i hM hi hc hlp hdi hsd hsort heval
  have hsp := species_range i (List.mem_range.2 hi)
  have hcos : M.cos = Real.cos := hM.1
  have hsin : M.sin = Real.sin := hM.2.1
  rw [hcos] at e1
  rw [hsin] at e2
  have hml := matchLoop_single M H itm c hi hc
  refine ⟨?_, ?_, ?_, ?_, ?_, hamp, ?_, ?_⟩
  · rw [hml]; rfl
  · rw [hml]; simp [Samples.ofList, sampleOf, hcos]
  · rw [hml]; simp [Samples.ofList, sampleOf, hsin]
  · intro re0
    rw [evalRe_indep H _ _ _ re0 0 hsp, e1]
  · intro am0
    rw [evalAm_indep H _ _ _ am0 0 hsp, e2]
  · intro hpos
    rw [hamp, abs_of_pos hpos]
    field_simp
  · intro hneg
    rw [hamp, abs_of_neg hneg]
    have hne : tampAt ℝ i ≠ 0 := hneg.ne
    rw [div_neg, mul_neg, neg_inj, mul_div_assoc', mul_comm, mul_div_assoc, div_self hne,
      mul_one]

/-- The round trip for the input M2 `{2,0,0,0,0,0}`, amplitude 1.0, phase 0,
which is the catalogue entry 0, with the stand-in routines. -/
theorem round_trip_at_sample_witness :
    (admint ⟨Real.cos, Real.sin, Real.sqrt, fun y x => Complex.arg ⟨x, y⟩⟩
      (exampleHardisp ℝ) exampleEpoch [exampleM2 ℝ]).amp.getD 0 0 =
        tampAt ℝ 0 * (|(exampleM2 ℝ).ampin| / |tampAt ℝ 0|) :=
  (round_trip_at_sample ⟨Real.cos, Real.sin, Real.sqrt, fun y x => Complex.arg ⟨x, y⟩⟩
    (exampleHardisp ℝ) exampleEpoch (exampleM2 ℝ) 0 ⟨rfl, rfl, rfl, fun _ _ => rfl⟩
    (by decide) rfl (example_band exampleEpoch 0).1 (example_band exampleEpoch 0).2.1
    (example_band exampleEpoch 0).2.2 example_sort example_eval).2.2.2.2.2.1

/-- C8: phase synthesis with the species offset.  Under the hypotheses of the
round trip, with `ampin > 0` and `|dtr*phin| < π`, the phase written for the
matched entry `i` is `q - 360` if `q > 180` and `q` otherwise, where
`q` = provider phase of entry `i` + offset + `phin` and the offset is 180, 90,
0 for `doodson[0]` = 0, 1, 2. -/
theorem phase_with_species_offset (M : LibM ℝ) (H : Hardisp ℝ) (itm : Epoch)
    (c : Constituent ℝ) (i : Nat)
    (hM : IsRealLibM M) (hi : i < nt) (hc : c.idtin = iddAt i)
    (hlp : iddAt i 0 = 0 → (H.tdfrph (iddAt i) itm).1 < 0.5)
    (hdi : iddAt i 0 = 1 → 0.5 < (H.tdfrph (iddAt i) itm).1 ∧ (H.tdfrph (iddAt i) itm).1 < 1.5)
    (hsd : iddAt i 0 = 2 → 1.5 < (H.tdfrph (iddAt i) itm).1 ∧ (H.tdfrph (iddAt i) itm).1 < 2.5)
    (hsort : ∀ x : ℝ, H.shells [x] = ([x], [0]))
    (heval : ∀ (x u : ℝ) (s : List ℝ), H.eval x 1 [x] [u] s = u)
    (ha : 0 < c.ampin) (hθ : |dtr ℝ * c.phin| < Real.pi) :
    (admint M H itm [c]).p.getD i 0 =
      if (H.tdfrph (iddAt i) itm).2 +
          (if iddAt i 0 = 0 then 180 else if iddAt i 0 = 1 then 90 else 0) + c.phin > 180
      then (H.tdfrph (iddAt i) itm).2 +
          (if iddAt i 0 = 0 then 180 else if iddAt i 0 = 1 then 90 else 0) + c.phin - 360
      else (H.tdfrph (iddAt i) itm).2 +
          (if iddAt i 0 = 0 then 180 else if iddAt i 0 = 1 then 90 else 0) + c.phin :=
  single_phase M H itm c i hM hi hc hlp hdi hsd hsort heval ha hθ

/-- The phase of the catalogue entry 0 for the input M2 `{2,0,0,0,0,0}`,
amplitude 1.0, phase 0, with the stand-in routines, whose provider phase is
300: no offset, and `300 - 360 = -60` is written. -/
theorem phase_with_species_offset_witness :
    (admint ⟨Real.cos, Real.sin, Real.sqrt, fun y x => Complex.arg ⟨x, y⟩⟩
      (exampleHardisp ℝ) exampleEpoch [exampleM2 ℝ]).p.getD 0 0 = -60 := by
  have h := phase_with_species_offset
    ⟨Real.cos, Real.sin, Real.sqrt, fun y x => Complex.arg ⟨x, y⟩⟩
    (exampleHardisp ℝ) exampleEpoch (exampleM2 ℝ) 0 ⟨rfl, rfl, rfl, fun _ _ => rfl⟩
    (by decide) rfl (example_band exampleEpoch 0).1 (example_band exampleEpoch 0).2.1
    (example_band exampleEpoch 0).2.2 example_sort example_eval
    (by simp only [exampleM2]; norm_num) (by simp [exampleM2, Real.pi_pos])
  have h0 : iddAt 0 0 = 2 := rfl
  rw [h]
  simp only [h0, exampleHardisp, exampleM2]
  norm_num

/-- The long-period entry 263 is skipped when there is no input. -/
theorem output_is_filtered_catalogue_witness :
    synthStep exampleLibM (exampleHardisp ℚ) exampleEpoch
        (prepare (exampleHardisp ℚ) (matchLoop exampleLibM (exampleHardisp ℚ) exampleEpoch []))
        { j := 0, amp := [], f := [], p := [], re := 0, am := 0 } 263 =
      { j := 0, amp := [], f := [], p := [], re := 0, am := 0 } :=
  ((output_is_filtered_catalogue exampleLibM (exampleHardisp ℚ) exampleEpoch []).2.2.2
    { j := 0, amp := [], f := [], p := [], re := 0, am := 0 } 263 (by decide)).1
    ⟨by rw [iddAt_263]; rfl, rfl⟩

/-! ## Species counts -/

theorem count_partition {R : Type} [LinearOrderedField R] (f : Nat → R) (l : List Nat) :
    l.countP (fun i => f i < 0.5) + l.countP (fun i => f i < 1.5 ∧ f i > 0.5) +
      l.countP (fun i => f i < 2.5 ∧ f i > 1.5) +
      l.countP (fun i => ¬ f i < 0.5 ∧ ¬ (f i < 1.5 ∧ f i > 0.5) ∧ ¬ (f i < 2.5 ∧ f i > 1.5)) =
    l.length := by
  have h1 : (0.5 : R) < 1.5 := by norm_num
  have h2 : (1.5 : R) < 2.5 := by norm_num
  induction l with
  | nil => simp
  | cons a t ih =>
    simp only [List.countP_cons, List.length_cons, decide_eq_true_eq]
    by_cases p1 : f a < 0.5
    · have n2 : ¬ (f a < 1.5 ∧ f a > 0.5) := fun h => absurd p1 (not_lt.2 h.2.le)
      have n3 : ¬ (f a < 2.5 ∧ f a > 1.5) := fun h => absurd p1 (not_lt.2 (h1.trans h.2).le)
      simp only [p1, n2, n3, if_true, if_false, not_true, not_false_eq_true, false_and, and_self]
      omega
    · by_cases p2 : f a < 1.5 ∧ f a > 0.5
      · have n3 : ¬ (f a < 2.5 ∧ f a > 1.5) := fun h => absurd p2.1 (not_lt.2 h.2.le)
        simp only [p1, p2, n3, if_true, if_false, not_true, not_false_eq_true, false_and,
          and_false, and_self]
        omega
      · by_cases p3 : f a < 2.5 ∧ f a > 1.5
        · simp only [p1, p2, p3, if_true, if_false, not_true, not_false_eq_true, and_false,
            and_self]
          omega
        · simp only [p1, p2, p3, if_true, if_false, not_false_eq_true, and_self]
          omega

theorem prepare_counts {R : Type} [LinearOrderedField R] (H : Hardisp R) (s : Samples R) :
    (prepare H s).k = s.k ∧
    (prepare H s).rf = (H.shells s.rf).1 ∧
    (prepare H s).nlp =
      (List.range s.k).countP (fun i => (H.shells s.rf).1.getD i 0 < 0.5) ∧
    (prepare H s).ndi = (List.range s.k).countP
      (fun i => (H.shells s.rf).1.getD i 0 < 1.5 ∧ (H.shells s.rf).1.getD i 0 > 0.5) ∧
    (prepare H s).nsd = (List.range s.k).countP
      (fun i => (H.shells s.rf).1.getD i 0 < 2.5 ∧ (H.shells s.rf).1.getD i 0 > 1.5) := by
  obtain ⟨h1, h2, h3, _⟩ := foldl_countStep (H.shells s.rf).1 s.rl (H.shells s.rf).2
    (List.range s.k) { nlp := 0, ndi := 0, nsd := 0, scr := [] }
  refine ⟨rfl, rfl, ?_, ?_, ?_⟩
  · simpa [prepare, countLoop] using h1
  · simpa [prepare, countLoop] using h2
  · simpa [prepare, countLoop] using h3

theorem counts_le {R : Type} [LinearOrderedField R] (H : Hardisp R) (s : Samples R) :
    (prepare H s).nlp + (prepare H s).ndi + (prepare H s).nsd ≤ s.k := by
  obtain ⟨_, _, h1, h2, h3⟩ := prepare_counts H s
  have h := count_partition (fun i => (H.shells s.rf).1.getD i 0) (List.range s.k)
  rw [h1, h2, h3]
  simp only [List.length_range] at h
  omega

theorem counts_lt_of_boundary {R : Type} [LinearOrderedField R] (H : Hardisp R) (s : Samples R)
    (hb : ∃ i < s.k, (prepare H s).rf.getD i 0 = 0.5 ∨ (prepare H s).rf.getD i 0 = 1.5) :
    (prepare H s).nlp + (prepare H s).ndi + (prepare H s).nsd < s.k := by
  obtain ⟨_, hrf, h1, h2, h3⟩ := prepare_counts H s
  have h := count_partition (fun i => (H.shells s.rf).1.getD i 0) (List.range s.k)
  obtain ⟨i, hi, hv⟩ := hb
  rw [hrf] at hv
  have h15 : (0.5 : R) < 1.5 := by norm_num
  have hpos : 0 < (List.range s.k).countP (fun i =>
      ¬ (H.shells s.rf).1.getD i 0 < 0.5 ∧
      ¬ ((H.shells s.rf).1.getD i 0 < 1.5 ∧ (H.shells s.rf).1.getD i 0 > 0.5) ∧
      ¬ ((H.shells s.rf).1.getD i 0 < 2.5 ∧ (H.shells s.rf).1.getD i 0 > 1.5)) := by
    rw [List.countP_pos_iff]
    refine ⟨i, List.mem_range.2 hi, ?_⟩
    rcases hv with hv | hv
    · simp only [hv, decide_eq_true_eq]
      norm_num
    · simp only [hv, decide_eq_true_eq]
      norm_num
  rw [h1, h2, h3]
  simp only [List.length_range] at h
  omega

theorem matchLoop_k_le {R : Type} [LinearOrderedField R] (M : LibM R) (H : Hardisp R)
    (itm : Epoch) (inputs : List (Constituent R)) :
    (matchLoop M H itm inputs).k ≤ ncon := by
  rw [matchLoop_eq]
  simp [Samples.ofList]

theorem matchLoop_lengths {R : Type} [LinearOrderedField R] (M : LibM R) (H : Hardisp R)
    (itm : Epoch) (inputs : List (Constituent R)) :
    (matchLoop M H itm inputs).rl.length = (matchLoop M H itm inputs).k ∧
    (matchLoop M H itm inputs).aim.length = (matchLoop M H itm inputs).k ∧
    (matchLoop M H itm inputs).rf.length = (matchLoop M H itm inputs).k := by
  rw [matchLoop_eq]
  simp [Samples.ofList]

/-- C12: a sample whose frequency is exactly 0.5 or exactly 1.5 increments
none of `nlp`, `ndi`, `nsd`, so `nlp + ndi + nsd < k` as soon as there is
one; a sample below 0.5 increments only `nlp`, one strictly between 0.5 and
1.5 only `ndi`, one strictly between 1.5 and 2.5 only `nsd`. -/
theorem boundary_samples_uncounted {R : Type} [LinearOrderedField R] (H : Hardisp R)
    (s : Samples R) :
    (∀ (rf rl : List R) (key : List Nat) (c : Counts R) (i : Nat),
      (rf.getD i 0 = 0.5 ∨ rf.getD i 0 = 1.5 →
        (countStep rf rl key c i).nlp = c.nlp ∧ (countStep rf rl key c i).ndi = c.ndi ∧
        (countStep rf rl key c i).nsd = c.nsd) ∧
      (rf.getD i 0 < 0.5 →
        (countStep rf rl key c i).nlp = c.nlp + 1 ∧ (countStep rf rl key c i).ndi = c.ndi ∧
        (countStep rf rl key c i).nsd = c.nsd) ∧
      (0.5 < rf.getD i 0 ∧ rf.getD i 0 < 1.5 →
        (countStep rf rl key c i).nlp = c.nlp ∧ (countStep rf rl key c i).ndi = c.ndi + 1 ∧
        (countStep rf rl key c i).nsd = c.nsd) ∧
      (1.5 < rf.getD i 0 ∧ rf.getD i 0 < 2.5 →
        (countStep rf rl key c i).nlp = c.nlp ∧ (countStep rf rl key c i).ndi = c.ndi ∧
        (countStep rf rl key c i).nsd = c.nsd + 1)) ∧
    ((∃ i < s.k, (prepare H s).rf.getD i 0 = 0.5 ∨ (prepare H s).rf.getD i 0 = 1.5) →
      (prepare H s).nlp + (prepare H s).ndi + (prepare H s).nsd < (prepare H s).k) := by
  have h1 : (0.5 : R) < 1.5 := by norm_num
  have h2 : (1.5 : R) < 2.5 := by norm_num
  refine ⟨?_, fun hb => counts_lt_of_boundary H s hb⟩
  intro rf rl key c i
  refine ⟨?_, ?_, ?_, ?_⟩
  · rintro (hv | hv)
    · simp only [countStep, hv]
      norm_num
    · simp only [countStep, hv]
      norm_num
  · intro hv
    have n2 : ¬ (rf.getD i 0 < 1.5 ∧ rf.getD i 0 > 0.5) := fun h => absurd hv (not_lt.2 h.2.le)
    have n3 : ¬ (rf.getD i 0 < 2.5 ∧ rf.getD i 0 > 1.5) :=
      fun h => absurd hv (not_lt.2 (h1.trans h.2).le)
    simp only [countStep, if_pos hv, if_neg n2, if_neg n3, and_self]
  · rintro ⟨ha, hb⟩
    have n1 : ¬ rf.getD i 0 < 0.5 := not_lt.2 ha.le
    have n3 : ¬ (rf.getD i 0 < 2.5 ∧ rf.getD i 0 > 1.5) := fun h => absurd hb (not_lt.2 h.2.le)
    simp only [countStep, if_neg n1, if_pos (show rf.getD i 0 < 1.5 ∧ rf.getD i 0 > 0.5 from
      ⟨hb, ha⟩), if_neg n3, and_self]
  · rintro ⟨ha, hb⟩
    have n1 : ¬ rf.getD i 0 < 0.5 := not_lt.2 (h1.trans ha).le
    have n2 : ¬ (rf.getD i 0 < 1.5 ∧ rf.getD i 0 > 0.5) := fun h => absurd h.1 (not_lt.2 ha.le)
    simp only [countStep, if_neg n1, if_neg n2, if_pos (show rf.getD i 0 < 2.5 ∧
      rf.getD i 0 > 1.5 from ⟨hb, ha⟩), and_self]

/-- The three samples 0.3, 0.5, 1.0: the one at 0.5 is counted nowhere, and
`nlp + ndi + nsd = 2 < 3`. -/
theorem boundary_samples_uncounted_witness :
    (prepare (exampleHardisp ℚ) boundarySamples).nlp +
      (prepare (exampleHardisp ℚ) boundarySamples).ndi +
      (prepare (exampleHardisp ℚ) boundarySamples).nsd <
    (prepare (exampleHardisp ℚ) boundarySamples).k :=
  (boundary_samples_uncounted (exampleHardisp ℚ) boundarySamples).2 ⟨1, by decide, Or.inl rfl⟩

/-- C19: the species counts are non-negative and
`nlp + ndi + nsd <= k <= 20`, so the positions below `k` and the slices of
lengths `ndi` and `nsd` at the offsets `nlp` and `nlp + ndi` lie inside the
20-element buffers, whose initialised parts have exactly `k` elements. -/
theorem counts_within_buffers {R : Type} [LinearOrderedField R] (M : LibM R) (H : Hardisp R)
    (itm : Epoch) (inputs : List (Constituent R)) :
    (0 : Int) ≤ (prepare H (matchLoop M H itm inputs)).nlp ∧
    (0 : Int) ≤ (prepare H (matchLoop M H itm inputs)).ndi ∧
    (0 : Int) ≤ (prepare H (matchLoop M H itm inputs)).nsd ∧
    (prepare H (matchLoop M H itm inputs)).nlp + (prepare H (matchLoop M H itm inputs)).ndi +
      (prepare H (matchLoop M H itm inputs)).nsd ≤ (prepare H (matchLoop M H itm inputs)).k ∧
    (prepare H (matchLoop M H itm inputs)).k = (matchLoop M H itm inputs).k ∧
    (matchLoop M H itm inputs).k ≤ 20 ∧
    (matchLoop M H itm inputs).rl.length = (matchLoop M H itm inputs).k ∧
    (matchLoop M H itm inputs).aim.length = (matchLoop M H itm inputs).k ∧
    (matchLoop M H itm inputs).rf.length = (matchLoop M H itm inputs).k ∧
    (countLoop (matchLoop M H itm inputs).k (H.shells (matchLoop M H itm inputs).rf).1
      (matchLoop M H itm inputs).rl (H.shells (matchLoop M H itm inputs).rf).2).scr.length =
        (matchLoop M H itm inputs).k := by
  obtain ⟨l1, l2, l3⟩ := matchLoop_lengths M H itm inputs
  refine ⟨Int.natCast_nonneg _, Int.natCast_nonneg _, Int.natCast_nonneg _,
    counts_le H _, rfl, matchLoop_k_le M H itm inputs, l1, l2, l3, ?_⟩
  unfold countLoop
  rw [(foldl_countStep _ _ _ _ _).2.2.2]
  simp

/-! ## The catalogue is well formed -/

/-- C14: the tables `idd` and `tamp` have 342 entries each, every entry has
`doodson[0]` in `{0, 1, 2}`, so that the three-way branch of the synthesis
loop always assigns `re` and `am`, and no `tamp[i]` is zero, so that the
matching phase never divides by zero. -/
theorem catalogue_well_formed {R : Type} [LinearOrderedField R] (H : Hardisp R)
    (S : Splines R) :
    idd.length = 342 ∧ (tamp R).length = 342 ∧
    (∀ d ∈ idd, d 0 = 0 ∨ d 0 = 1 ∨ d 0 = 2) ∧
    (∀ i, i < nt → ∀ sf a b : R,
      evalRe H S (iddAt i) sf a = evalRe H S (iddAt i) sf b ∧
      evalAm H S (iddAt i) sf a = evalAm H S (iddAt i) sf b) ∧
    (∀ x ∈ tamp R, x ≠ 0) ∧
    (∀ kk, kk < nt → |tampAt R kk| ≠ 0) := by
  refine ⟨idd_length, tamp_length R, ?_, ?_, tamp_ne_zero R, ?_⟩
  · intro d hd
    rw [← range_map_iddAt] at hd
    obtain ⟨i, hi, rfl⟩ := List.mem_map.1 hd
    exact species_range i hi
  · intro i hi sf a b
    have hs := species_range i (List.mem_range.2 hi)
    exact ⟨evalRe_indep H S _ sf a b hs, evalAm_indep H S _ sf a b hs⟩
  · intro kk hkk
    exact abs_ne_zero.2 (tampAt_ne_zero R hkk)

/-- The first catalogue entry has a non-zero amplitude. -/
theorem catalogue_well_formed_witness : |tampAt ℚ 0| ≠ 0 :=
  (catalogue_well_formed (exampleHardisp ℚ) (prepare (exampleHardisp ℚ) boundarySamples)).2.2.2.2.2
    0 (by decide)

/-! ## At most one match per input -/

theorem filter_iddAt_length_le (x : Doodson) :
    ((List.range nt).filter fun kk => iddAt kk = x).length ≤ 1 := by
  by_cases h : ∃ i, i < nt ∧ iddAt i = x
  · obtain ⟨i, hi, rfl⟩ := h
    rw [filter_iddAt hi]
    simp
  · have he : ((List.range nt).filter fun kk => iddAt kk = x) = [] := by
      rw [List.filter_eq_nil_iff]
      intro kk hkk
      have : iddAt kk ≠ x := fun e => h ⟨kk, List.mem_range.1 hkk, e⟩
      simpa using this
    rw [he]
    simp

theorem filter_match_length_le (x : Doodson) (hx : SmallCode x) :
    ((List.range nt).filter fun kk => doodsonDiff (iddAt kk) x = 0).length ≤ 1 := by
  rw [filter_match_eq x hx]
  exact filter_iddAt_length_le x

theorem matchedPairs_length_le {R : Type} (inputs : List (Constituent R))
    (hs : ∀ c ∈ inputs, SmallCode c.idtin) :
    (matchedPairs inputs).length ≤ inputs.length := by
  induction inputs with
  | nil => simp [matchedPairs]
  | cons c cs ih =>
    have h := filter_match_length_le c.idtin (hs c (List.mem_cons_self _ _))
    have ih' := ih (fun x hx => hs x (List.mem_cons_of_mem _ hx))
    simp only [matchedPairs, List.flatMap_cons, List.length_append, List.length_map,
      List.length_cons] at ih' ⊢
    omega

theorem foldl_matchStep_k_le {R : Type} [LinearOrderedField R] (M : LibM R) (H : Hardisp R)
    (itm : Epoch) (c : Constituent R) (ks : List Nat) (st : Samples R) :
    (ks.foldl (matchStep M H itm c) st).k ≤
      st.k + (ks.filter fun kk => doodsonDiff (iddAt kk) c.idtin = 0).length := by
  induction ks generalizing st with
  | nil => simp
  | cons kk ks ih =>
    rw [List.foldl_cons]
    have h := ih (matchStep M H itm c st kk)
    by_cases hm : doodsonDiff (iddAt kk) c.idtin = 0
    · rw [List.filter_cons_of_pos (by simpa using hm)]
      have hk : (matchStep M H itm c st kk).k ≤ st.k + 1 := by
        simp only [matchStep]
        split <;> simp
      simp only [List.length_cons]
      omega
    · rw [List.filter_cons_of_neg (by simpa using hm)]
      have hk : (matchStep M H itm c st kk).k = st.k := by
        simp only [matchStep]
        rw [if_neg]
        rintro ⟨h0, _⟩
        exact hm h0
      omega

theorem small_codes_match_once {R : Type} [LinearOrderedField R] (M : LibM R)
    (H : Hardisp R) (itm : Epoch) (inputs : List (Constituent R))
    (hs : ∀ c ∈ inputs, SmallCode c.idtin) :
    (∀ c ∈ inputs,
      ((List.range nt).filter fun kk => doodsonDiff (iddAt kk) c.idtin = 0).length ≤ 1) ∧
    (∀ (st : Samples R), ∀ c ∈ inputs, (scanCatalog M H itm st c).k ≤ st.k + 1) ∧
    (matchLoop M H itm inputs).k ≤ min inputs.length 20 := by
  refine ⟨fun c hc => filter_match_length_le c.idtin (hs c hc), ?_, ?_⟩
  · intro st c hc
    have h1 := foldl_matchStep_k_le M H itm c (List.range nt) st
    have h2 := filter_match_length_le c.idtin (hs c hc)
    unfold scanCatalog
    omega
  · have h1 := matchLoop_k M H itm inputs
    have h2 := matchedPairs_length_le inputs hs
    omega

/-- C18, the code at the failing input: the 342 catalogue entries have
pairwise distinct Doodson codes, and yet the input `overflowInput` passes the
32-bit test at 98 of them; scanning it from the empty buffers adds 20 samples,
and `k = 20` exceeds `min (nin, 20) = 1`. -/
theorem distinct_codes_many_samples {R : Type} [LinearOrderedField R] (M : LibM R)
    (H : Hardisp R) (itm : Epoch) :
    idd.Nodup ∧ idd.length = 342 ∧
    ((List.range nt).filter fun kk =>
      doodsonDiff (iddAt kk) (overflowInput R).idtin = 0).length = 98 ∧
    (scanCatalog M H itm (Samples.ofList []) (overflowInput R)).k = 20 ∧
    (matchLoop M H itm [overflowInput R]).k = 20 ∧
    min [overflowInput R].length 20 = 1 ∧
    ¬ (matchLoop M H itm [overflowInput R]).k ≤ min [overflowInput R].length 20 := by
  have h := matchLoop_overflow M H itm
  have hk : (matchLoop M H itm [overflowInput R]).k = 20 := by rw [h]; rfl
  have hs : scanCatalog M H itm (Samples.ofList []) (overflowInput R) =
      matchLoop M H itm [overflowInput R] := by
    simp only [matchLoop, List.foldl_cons, List.foldl_nil]
    rfl
  refine ⟨idd_nodup, idd_length, overflow_rows_length, by rw [hs, hk], hk, rfl, ?_⟩
  rw [hk]
  simp

/-! ## Duplicate inputs -/

theorem matchedPairs_append {R : Type} (l1 l2 : List (Constituent R)) :
    matchedPairs (l1 ++ l2) = matchedPairs l1 ++ matchedPairs l2 := by
  simp [matchedPairs]

theorem matchedPairs_matching {R : Type} (c : Constituent R) {i : Nat} (hi : i < nt)
    (hc : c.idtin = iddAt i) : matchedPairs [c] = [(c, i)] := by
  simp [matchedPairs, hc, filter_match_iddAt hi]

theorem matchLoop_of_le {R : Type} [LinearOrderedField R] (M : LibM R) (H : Hardisp R)
    (itm : Epoch) (inputs : List (Constituent R)) (h : (matchedPairs inputs).length ≤ 20) :
    matchLoop M H itm inputs =
      Samples.ofList ((matchedPairs inputs).map (fun q => sampleOf M H itm q.1 q.2)) := by
  rw [matchLoop_eq, List.take_of_length_le (by simpa [ncon] using h)]

theorem matchedPairs_length_of_k_lt {R : Type} [LinearOrderedField R] (M : LibM R)
    (H : Hardisp R) (itm : Epoch) (inputs : List (Constituent R))
    (h : (matchLoop M H itm inputs).k < 20) :
    (matchedPairs inputs).length < 20 ∧
    (matchLoop M H itm inputs).k = (matchedPairs inputs).length := by
  have hk := matchLoop_k M H itm inputs
  omega

/-- C11, as amended: two inputs with the same Doodson code, that of the
catalogue entry `i`, with fewer than 20 samples stored when the second of them
is scanned (so fewer than 19 before the first), are both accepted: `k`
increases by one at each of them, each has its own sample, stored where `k`
stood, the two samples have the same frequency, and they are identical when
amplitude and phase are equal too; `k` increases by two over the pair when no
input between them stores a sample.  Whatever follows them in the input list,
the two samples stay where they were stored. -/
theorem duplicates_both_stored {R : Type} [LinearOrderedField R] (M : LibM R) (H : Hardisp R)
    (itm : Epoch) (pre mid post : List (Constituent R)) (c1 c2 : Constituent R) (i : Nat)
    (hi : i < nt) (h1 : c1.idtin = iddAt i) (h2 : c2.idtin = iddAt i)
    (hcap : (matchLoop M H itm (pre ++ c1 :: mid)).k < 20) :
    (matchLoop M H itm pre).k < 19 ∧
    ((matchLoop M H itm (pre ++ [c1])).k = (matchLoop M H itm pre).k + 1 ∧
      (matchLoop M H itm (pre ++ [c1])).rl = (matchLoop M H itm pre).rl ++
        [c1.ampin * M.cos (dtr R * c1.phin) / |tampAt R i|] ∧
      (matchLoop M H itm (pre ++ [c1])).aim = (matchLoop M H itm pre).aim ++
        [c1.ampin * M.sin (dtr R * c1.phin) / |tampAt R i|] ∧
      (matchLoop M H itm (pre ++ [c1])).rf = (matchLoop M H itm pre).rf ++
        [(H.tdfrph (iddAt i) itm).1]) ∧
    ((matchLoop M H itm (pre ++ c1 :: mid ++ [c2])).k =
        (matchLoop M H itm (pre ++ c1 :: mid)).k + 1 ∧
      (matchLoop M H itm (pre ++ c1 :: mid ++ [c2])).rl =
        (matchLoop M H itm (pre ++ c1 :: mid)).rl ++
          [c2.ampin * M.cos (dtr R * c2.phin) / |tampAt R i|] ∧
      (matchLoop M H itm (pre ++ c1 :: mid ++ [c2])).aim =
        (matchLoop M H itm (pre ++ c1 :: mid)).aim ++
          [c2.ampin * M.sin (dtr R * c2.phin) / |tampAt R i|] ∧
      (matchLoop M H itm (pre ++ c1 :: mid ++ [c2])).rf =
        (matchLoop M H itm (pre ++ c1 :: mid)).rf ++ [(H.tdfrph (iddAt i) itm).1]) ∧
    (matchLoop M H itm (pre ++ c1 :: mid ++ [c2])).k =
      (matchLoop M H itm pre).k + (matchedPairs mid).length + 2 ∧
    (matchedPairs mid = [] →
      (matchLoop M H itm (pre ++ c1 :: mid ++ [c2])).k = (matchLoop M H itm pre).k + 2 ∧
      (matchLoop M H itm (pre ++ c1 :: mid ++ [c2])).rl = (matchLoop M H itm pre).rl ++
        [c1.ampin * M.cos (dtr R * c1.phin) / |tampAt R i|,
         c2.ampin * M.cos (dtr R * c2.phin) / |tampAt R i|] ∧
      (matchLoop M H itm (pre ++ c1 :: mid ++ [c2])).aim = (matchLoop M H itm pre).aim ++
        [c1.ampin * M.sin (dtr R * c1.phin) / |tampAt R i|,
         c2.ampin * M.sin (dtr R * c2.phin) / |tampAt R i|] ∧
      (matchLoop M H itm (pre ++ c1 :: mid ++ [c2])).rf = (matchLoop M H itm pre).rf ++
        [(H.tdfrph (iddAt i) itm).1, (H.tdfrph (iddAt i) itm).1]) ∧
    (c1.ampin = c2.ampin → c1.phin = c2.phin →
      sampleOf M H itm c1 i = sampleOf M H itm c2 i) ∧
    matchLoop M H itm (pre ++ c1 :: mid ++ c2 :: post) =
      Samples.ofList (((matchedPairs pre).map (fun q => sampleOf M H itm q.1 q.2) ++
        [sampleOf M H itm c1 i] ++
        (matchedPairs mid).map (fun q => sampleOf M H itm q.1 q.2) ++
        [sampleOf M H itm c2 i] ++
        (matchedPairs post).map (fun q => sampleOf M H itm q.1 q.2)).take 20) := by
  have m1 := matchedPairs_matching c1 hi h1
  have m2 := matchedPairs_matching c2 hi h2
  have e0 : matchedPairs (pre ++ c1 :: mid) = matchedPairs pre ++ [(c1, i)] ++ matchedPairs mid := by
    have : pre ++ c1 :: mid = pre ++ ([c1] ++ mid) := by simp
    rw [this, matchedPairs_append, matchedPairs_append, m1]
    simp
  have ea : matchedPairs (pre ++ [c1]) = matchedPairs pre ++ [(c1, i)] := by
    rw [matchedPairs_append, m1]
  have e1 : matchedPairs (pre ++ c1 :: mid ++ [c2]) =
      matchedPairs pre ++ [(c1, i)] ++ matchedPairs mid ++ [(c2, i)] := by
    have : pre ++ c1 :: mid ++ [c2] = (pre ++ c1 :: mid) ++ [c2] := by simp
    rw [this, matchedPairs_append, e0, m2]
  have e2 : matchedPairs (pre ++ c1 :: mid ++ c2 :: post) =
      matchedPairs pre ++ [(c1, i)] ++ matchedPairs mid ++ [(c2, i)] ++ matchedPairs post := by
    have : pre ++ c1 :: mid ++ c2 :: post = (pre ++ c1 :: mid ++ [c2]) ++ post := by simp
    rw [this, matchedPairs_append, e1]
  obtain ⟨hl, hk0⟩ := matchedPairs_length_of_k_lt M H itm _ hcap
  rw [e0] at hl
  simp only [List.length_append, List.length_singleton] at hl
  have s0 := matchLoop_of_le M H itm (pre ++ c1 :: mid) (by rw [e0]; simp; omega)
  have sp := matchLoop_of_le M H itm pre (by omega)
  have sa := matchLoop_of_le M H itm (pre ++ [c1]) (by rw [ea]; simp; omega)
  have s1 := matchLoop_of_le M H itm (pre ++ c1 :: mid ++ [c2]) (by rw [e1]; simp; omega)
  have hmid : matchedPairs mid = [] → matchLoop M H itm (pre ++ c1 :: mid ++ [c2]) =
      Samples.ofList ((matchedPairs pre).map (fun q => sampleOf M H itm q.1 q.2) ++
        [sampleOf M H itm c1 i, sampleOf M H itm c2 i]) := by
    intro hm
    rw [s1, e1, hm]
    simp
  refine ⟨?_, ⟨?_, ?_, ?_, ?_⟩, ⟨?_, ?_, ?_, ?_⟩, ?_, ?_, ?_, ?_⟩
  · rw [sp]
    simp only [Samples.ofList, List.length_map]
    omega
  · rw [sa, sp, ea]
    simp [Samples.ofList]
  · rw [sa, sp, ea]
    simp [Samples.ofList, sampleOf]
  · rw [sa, sp, ea]
    simp [Samples.ofList, sampleOf]
  · rw [sa, sp, ea]
    simp [Samples.ofList, sampleOf]
  · rw [s1, s0, e1, e0]
    simp [Samples.ofList]
    omega
  · rw [s1, s0, e1, e0]
    simp [Samples.ofList, sampleOf]
  · rw [s1, s0, e1, e0]
    simp [Samples.ofList, sampleOf]
  · rw [s1, s0, e1, e0]
    simp [Samples.ofList, sampleOf]
  · rw [s1, sp, e1]
    simp [Samples.ofList]
    omega
  · intro hm
    rw [hmid hm, sp]
    simp [Samples.ofList, sampleOf]
  · intro ha hp
    simp [sampleOf, ha, hp]
  · rw [matchLoop_eq, e2]
    simp [ncon]

set_option maxRecDepth 100000 in
theorem crowded_facts :
    (matchLoop exampleLibM (exampleHardisp ℚ) exampleEpoch
      (List.replicate 18 (exampleM2 ℚ))).k = 18 ∧
    (matchLoop exampleLibM (exampleHardisp ℚ) exampleEpoch
      (List.replicate 18 (exampleM2 ℚ) ++ [exampleK1 ℚ, exampleM2 ℚ])).k = 20 ∧
    (matchLoop exampleLibM (exampleHardisp ℚ) exampleEpoch crowdedInputs).k = 20 ∧
    (matchLoop exampleLibM (exampleHardisp ℚ) exampleEpoch crowdedInputs).rf =
      List.replicate 18 (2 + 1 / 4) ++ [1 + 1 / 4, 2 + 1 / 4] ∧
    (matchLoop exampleLibM (exampleHardisp ℚ) exampleEpoch crowdedInputs).rf =
      (matchLoop exampleLibM (exampleHardisp ℚ) exampleEpoch
        (List.replicate 18 (exampleM2 ℚ) ++ [exampleK1 ℚ, exampleM2 ℚ])).rf ∧
    (matchLoop exampleLibM (exampleHardisp ℚ) exampleEpoch crowdedInputs).rl =
      (matchLoop exampleLibM (exampleHardisp ℚ) exampleEpoch
        (List.replicate 18 (exampleM2 ℚ) ++ [exampleK1 ℚ, exampleM2 ℚ])).rl ∧
    (matchLoop exampleLibM (exampleHardisp ℚ) exampleEpoch crowdedInputs).aim =
      (matchLoop exampleLibM (exampleHardisp ℚ) exampleEpoch
        (List.replicate 18 (exampleM2 ℚ) ++ [exampleK1 ℚ, exampleM2 ℚ])).aim ∧
    (matchLoop exampleLibM (exampleHardisp ℚ) exampleEpoch crowdedInputs).rf.count
      (((exampleHardisp ℚ).tdfrph (iddAt 109) exampleEpoch).1) = 1 := by
  decide!

set_option maxRecDepth 100000 in
theorem exampleK1_code : (exampleK1 ℚ).idtin = iddAt 109 := by decide

/-- C11, counterexample: eighteen inputs M2 followed by K1, M2, K1.  The two
K1 carry the same Doodson code, that of the catalogue entry 109, and 18 < 19
samples are stored before the first of them; the first K1 and the M2 between
them bring `k` to 20, and the second K1 is dropped: the buffers are those of
the list without it, and a single sample has the frequency of K1. -/
theorem second_duplicate_dropped :
    crowdedInputs =
      List.replicate 18 (exampleM2 ℚ) ++ exampleK1 ℚ :: [exampleM2 ℚ] ++ [exampleK1 ℚ] ∧
    (exampleK1 ℚ).idtin = iddAt 109 ∧
    (matchLoop exampleLibM (exampleHardisp ℚ) exampleEpoch
      (List.replicate 18 (exampleM2 ℚ))).k = 18 ∧
    (matchLoop exampleLibM (exampleHardisp ℚ) exampleEpoch
      (List.replicate 18 (exampleM2 ℚ) ++ [exampleK1 ℚ, exampleM2 ℚ])).k = 20 ∧
    (matchLoop exampleLibM (exampleHardisp ℚ) exampleEpoch crowdedInputs).k = 20 ∧
    (matchLoop exampleLibM (exampleHardisp ℚ) exampleEpoch crowdedInputs).rf =
      List.replicate 18 (2 + 1 / 4) ++ [1 + 1 / 4, 2 + 1 / 4] ∧
    (matchLoop exampleLibM (exampleHardisp ℚ) exampleEpoch crowdedInputs).rf =
      (matchLoop exampleLibM (exampleHardisp ℚ) exampleEpoch
        (List.replicate 18 (exampleM2 ℚ) ++ [exampleK1 ℚ, exampleM2 ℚ])).rf ∧
    (matchLoop exampleLibM (exampleHardisp ℚ) exampleEpoch crowdedInputs).rl =
      (matchLoop exampleLibM (exampleHardisp ℚ) exampleEpoch
        (List.replicate 18 (exampleM2 ℚ) ++ [exampleK1 ℚ, exampleM2 ℚ])).rl ∧
    (matchLoop exampleLibM (exampleHardisp ℚ) exampleEpoch crowdedInputs).aim =
      (matchLoop exampleLibM (exampleHardisp ℚ) exampleEpoch
        (List.replicate 18 (exampleM2 ℚ) ++ [exampleK1 ℚ, exampleM2 ℚ])).aim ∧
    (matchLoop exampleLibM (exampleHardisp ℚ) exampleEpoch crowdedInputs).rf.count
      (((exampleHardisp ℚ).tdfrph (iddAt 109) exampleEpoch).1) = 1 :=
  ⟨rfl, exampleK1_code, crowded_facts⟩

set_option maxRecDepth 100000 in
theorem spaced_pair_capacity :
    (matchLoop exampleLibM (exampleHardisp ℚ) exampleEpoch
      ([exampleM2 ℚ] ++ exampleK1 ℚ :: [exampleM2 ℚ])).k < 20 := by
  decide!

/-- The inputs M2, K1, M2, K1: the second K1, scanned with 3 samples stored,
adds its own sample. -/
theorem duplicates_both_stored_witness :
    (matchLoop exampleLibM (exampleHardisp ℚ) exampleEpoch
      ([exampleM2 ℚ] ++ exampleK1 ℚ :: [exampleM2 ℚ] ++ [exampleK1 ℚ])).k =
    (matchLoop exampleLibM (exampleHardisp ℚ) exampleEpoch
      ([exampleM2 ℚ] ++ exampleK1 ℚ :: [exampleM2 ℚ])).k + 1 :=
  (duplicates_both_stored exampleLibM (exampleHardisp ℚ) exampleEpoch [exampleM2 ℚ]
    [exampleM2 ℚ] [] (exampleK1 ℚ) (exampleK1 ℚ) 109 (by decide) exampleK1_code exampleK1_code
    spaced_pair_capacity).2.2.1.1

/-! ## The species slices -/

theorem countP_range_getD {R : Type} [Zero R] (p : R → Bool) (l : List R) :
    (List.range l.length).countP (fun i => p (l.getD i 0)) = l.countP p := by
  induction l with
  | nil => simp
  | cons a t ih =>
    rw [List.length_cons, List.range_succ_eq_map, List.countP_cons, List.countP_cons,
      List.countP_map, ← ih]
    simp [Function.comp_def]

theorem sorted_countP_iff {R : Type} [LinearOrder R] (p : R → Bool)
    (hp : ∀ x y, x ≤ y → p y = true → p x = true) (l : List R) (hl : l.Sorted (· ≤ ·))
    (i : Nat) (hi : i < l.length) : i < l.countP p ↔ p (l.get ⟨i, hi⟩) = true := by
  induction l generalizing i with
  | nil => simp at hi
  | cons a t ih =>
    have ha : ∀ y ∈ t, a ≤ y := fun y hy => List.rel_of_sorted_cons hl y hy
    have ht : t.Sorted (· ≤ ·) := hl.of_cons
    by_cases hpa : p a = true
    · rw [List.countP_cons_of_pos _ _ hpa]
      cases i with
      | zero => simp [hpa]
      | succ j =>
        have hj : j < t.length := by simpa using hi
        simpa using ih ht j hj
    · have hnone : t.countP p = 0 := by
        rw [List.countP_eq_zero]
        intro y hy hpy
        exact hpa (hp a y (ha y hy) hpy)
      rw [List.countP_cons_of_neg _ _ hpa, hnone]
      cases i with
      | zero => simp [hpa]
      | succ j =>
        have hj : j < t.length := by simpa using hi
        have hmem : t.get ⟨j, hj⟩ ∈ t := List.get_mem _ _ _
        have : ¬ p (t.get ⟨j, hj⟩) = true := fun h => hpa (hp a _ (ha _ hmem) h)
        simpa using this

theorem countP_lt_split {R : Type} [LinearOrder R] (a b : R) (hab : a < b) (l : List R)
    (hne : ∀ x ∈ l, x ≠ a) :
    l.countP (fun x => x < b) =
      l.countP (fun x => x < a) + l.countP (fun x => x < b ∧ x > a) := by
  induction l with
  | nil => simp
  | cons x t ih =>
    have hx : x ≠ a := hne x (List.mem_cons_self _ _)
    have ih' := ih (fun y hy => hne y (List.mem_cons_of_mem _ hy))
    simp only [List.countP_cons, ih', decide_eq_true_eq]
    by_cases h1 : x < a
    · have h2 : x < b := h1.trans hab
      have h3 : ¬ (x < b ∧ x > a) := fun h => absurd h1 (not_lt.2 h.2.le)
      rw [if_pos h1, if_pos h2, if_neg h3]
      omega
    · have h4 : a < x := lt_of_le_of_ne (not_lt.1 h1) (Ne.symm hx)
      by_cases h2 : x < b
      · have h3 : x < b ∧ x > a := ⟨h2, h4⟩
        rw [if_neg h1, if_pos h2, if_pos h3]
        omega
      · have h3 : ¬ (x < b ∧ x > a) := fun h => h2 h.1
        rw [if_neg h1, if_neg h2, if_neg h3]
        omega

theorem sorted_index_lt_iff {R : Type} [LinearOrderedField R] (a : R) (l : List R)
    (hl : l.Sorted (· ≤ ·)) (i : Nat) (hi : i < l.length) :
    i < (List.range l.length).countP (fun j => l.getD j 0 < a) ↔ l.getD i 0 < a := by
  have h := sorted_countP_iff (fun x => decide (x < a))
    (fun x y hxy hy => by
      simp only [decide_eq_true_eq] at hy ⊢
      exact lt_of_le_of_lt hxy hy) l hl i hi
  rw [countP_range_getD (fun x => decide (x < a)) l, List.getD_eq_getElem _ _ hi]
  simpa using h

theorem slices_by_index {R : Type} [LinearOrderedField R] (H : Hardisp R) (s : Samples R)
    (hlen : (H.shells s.rf).1.length = s.k)
    (hsorted : (H.shells s.rf).1.Sorted (· ≤ ·)) :
    (∀ i, i < (prepare H s).k →
      (i < (prepare H s).nlp ↔ (prepare H s).rf.getD i 0 < 0.5)) ∧
    ((∀ x ∈ (prepare H s).rf, x ≠ 0.5) → ∀ i, i < (prepare H s).k →
      ((prepare H s).nlp ≤ i ∧ i < (prepare H s).nlp + (prepare H s).ndi ↔
        0.5 < (prepare H s).rf.getD i 0 ∧ (prepare H s).rf.getD i 0 < 1.5)) ∧
    ((∀ x ∈ (prepare H s).rf, x ≠ 0.5 ∧ x ≠ 1.5) → ∀ i, i < (prepare H s).k →
      ((prepare H s).nlp + (prepare H s).ndi ≤ i ∧
          i < (prepare H s).nlp + (prepare H s).ndi + (prepare H s).nsd ↔
        1.5 < (prepare H s).rf.getD i 0 ∧ (prepare H s).rf.getD i 0 < 2.5)) := by
  obtain ⟨hk, hrf, h1, h2, h3⟩ := prepare_counts H s
  have h05 : (0.5 : R) < 1.5 := by norm_num
  have h15 : (1.5 : R) < 2.5 := by norm_num
  rw [hk, hrf]
  rw [← hlen] at h1 h2 h3 ⊢
  have c1 : ∀ a : R, (List.range (H.shells s.rf).1.length).countP
      (fun j => (H.shells s.rf).1.getD j 0 < a) =
      (H.shells s.rf).1.countP (fun x => x < a) :=
    fun a => countP_range_getD (fun x => decide (x < a)) _
  have c2 : ∀ a b : R, (List.range (H.shells s.rf).1.length).countP
      (fun j => (H.shells s.rf).1.getD j 0 < b ∧ (H.shells s.rf).1.getD j 0 > a) =
      (H.shells s.rf).1.countP (fun x => x < b ∧ x > a) :=
    fun a b => countP_range_getD (fun x => decide (x < b ∧ x > a)) _
  refine ⟨?_, ?_, ?_⟩
  · intro i hi
    rw [h1]
    exact sorted_index_lt_iff 0.5 _ hsorted i hi
  · intro hne i hi
    have e05 := sorted_index_lt_iff 0.5 _ hsorted i hi
    have e15 := sorted_index_lt_iff 1.5 _ hsorted i hi
    have hs := countP_lt_split 0.5 1.5 h05 _ hne
    rw [c1] at e05 e15
    rw [h1, h2, c1, c2, ← hs]
    have hmem : (H.shells s.rf).1.getD i 0 ∈ (H.shells s.rf).1 := by
      rw [List.getD_eq_getElem _ _ hi]; exact List.getElem_mem hi
    have hx := hne _ hmem
    constructor
    · rintro ⟨ha, hb⟩
      have n1 : ¬ (H.shells s.rf).1.getD i 0 < 0.5 := fun h => absurd (e05.2 h) (by omega)
      exact ⟨lt_of_le_of_ne (not_lt.1 n1) (Ne.symm hx), e15.1 hb⟩
    · rintro ⟨ha, hb⟩
      have n1 : ¬ i < (H.shells s.rf).1.countP (fun x => x < 0.5) :=
        fun h => absurd (e05.1 h) (not_lt.2 ha.le)
      exact ⟨by omega, e15.2 hb⟩
  · intro hne i hi
    have e15 := sorted_index_lt_iff 1.5 _ hsorted i hi
    have e25 := sorted_index_lt_iff 2.5 _ hsorted i hi
    have hs1 := countP_lt_split 0.5 1.5 h05 _ (fun x hx => (hne x hx).1)
    have hs2 := countP_lt_split 1.5 2.5 h15 _ (fun x hx => (hne x hx).2)
    rw [c1] at e15 e25
    rw [h1, h2, h3, c1, c2, c2, ← hs1, ← hs2]
    have hmem : (H.shells s.rf).1.getD i 0 ∈ (H.shells s.rf).1 := by
      rw [List.getD_eq_getElem _ _ hi]; exact List.getElem_mem hi
    have hx := (hne _ hmem).2
    constructor
    · rintro ⟨ha, hb⟩
      have n1 : ¬ (H.shells s.rf).1.getD i 0 < 1.5 := fun h => absurd (e15.2 h) (by omega)
      exact ⟨lt_of_le_of_ne (not_lt.1 n1) (Ne.symm hx), e25.1 hb⟩
    · rintro ⟨ha, hb⟩
      have n1 : ¬ i < (H.shells s.rf).1.countP (fun x => x < 1.5) :=
        fun h => absurd (e15.1 h) (not_lt.2 ha.le)
      exact ⟨by omega, e25.2 hb⟩

theorem boundarySamples_sorted :
    ((exampleHardisp ℚ).shells boundarySamples.rf).1.Sorted (· ≤ ·) := by
  have h : ((exampleHardisp ℚ).shells boundarySamples.rf).1 = [0.3, 0.5, 1.0] := rfl
  rw [h]
  simp [List.Sorted]
  norm_num

theorem boundary_counts :
    (prepare (exampleHardisp ℚ) boundarySamples).nlp = 1 ∧
    (prepare (exampleHardisp ℚ) boundarySamples).ndi = 1 ∧
    (prepare (exampleHardisp ℚ) boundarySamples).nsd = 0 := by
  decide!

/-! ## The calls of the spline routines -/

theorem evalCallsAt_values {R : Type} (H : Hardisp R) (itm : Epoch) (S : Splines R) (i : Nat)
    (hi : i < nt) (hk : iddAt i 0 + (S.nlp : Int) ≠ 0) (re am : R) :
    (evalCallsAt H itm S i).map (fun c => H.eval c.y c.nn c.x c.u c.s) =
      [evalRe H S (iddAt i) (H.tdfrph (iddAt i) itm).1 re,
       evalAm H S (iddAt i) (H.tdfrph (iddAt i) itm).1 am] := by
  rcases species_range i (List.mem_range.2 hi) with h | h | h
  · simp [evalCallsAt, evalRe, evalAm, h] at hk ⊢
    simp [hk]
  · simp [evalCallsAt, evalRe, evalAm, h] at hk ⊢
    simp [hk]
  · simp [evalCallsAt, evalRe, evalAm, h] at hk ⊢
    simp [hk]

theorem evalCallsAt_skip {R : Type} (H : Hardisp R) (itm : Epoch) (S : Splines R) (i : Nat)
    (hk : ¬ iddAt i 0 + (S.nlp : Int) ≠ 0) : evalCallsAt H itm S i = [] := by
  simp only [evalCallsAt, if_neg hk]

theorem evalCalls_long_period {R : Type} (H : Hardisp R) (itm : Epoch) (S : Splines R) :
    ∀ c ∈ evalCalls H itm S, iddAt c.i 0 = 0 → 1 ≤ c.nn ∧ c.nn = S.nlp := by
  intro c hc h0
  simp only [evalCalls, List.mem_flatMap, List.mem_range] at hc
  obtain ⟨i, hi, hci⟩ := hc
  unfold evalCallsAt at hci
  split at hci
  · rename_i hk
    split at hci
    · rename_i hz
      have hn : 1 ≤ S.nlp := by omega
      simp only [List.mem_cons, List.mem_singleton, List.mem_nil_iff, or_false] at hci
      rcases hci with rfl | rfl <;> exact ⟨hn, rfl⟩
    · rename_i hz
      split at hci
      · simp only [List.mem_cons, List.mem_singleton, List.mem_nil_iff, or_false] at hci
        rcases hci with rfl | rfl <;> exact absurd h0 hz
      · split at hci
        · simp only [List.mem_cons, List.mem_singleton, List.mem_nil_iff, or_false] at hci
          rcases hci with rfl | rfl <;> exact absurd h0 hz
        · simp at hci
  · simp at hci

/-- C15: every call of `eval` made for a long-period catalogue entry passes
the sample count `nlp >= 1`, and the long-period calls of `spline` are made
only when `nlp >= 1`: with `nlp = 0` there is none and `zdr`, `zdi` stay
unset. -/
theorem long_period_spline_guarded {R : Type} [LinearOrderedField R] (M : LibM R)
    (H : Hardisp R) (itm : Epoch) (inputs : List (Constituent R)) :
    (∀ c ∈ evalCalls H itm (prepare H (matchLoop M H itm inputs)),
      iddAt c.i 0 = 0 → 1 ≤ c.nn ∧ c.nn = (prepare H (matchLoop M H itm inputs)).nlp) ∧
    (∀ c ∈ longPeriodSplineCalls (prepare H (matchLoop M H itm inputs)), 1 ≤ c.nn) ∧
    ((prepare H (matchLoop M H itm inputs)).nlp = 0 →
      longPeriodSplineCalls (prepare H (matchLoop M H itm inputs)) = [] ∧
      (prepare H (matchLoop M H itm inputs)).zdr = [] ∧
      (prepare H (matchLoop M H itm inputs)).zdi = []) ∧
    ((prepare H (matchLoop M H itm inputs)).nlp ≠ 0 →
      (longPeriodSplineCalls (prepare H (matchLoop M H itm inputs))).map
          (fun c => H.spline c.nn c.x c.u) =
        [(prepare H (matchLoop M H itm inputs)).zdr,
         (prepare H (matchLoop M H itm inputs)).zdi]) ∧
    (∀ i, i < nt → iddAt i 0 + ((prepare H (matchLoop M H itm inputs)).nlp : Int) ≠ 0 →
      ∀ re am : R,
      (evalCallsAt H itm (prepare H (matchLoop M H itm inputs)) i).map
          (fun c => H.eval c.y c.nn c.x c.u c.s) =
        [evalRe H (prepare H (matchLoop M H itm inputs)) (iddAt i)
           (H.tdfrph (iddAt i) itm).1 re,
         evalAm H (prepare H (matchLoop M H itm inputs)) (iddAt i)
           (H.tdfrph (iddAt i) itm).1 am]) := by
  refine ⟨evalCalls_long_period H itm _, ?_, ?_, ?_, ?_⟩
  · intro c hc
    unfold longPeriodSplineCalls at hc
    by_cases hn : (prepare H (matchLoop M H itm inputs)).nlp ≠ 0
    · simp only [if_pos hn, List.mem_append, List.mem_singleton] at hc
      rcases hc with rfl | rfl <;> exact Nat.one_le_iff_ne_zero.2 hn
    · simp [if_neg hn] at hc
  · intro hz
    refine ⟨by simp [longPeriodSplineCalls, hz], ?_, ?_⟩
    · have h : (prepare H (matchLoop M H itm inputs)).zdr =
          if (prepare H (matchLoop M H itm inputs)).nlp ≠ 0 then
            H.spline (prepare H (matchLoop M H itm inputs)).nlp
              (prepare H (matchLoop M H itm inputs)).rf
              (prepare H (matchLoop M H itm inputs)).rl else [] := rfl
      rw [h, if_neg (by simp [hz])]
    · have h : (prepare H (matchLoop M H itm inputs)).zdi =
          if (prepare H (matchLoop M H itm inputs)).nlp ≠ 0 then
            H.spline (prepare H (matchLoop M H itm inputs)).nlp
              (prepare H (matchLoop M H itm inputs)).rf
              (prepare H (matchLoop M H itm inputs)).aim else [] := rfl
      rw [h, if_neg (by simp [hz])]
  · intro hn
    have h1 : (prepare H (matchLoop M H itm inputs)).zdr =
        if (prepare H (matchLoop M H itm inputs)).nlp ≠ 0 then
          H.spline (prepare H (matchLoop M H itm inputs)).nlp
            (prepare H (matchLoop M H itm inputs)).rf
            (prepare H (matchLoop M H itm inputs)).rl else [] := rfl
    have h2 : (prepare H (matchLoop M H itm inputs)).zdi =
        if (prepare H (matchLoop M H itm inputs)).nlp ≠ 0 then
          H.spline (prepare H (matchLoop M H itm inputs)).nlp
            (prepare H (matchLoop M H itm inputs)).rf
            (prepare H (matchLoop M H itm inputs)).aim else [] := rfl
    rw [h1, h2, if_pos hn]
    simp [longPeriodSplineCalls, hn]
  · intro i hi hk re am
    exact evalCallsAt_values H itm _ i hi hk re am

/-- With no input `nlp = 0`, and no long-period call of `spline` is made. -/
theorem long_period_spline_guarded_witness :
    longPeriodSplineCalls (prepare (exampleHardisp ℚ)
      (matchLoop exampleLibM (exampleHardisp ℚ) exampleEpoch [])) = [] :=
  ((long_period_spline_guarded exampleLibM (exampleHardisp ℚ) exampleEpoch []).2.2.1 rfl).1

set_option maxRecDepth 100000 in
theorem iddAt_109 : iddAt 109 0 = 1 := by decide

/-- C16, the code at the failing input: with no input constituent the diurnal
and semidiurnal counts are zero, and yet every diurnal and every semidiurnal
catalogue entry is evaluated, by two calls of `eval` with the sample count 0;
so for the diurnal entry 109 and the semidiurnal entry 0. -/
theorem empty_species_evaluated {R : Type} [LinearOrderedField R] (M : LibM R)
    (H : Hardisp R) (itm : Epoch) :
    (prepare H (matchLoop M H itm [])).ndi = 0 ∧
    (prepare H (matchLoop M H itm [])).nsd = 0 ∧
    (speciesSplineCalls (prepare H (matchLoop M H itm []))).map (fun c => c.nn) =
      [0, 0, 0, 0] ∧
    (speciesSplineCalls (prepare H (matchLoop M H itm []))).map
        (fun c => H.spline c.nn c.x c.u) =
      [(prepare H (matchLoop M H itm [])).dr, (prepare H (matchLoop M H itm [])).di,
       (prepare H (matchLoop M H itm [])).sdr, (prepare H (matchLoop M H itm [])).sdi] ∧
    (∀ i, i < nt → iddAt i 0 = 1 ∨ iddAt i 0 = 2 →
      (evalCallsAt H itm (prepare H (matchLoop M H itm [])) i).map (fun c => (c.i, c.nn)) =
        [(i, 0), (i, 0)]) ∧
    (∃ c ∈ evalCalls H itm (prepare H (matchLoop M H itm [])),
      c.i = 109 ∧ iddAt c.i 0 = 1 ∧ c.nn = 0) ∧
    (∃ c ∈ evalCalls H itm (prepare H (matchLoop M H itm [])),
      c.i = 0 ∧ iddAt c.i 0 = 2 ∧ c.nn = 0) := by
  have hlp : (prepare H (matchLoop M H itm [])).nlp = 0 := rfl
  have hdi : (prepare H (matchLoop M H itm [])).ndi = 0 := rfl
  have hsd : (prepare H (matchLoop M H itm [])).nsd = 0 := rfl
  have hat : ∀ i, i < nt → iddAt i 0 = 1 ∨ iddAt i 0 = 2 →
      (evalCallsAt H itm (prepare H (matchLoop M H itm [])) i).map (fun c => (c.i, c.nn)) =
        [(i, 0), (i, 0)] := by
    intro i _ hs
    rcases hs with h | h
    · simp [evalCallsAt, h, hlp, hdi]
    · simp [evalCallsAt, h, hlp, hsd]
  have hex : ∀ i, i < nt → iddAt i 0 = 1 ∨ iddAt i 0 = 2 →
      ∃ c ∈ evalCalls H itm (prepare H (matchLoop M H itm [])), c.i = i ∧ c.nn = 0 := by
    intro i hi hs
    have h := hat i hi hs
    cases hc : evalCallsAt H itm (prepare H (matchLoop M H itm [])) i with
    | nil => rw [hc] at h; simp at h
    | cons c cs =>
      rw [hc] at h
      simp only [List.map_cons, List.cons.injEq, Prod.mk.injEq] at h
      refine ⟨c, ?_, h.1.1, h.1.2⟩
      simp only [evalCalls, List.mem_flatMap, List.mem_range]
      exact ⟨i, hi, by rw [hc]; exact List.mem_cons_self _ _⟩
  refine ⟨hdi, hsd, rfl, rfl, hat, ?_, ?_⟩
  · obtain ⟨c, hc, h1, h2⟩ := hex 109 (by decide) (Or.inl iddAt_109)
    exact ⟨c, hc, h1, by rw [h1]; exact iddAt_109, h2⟩
  · obtain ⟨c, hc, h1, h2⟩ := hex 0 (by decide) (Or.inr rfl)
    exact ⟨c, hc, h1, by rw [h1]; rfl, h2⟩

/-! ## Reordering by the key -/

theorem map_getD_range {α : Type} (l : List α) (d : α) :
    (List.range l.length).map (fun i => l.getD i d) = l := by
  apply List.ext_getElem
  · simp
  · intro i h1 h2
    rw [List.getElem_map, List.getElem_range, List.getD_eq_getElem _ _ h2]

theorem foldl_set_range {α : Type} (g : Nat → α) (a : List α) (n : Nat) (hn : n ≤ a.length) :
    (List.range n).foldl (fun b i => b.set i (g i)) a = (List.range n).map g ++ a.drop n := by
  induction n with
  | zero => simp
  | succ m ih =>
    have hm : m < a.length := hn
    rw [List.range_succ, List.foldl_append, ih (by omega), List.map_append]
    simp only [List.foldl_cons, List.foldl_nil, List.map_cons, List.map_nil]
    have hd : a.drop m = a[m] :: a.drop (m + 1) := List.drop_eq_getElem_cons hm
    rw [hd]
    have hl : ((List.range m).map g).length = m := by simp
    rw [List.set_append, if_neg (by omega), hl, Nat.sub_self, List.set_cons_zero]
    simp

theorem copyLoop3_eq {R : Type} [Zero R] (k : Nat) (aim scr : List R) (h : aim.length = k) :
    copyLoop3 k aim scr = (List.range k).map (fun i => scr.getD i 0) := by
  unfold copyLoop3
  rw [foldl_set_range (fun i => scr.getD i 0) aim k (by omega), List.drop_of_length_le (by omega)]
  simp

theorem copyLoop2_eq {R : Type} [Zero R] (rl scr aim : List R) (key : List Nat) (n : Nat)
    (h1 : n ≤ rl.length) (h2 : n ≤ scr.length) :
    copyLoop2 n rl scr aim key =
      ((List.range n).map (fun i => scr.getD i 0) ++ rl.drop n,
       (List.range n).map (fun i => aim.getD (key.getD i 0) 0) ++ scr.drop n) := by
  unfold copyLoop2
  induction n with
  | zero => simp
  | succ m ih =>
    have hm1 : m < rl.length := h1
    have hm2 : m < scr.length := h2
    rw [List.range_succ, List.foldl_append, ih (by omega) (by omega), List.map_append,
      List.map_append]
    simp only [List.foldl_cons, List.foldl_nil, List.map_cons, List.map_nil]
    have hd1 : rl.drop m = rl[m] :: rl.drop (m + 1) :=
      List.drop_eq_getElem_cons hm1
    have hd2 : scr.drop m = scr[m] :: scr.drop (m + 1) :=
      List.drop_eq_getElem_cons hm2
    have hl1 : ((List.range m).map (fun i => scr.getD i 0)).length = m := by simp
    have hl2 : ((List.range m).map (fun i => aim.getD (key.getD i 0) 0)).length = m := by simp
    have hg : ((List.range m).map (fun i => aim.getD (key.getD i 0) 0) ++ scr.drop m).getD m 0 =
        scr.getD m 0 := by
      rw [List.getD_append_right _ _ _ _ (by omega), hl2, Nat.sub_self, hd2,
        List.getD_eq_getElem _ _ hm2]
      rfl
    rw [hg, hd1, hd2, List.set_append, List.set_append, if_neg (by omega), if_neg (by omega),
      hl1, hl2, Nat.sub_self, List.set_cons_zero, List.set_cons_zero]
    simp

theorem map_getD_map_range {α : Type} (g : Nat → α) (k : Nat) (d : α) :
    (List.range k).map (fun i => ((List.range k).map g).getD i d) = (List.range k).map g := by
  have h := map_getD_range ((List.range k).map g) d
  simpa using h

theorem prepare_reorder {R : Type} [LinearOrderedField R] (H : Hardisp R) (s : Samples R)
    (h1 : s.rl.length = s.k) (h2 : s.aim.length = s.k) :
    (prepare H s).rl =
      (List.range s.k).map (fun i => s.rl.getD ((H.shells s.rf).2.getD i 0) 0) ∧
    (prepare H s).aim =
      (List.range s.k).map (fun i => s.aim.getD ((H.shells s.rf).2.getD i 0) 0) := by
  have hscr : (countLoop s.k (H.shells s.rf).1 s.rl (H.shells s.rf).2).scr =
      (List.range s.k).map (fun i => s.rl.getD ((H.shells s.rf).2.getD i 0) 0) := by
    unfold countLoop
    rw [(foldl_countStep _ _ _ _ _).2.2.2]
    simp
  have hc2 := copyLoop2_eq s.rl (countLoop s.k (H.shells s.rf).1 s.rl (H.shells s.rf).2).scr
    s.aim (H.shells s.rf).2 s.k (by omega) (by rw [hscr]; simp)
  have hrl : (prepare H s).rl = (copyLoop2 s.k s.rl
      (countLoop s.k (H.shells s.rf).1 s.rl (H.shells s.rf).2).scr s.aim (H.shells s.rf).2).1 :=
    rfl
  have haim : (prepare H s).aim = copyLoop3 s.k s.aim (copyLoop2 s.k s.rl
      (countLoop s.k (H.shells s.rf).1 s.rl (H.shells s.rf).2).scr s.aim (H.shells s.rf).2).2 :=
    rfl
  constructor
  · rw [hrl, hc2, hscr]
    simp only
    rw [List.drop_of_length_le (by omega), List.append_nil, map_getD_map_range]
  · rw [haim, hc2, hscr, copyLoop3_eq _ _ _ h2]
    simp only
    rw [List.drop_of_length_le (by simp), List.append_nil, map_getD_map_range]

theorem triples_reorder {R : Type} [Zero R] (rf rl aim : List R) (key : List Nat) (k : Nat)
    (h1 : rf.length = k) (h2 : rl.length = k) (h3 : aim.length = k)
    (hkey : key.Perm (List.range k)) :
    (triples ((List.range k).map (fun i => rf.getD (key.getD i 0) 0))
      ((List.range k).map (fun i => rl.getD (key.getD i 0) 0))
      ((List.range k).map (fun i => aim.getD (key.getD i 0) 0))) =
      key.map (fun j => (rf.getD j 0, rl.getD j 0, aim.getD j 0)) ∧
    (key.map (fun j => (rf.getD j 0, rl.getD j 0, aim.getD j 0))).Perm (triples rf rl aim) := by
  have hlen : key.length = k := by rw [hkey.length_eq]; simp
  have hk : (List.range k).map (fun i => key.getD i 0) = key := by
    rw [← hlen]; exact map_getD_range key 0
  have hT : (List.range k).map (fun j => (rf.getD j 0, rl.getD j 0, aim.getD j 0)) =
      triples rf rl aim := by
    unfold triples
    conv_rhs => rw [← map_getD_range rf 0, ← map_getD_range rl 0, ← map_getD_range aim 0,
      h1, h2, h3]
    rw [List.zip_map', List.zip_map']
  constructor
  · unfold triples
    rw [List.zip_map', List.zip_map']
    conv_rhs => rw [← hk]
    rw [List.map_map]
    rfl
  · rw [← hT]
    exact hkey.map _

/-! ## The insertion sorter -/

theorem mem_zip_range {R : Type} [Zero R] (l : List R) (q : R × Nat)
    (hq : q ∈ l.zip (List.range l.length)) : q.1 = l.getD q.2 0 := by
  obtain ⟨i, hi, rfl⟩ := List.getElem_of_mem hq
  have hi' : i < l.length := by simpa using hi
  rw [List.getElem_zip]
  simp only [List.getElem_range]
  rw [List.getD_eq_getElem _ _ hi']

theorem sortWithKey_spec {R : Type} [LinearOrderedField R] (l : List R) :
    (sortWithKey l).1.length = l.length ∧ (sortWithKey l).1.Sorted (· ≤ ·) ∧
    (sortWithKey l).2.Perm (List.range l.length) ∧
    ∀ i, i < l.length → (sortWithKey l).1.getD i 0 = l.getD ((sortWithKey l).2.getD i 0) 0 := by
  have hperm := List.perm_insertionSort (fun a b : R × Nat => a.1 ≤ b.1)
    (l.zip (List.range l.length))
  have hlen : ((l.zip (List.range l.length)).insertionSort
      (fun a b : R × Nat => a.1 ≤ b.1)).length = l.length := by
    rw [hperm.length_eq]
    simp
  haveI : IsTotal (R × Nat) (fun a b => a.1 ≤ b.1) := ⟨fun a b => le_total a.1 b.1⟩
  haveI : IsTrans (R × Nat) (fun a b => a.1 ≤ b.1) := ⟨fun a b c h1 h2 => le_trans h1 h2⟩
  have hsorted := List.sorted_insertionSort (fun a b : R × Nat => a.1 ≤ b.1)
    (l.zip (List.range l.length))
  refine ⟨?_, ?_, ?_, ?_⟩
  · simp only [sortWithKey, List.length_map]
    exact hlen
  · simp only [sortWithKey, List.Sorted, List.pairwise_map]
    exact hsorted
  · simp only [sortWithKey]
    have h := hperm.map (fun q : R × Nat => q.2)
    rw [List.map_snd_zip _ _ (by simp)] at h
    exact h
  · intro i hi
    have hi' : i < ((l.zip (List.range l.length)).insertionSort
        (fun a b : R × Nat => a.1 ≤ b.1)).length := by rw [hlen]; exact hi
    simp only [sortWithKey]
    rw [List.getD_eq_getElem _ _ (by simpa using hi'),
      List.getD_eq_getElem (List.map _ _) _ (by simpa using hi'), List.getElem_map,
      List.getElem_map]
    exact mem_zip_range l _ (hperm.mem_iff.1 (List.getElem_mem hi'))

theorem sortingHardisp_spec {R : Type} [LinearOrderedField R] (l : List R) :
    SortsWithKey (sortingHardisp R) l :=
  sortWithKey_spec l

theorem getD_map_range {α : Type} (g : Nat → α) (k i : Nat) (d : α) (hi : i < k) :
    ((List.range k).map g).getD i d = g i := by
  rw [List.getD_eq_getElem _ _ (by simpa using hi), List.getElem_map, List.getElem_range]

theorem sorted_rf_eq {R : Type} [LinearOrderedField R] (H : Hardisp R) (l : List R)
    (hs : SortsWithKey H l) :
    (H.shells l).1 = (List.range l.length).map (fun i => l.getD ((H.shells l).2.getD i 0) 0) := by
  obtain ⟨h1, _, _, h4⟩ := hs
  conv_lhs => rw [← map_getD_range (H.shells l).1 0, h1]
  apply List.map_congr_left
  intro i hi
  exact h4 i (List.mem_range.1 hi)

theorem prepare_triples {R : Type} [LinearOrderedField R] (H : Hardisp R) (s : Samples R)
    (h1 : s.rl.length = s.k) (h2 : s.aim.length = s.k) (h3 : s.rf.length = s.k)
    (hs : SortsWithKey H s.rf) :
    (∀ i, i < s.k →
      (prepare H s).rf.getD i 0 = s.rf.getD ((H.shells s.rf).2.getD i 0) 0 ∧
      (prepare H s).rl.getD i 0 = s.rl.getD ((H.shells s.rf).2.getD i 0) 0 ∧
      (prepare H s).aim.getD i 0 = s.aim.getD ((H.shells s.rf).2.getD i 0) 0) ∧
    (prepare H s).rl.length = s.k ∧ (prepare H s).aim.length = s.k ∧
    triples (prepare H s).rf (prepare H s).rl (prepare H s).aim =
      (H.shells s.rf).2.map (fun j => (s.rf.getD j 0, s.rl.getD j 0, s.aim.getD j 0)) ∧
    (triples (prepare H s).rf (prepare H s).rl (prepare H s).aim).Perm
      (triples s.rf s.rl s.aim) := by
  obtain ⟨e1, e2⟩ := prepare_reorder H s h1 h2
  have e0 : (prepare H s).rf =
      (List.range s.k).map (fun i => s.rf.getD ((H.shells s.rf).2.getD i 0) 0) := by
    have h := sorted_rf_eq H s.rf hs
    rw [h3] at h
    exact h
  have hkey : (H.shells s.rf).2.Perm (List.range s.k) := by
    have h := hs.2.2.1
    rw [h3] at h
    exact h
  obtain ⟨t1, t2⟩ := triples_reorder s.rf s.rl s.aim (H.shells s.rf).2 s.k h3 h1 h2 hkey
  refine ⟨?_, by rw [e1]; simp, by rw [e2]; simp, ?_, ?_⟩
  · intro i hi
    rw [e0, e1, e2]
    exact ⟨getD_map_range _ _ _ _ hi, getD_map_range _ _ _ _ hi, getD_map_range _ _ _ _ hi⟩
  · rw [e0, e1, e2]
    exact t1
  · rw [e0, e1, e2, t1]
    exact t2

/-- C17: when the sorter returns in `key` a permutation of `0 .. k-1` with the
sorted `rf[i]` equal to the original `rf[key[i]]`, the three copy loops leave
`rl[i]` = original `rl[key[i]]` and `aim[i]` = original `aim[key[i]]` for
every `i < k`: the triples (frequency, real, imaginary) stay together, and
the list of triples after the reordering is a permutation of the list
before. -/
theorem reorder_by_key {R : Type} [LinearOrderedField R] (H : Hardisp R) (s : Samples R)
    (h1 : s.rl.length = s.k) (h2 : s.aim.length = s.k) (h3 : s.rf.length = s.k)
    (hs : SortsWithKey H s.rf) :
    (∀ i, i < s.k →
      (prepare H s).rf.getD i 0 = s.rf.getD ((H.shells s.rf).2.getD i 0) 0 ∧
      (prepare H s).rl.getD i 0 = s.rl.getD ((H.shells s.rf).2.getD i 0) 0 ∧
      (prepare H s).aim.getD i 0 = s.aim.getD ((H.shells s.rf).2.getD i 0) 0) ∧
    (prepare H s).rl.length = s.k ∧ (prepare H s).aim.length = s.k ∧
    triples (prepare H s).rf (prepare H s).rl (prepare H s).aim =
      (H.shells s.rf).2.map (fun j => (s.rf.getD j 0, s.rl.getD j 0, s.aim.getD j 0)) ∧
    (triples (prepare H s).rf (prepare H s).rl (prepare H s).aim).Perm
      (triples s.rf s.rl s.aim) :=
  prepare_triples H s h1 h2 h3 hs

/-- The samples with frequencies 1.0, 0.3, 0.5, sorted by insertion: the
triples after the reordering are a permutation of the triples before. -/
theorem reorder_by_key_witness :
    (triples (prepare (sortingHardisp ℚ) unsortedSamples).rf
      (prepare (sortingHardisp ℚ) unsortedSamples).rl
      (prepare (sortingHardisp ℚ) unsortedSamples).aim).Perm
      (triples unsortedSamples.rf unsortedSamples.rl unsortedSamples.aim) :=
  (reorder_by_key (sortingHardisp ℚ) unsortedSamples rfl rfl rfl
    (sortingHardisp_spec _)).2.2.2.2

/-! ## Independence of the input order -/

theorem prepare_eta {R : Type} [LinearOrderedField R] (H : Hardisp R) (s : Samples R) :
    prepare H s =
      { k := (prepare H s).k, nlp := (prepare H s).nlp, ndi := (prepare H s).ndi
        nsd := (prepare H s).nsd, rf := (prepare H s).rf, rl := (prepare H s).rl
        aim := (prepare H s).aim
        zdr := if (prepare H s).nlp ≠ 0 then
          H.spline (prepare H s).nlp (prepare H s).rf (prepare H s).rl else []
        zdi := if (prepare H s).nlp ≠ 0 then
          H.spline (prepare H s).nlp (prepare H s).rf (prepare H s).aim else []
        dr := H.spline (prepare H s).ndi ((prepare H s).rf.drop (prepare H s).nlp)
          ((prepare H s).rl.drop (prepare H s).nlp)
        di := H.spline (prepare H s).ndi ((prepare H s).rf.drop (prepare H s).nlp)
          ((prepare H s).aim.drop (prepare H s).nlp)
        sdr := H.spline (prepare H s).nsd
          ((prepare H s).rf.drop ((prepare H s).nlp + (prepare H s).ndi))
          ((prepare H s).rl.drop ((prepare H s).nlp + (prepare H s).ndi))
        sdi := H.spline (prepare H s).nsd
          ((prepare H s).rf.drop ((prepare H s).nlp + (prepare H s).ndi))
          ((prepare H s).aim.drop ((prepare H s).nlp + (prepare H s).ndi)) } :=
  rfl

theorem prepare_congr {R : Type} [LinearOrderedField R] (H : Hardisp R) (s1 s2 : Samples R)
    (hk : s1.k = s2.k) (hrf : (prepare H s1).rf = (prepare H s2).rf)
    (hrl : (prepare H s1).rl = (prepare H s2).rl)
    (haim : (prepare H s1).aim = (prepare H s2).aim) : prepare H s1 = prepare H s2 := by
  obtain ⟨a0, a1, a2, a3, a4⟩ := prepare_counts H s1
  obtain ⟨b0, b1, b2, b3, b4⟩ := prepare_counts H s2
  have hrf' : (H.shells s1.rf).1 = (H.shells s2.rf).1 := by rw [← a1, ← b1, hrf]
  have hn1 : (prepare H s1).nlp = (prepare H s2).nlp := by rw [a2, b2, hk, hrf']
  have hn2 : (prepare H s1).ndi = (prepare H s2).ndi := by rw [a3, b3, hk, hrf']
  have hn3 : (prepare H s1).nsd = (prepare H s2).nsd := by rw [a4, b4, hk, hrf']
  have hk' : (prepare H s1).k = (prepare H s2).k := by rw [a0, b0, hk]
  rw [prepare_eta H s1, prepare_eta H s2, hk', hn1, hn2, hn3, hrf, hrl, haim]

theorem triples_ofList {R : Type} (T : List (R × R × R)) :
    triples (Samples.ofList T).rf (Samples.ofList T).rl (Samples.ofList T).aim =
      T.map (fun t => (t.2.2, t.1, t.2.1)) := by
  simp only [triples, Samples.ofList]
  rw [List.zip_map', List.zip_map']

theorem triples_unzip {R : Type} (rf rl aim : List R) (h1 : rl.length = rf.length)
    (h2 : aim.length = rf.length) :
    (triples rf rl aim).map (·.1) = rf ∧ (triples rf rl aim).map (·.2.1) = rl ∧
    (triples rf rl aim).map (·.2.2) = aim := by
  unfold triples
  have e1 : (rf.zip (rl.zip aim)).map (·.1) = rf :=
    List.map_fst_zip _ _ (by simp; omega)
  have e2 : (rf.zip (rl.zip aim)).map (·.2) = rl.zip aim :=
    List.map_snd_zip _ _ (by simp; omega)
  refine ⟨e1, ?_, ?_⟩
  · have : (rf.zip (rl.zip aim)).map (·.2.1) = ((rf.zip (rl.zip aim)).map (·.2)).map (·.1) := by
      rw [List.map_map]; rfl
    rw [this, e2]
    exact List.map_fst_zip _ _ (by omega)
  · have : (rf.zip (rl.zip aim)).map (·.2.2) = ((rf.zip (rl.zip aim)).map (·.2)).map (·.2) := by
      rw [List.map_map]; rfl
    rw [this, e2]
    exact List.map_snd_zip _ _ (by omega)

theorem sorted_triples_strict {R : Type} [LinearOrderedField R] (H : Hardisp R)
    (T : List (R × R × R)) (hd : (T.map (·.2.2)).Nodup)
    (hs : SortsWithKey H (Samples.ofList T).rf) :
    (triples (prepare H (Samples.ofList T)).rf (prepare H (Samples.ofList T)).rl
      (prepare H (Samples.ofList T)).aim).Perm (T.map (fun t => (t.2.2, t.1, t.2.1))) ∧
    (triples (prepare H (Samples.ofList T)).rf (prepare H (Samples.ofList T)).rl
      (prepare H (Samples.ofList T)).aim).Sorted (fun t u => t.1 < u.1) ∧
    (prepare H (Samples.ofList T)).rl.length = (prepare H (Samples.ofList T)).rf.length ∧
    (prepare H (Samples.ofList T)).aim.length = (prepare H (Samples.ofList T)).rf.length := by
  have k1 : (Samples.ofList T).rl.length = (Samples.ofList T).k := by simp [Samples.ofList]
  have k2 : (Samples.ofList T).aim.length = (Samples.ofList T).k := by simp [Samples.ofList]
  have k3 : (Samples.ofList T).rf.length = (Samples.ofList T).k := by simp [Samples.ofList]
  obtain ⟨_, l1, l2, _, p⟩ := prepare_triples H (Samples.ofList T) k1 k2 k3 hs
  have l0 : (prepare H (Samples.ofList T)).rf.length = (Samples.ofList T).k := by
    have h := hs.1
    rw [k3] at h
    exact h
  rw [triples_ofList] at p
  have hu := (triples_unzip (prepare H (Samples.ofList T)).rf (prepare H (Samples.ofList T)).rl
    (prepare H (Samples.ofList T)).aim (by omega) (by omega)).1
  have hrfperm : (prepare H (Samples.ofList T)).rf.Perm (T.map (·.2.2)) := by
    have h := p.map (fun t : R × R × R => t.1)
    rw [hu, List.map_map] at h
    exact h
  have hnodup : (prepare H (Samples.ofList T)).rf.Nodup := hrfperm.nodup_iff.2 hd
  have hlt : (prepare H (Samples.ofList T)).rf.Sorted (· < ·) :=
    List.Sorted.lt_of_le hs.2.1 hnodup
  refine ⟨p, ?_, by omega, by omega⟩
  have h : ((triples (prepare H (Samples.ofList T)).rf (prepare H (Samples.ofList T)).rl
      (prepare H (Samples.ofList T)).aim).map (·.1)).Pairwise (· < ·) := by
    rw [hu]
    exact hlt
  exact List.pairwise_map.1 h

theorem prepare_perm {R : Type} [LinearOrderedField R] (H : Hardisp R)
    (T1 T2 : List (R × R × R)) (hT : T1.Perm T2) (hd : (T1.map (·.2.2)).Nodup)
    (hs1 : SortsWithKey H (Samples.ofList T1).rf) (hs2 : SortsWithKey H (Samples.ofList T2).rf) :
    prepare H (Samples.ofList T1) = prepare H (Samples.ofList T2) := by
  have hd2 : (T2.map (·.2.2)).Nodup := (hT.map _).nodup_iff.1 hd
  obtain ⟨p1, s1, a1, b1⟩ := sorted_triples_strict H T1 hd hs1
  obtain ⟨p2, s2, a2, b2⟩ := sorted_triples_strict H T2 hd2 hs2
  have hX := p1.trans ((hT.map _).trans p2.symm)
  haveI : IsAntisymm (R × R × R) (fun t u => t.1 < u.1) :=
    ⟨fun a b h1 h2 => absurd h1 (lt_asymm h2)⟩
  have hEq := List.eq_of_perm_of_sorted hX s1 s2
  obtain ⟨u1, u2, u3⟩ := triples_unzip _ _ _ a1 b1
  obtain ⟨v1, v2, v3⟩ := triples_unzip _ _ _ a2 b2
  apply prepare_congr
  · simp only [Samples.ofList]
    exact hT.length_eq
  · rw [← u1, ← v1, hEq]
  · rw [← u2, ← v2, hEq]
  · rw [← u3, ← v3, hEq]

theorem matchedPairs_perm {R : Type} {l1 l2 : List (Constituent R)} (h : l1.Perm l2) :
    (matchedPairs l1).Perm (matchedPairs l2) :=
  List.Perm.flatMap_right _ h

/-- C20: for two input lists that are permutations of each other, with at most
20 matches, pairwise distinct sample frequencies, and a sorter that returns the
ascending order with its permutation, the sorted sample arrays `rf`, `rl`,
`aim`, the counts `nlp`, `ndi`, `nsd`, the splines, and with them all the
outputs and `nout`, are the same. -/
theorem input_order_independent {R : Type} [LinearOrderedField R] (M : LibM R)
    (H : Hardisp R) (itm : Epoch) (inputs1 inputs2 : List (Constituent R))
    (hperm : inputs1.Perm inputs2)
    (hcap : (matchedPairs inputs1).length ≤ 20)
    (hdist : (matchLoop M H itm inputs1).rf.Nodup)
    (hs1 : SortsWithKey H (matchLoop M H itm inputs1).rf)
    (hs2 : SortsWithKey H (matchLoop M H itm inputs2).rf) :
    (prepare H (matchLoop M H itm inputs1)).rf = (prepare H (matchLoop M H itm inputs2)).rf ∧
    (prepare H (matchLoop M H itm inputs1)).rl = (prepare H (matchLoop M H itm inputs2)).rl ∧
    (prepare H (matchLoop M H itm inputs1)).aim = (prepare H (matchLoop M H itm inputs2)).aim ∧
    (prepare H (matchLoop M H itm inputs1)).nlp = (prepare H (matchLoop M H itm inputs2)).nlp ∧
    (prepare H (matchLoop M H itm inputs1)).ndi = (prepare H (matchLoop M H itm inputs2)).ndi ∧
    (prepare H (matchLoop M H itm inputs1)).nsd = (prepare H (matchLoop M H itm inputs2)).nsd ∧
    prepare H (matchLoop M H itm inputs1) = prepare H (matchLoop M H itm inputs2) ∧
    admint M H itm inputs1 = admint M H itm inputs2 := by
  have hP := matchedPairs_perm hperm
  have hcap2 : (matchedPairs inputs2).length ≤ 20 := by rw [← hP.length_eq]; exact hcap
  have e1 : matchLoop M H itm inputs1 =
      Samples.ofList ((matchedPairs inputs1).map (fun q => sampleOf M H itm q.1 q.2)) := by
    rw [matchLoop_eq, List.take_of_length_le (by simp [ncon]; omega)]
  have e2 : matchLoop M H itm inputs2 =
      Samples.ofList ((matchedPairs inputs2).map (fun q => sampleOf M H itm q.1 q.2)) := by
    rw [matchLoop_eq, List.take_of_length_le (by simp [ncon]; omega)]
  rw [e1] at hdist hs1
  rw [e2] at hs2
  have hd : (((matchedPairs inputs1).map (fun q => sampleOf M H itm q.1 q.2)).map
      (·.2.2)).Nodup := hdist
  have hEq := prepare_perm H _ _ (hP.map (fun q => sampleOf M H itm q.1 q.2)) hd hs1 hs2
  rw [← e1, ← e2] at hEq
  refine ⟨by rw [hEq], by rw [hEq], by rw [hEq], by rw [hEq], by rw [hEq], by rw [hEq], hEq, ?_⟩
  unfold admint
  rw [hEq]

theorem example_pair_matched :
    matchedPairs [exampleM2 ℚ, exampleK1 ℚ] = [(exampleM2 ℚ, 0), (exampleK1 ℚ, 109)] := by
  have h0 : (exampleM2 ℚ).idtin = iddAt 0 := rfl
  have h1 : (exampleK1 ℚ).idtin = iddAt 109 := by
    have : iddAt 109 = row 1 1 0 0 0 0 := by decide
    rw [this]; rfl
  have : [exampleM2 ℚ, exampleK1 ℚ] = [exampleM2 ℚ] ++ [exampleK1 ℚ] := rfl
  rw [this, matchedPairs_append, matchedPairs_matching _ (by decide) h0,
    matchedPairs_matching _ (by decide) h1]
  rfl

theorem example_pair_rf :
    (matchLoop exampleLibM (sortingHardisp ℚ) exampleEpoch [exampleM2 ℚ, exampleK1 ℚ]).rf =
      [2 + 1 / 4, 1 + 1 / 4] := by
  rw [matchLoop_eq, example_pair_matched]
  have i0 : iddAt 0 0 = 2 := rfl
  have i1 : iddAt 109 0 = 1 := iddAt_109
  simp [Samples.ofList, sampleOf, sortingHardisp, exampleHardisp, ncon, i0, i1]

/-- The inputs M2, K1 and K1, M2 give the same outputs, with the insertion
sorter. -/
theorem input_order_independent_witness :
    admint exampleLibM (sortingHardisp ℚ) exampleEpoch [exampleM2 ℚ, exampleK1 ℚ] =
      admint exampleLibM (sortingHardisp ℚ) exampleEpoch [exampleK1 ℚ, exampleM2 ℚ] :=
  (input_order_independent exampleLibM (sortingHardisp ℚ) exampleEpoch
    [exampleM2 ℚ, exampleK1 ℚ] [exampleK1 ℚ, exampleM2 ℚ] (List.Perm.swap _ _ _)
    (by rw [example_pair_matched]; decide)
    (by rw [example_pair_rf]; norm_num)
    (sortingHardisp_spec _) (sortingHardisp_spec _)).2.2.2.2.2.2.2

/-! ## The sub-arrays handed to the spline routines -/

theorem take_countP_of_monotone {β : Type} (p : β → Bool) (l : List β)
    (h : l.Pairwise (fun x y => p y = true → p x = true)) :
    l.take (l.countP p) = l.filter p ∧ l.drop (l.countP p) = l.filter (fun x => !p x) := by
  induction l with
  | nil => simp
  | cons a t ih =>
    obtain ⟨ha, ht⟩ := List.pairwise_cons.1 h
    obtain ⟨i1, i2⟩ := ih ht
    by_cases hp : p a = true
    · simp [List.countP_cons, hp, i1, i2]
    · have hall : ∀ y ∈ t, p y = false := by
        intro y hy
        by_contra hc
        exact hp (ha y hy (by simpa using hc))
      have hc : t.countP p = 0 := by
        rw [List.countP_eq_zero]
        intro y hy
        simp [hall y hy]
      have hf : t.filter p = [] := by
        rw [List.filter_eq_nil_iff]
        intro y hy
        simp [hall y hy]
      have hg : t.filter (fun x => !p x) = t := by
        rw [List.filter_eq_self]
        intro y hy
        simp [hall y hy]
      simp [List.countP_cons, hp, hc, hf, hg]

theorem keyed_slices {β R : Type} [LinearOrder R] (key : β → R) (T : List β)
    (hs : (T.map key).Sorted (· ≤ ·)) (a b : R) :
    T.take (T.countP (fun t => key t < a)) = T.filter (fun t => key t < a) ∧
    ((∀ t ∈ T, key t ≠ a) →
      (T.drop (T.countP (fun t => key t < a))).take
          (T.countP (fun t => key t < b ∧ key t > a)) =
        T.filter (fun t => a < key t ∧ key t < b)) := by
  have hpw : ∀ c : R, T.Pairwise (fun x y => decide (key y < c) = true → decide (key x < c) = true) := by
    intro c
    have h := List.pairwise_map.1 hs
    refine h.imp ?_
    intro x y hxy hy
    simp only [decide_eq_true_eq] at hy ⊢
    exact lt_of_le_of_lt hxy hy
  obtain ⟨t1, d1⟩ := take_countP_of_monotone (fun t => decide (key t < a)) T (hpw a)
  refine ⟨t1, ?_⟩
  intro hne
  rw [d1]
  have hpw2 : (T.filter (fun x => !decide (key x < a))).Pairwise
      (fun x y => decide (key y < b) = true → decide (key x < b) = true) :=
    (hpw b).sublist (List.filter_sublist _)
  obtain ⟨t2, _⟩ := take_countP_of_monotone (fun t => decide (key t < b)) _ hpw2
  have hc : (T.filter (fun x => !decide (key x < a))).countP (fun t => decide (key t < b)) =
      T.countP (fun t => key t < b ∧ key t > a) := by
    rw [List.countP_filter]
    apply List.countP_congr
    intro t ht
    have := hne t ht
    simp only [Bool.and_eq_true, decide_eq_true_eq, Bool.not_eq_true', decide_eq_false_iff_not,
      not_lt, gt_iff_lt]
    constructor
    · rintro ⟨h1, h2⟩
      exact ⟨h1, lt_of_le_of_ne h2 (Ne.symm this)⟩
    · rintro ⟨h1, h2⟩
      exact ⟨h1, h2.le⟩
  rw [← hc, t2, List.filter_filter]
  apply List.filter_congr
  intro t ht
  have := hne t ht
  rw [Bool.eq_iff_iff]
  simp only [Bool.and_eq_true, decide_eq_true_eq, Bool.not_eq_true', decide_eq_false_iff_not,
    not_lt]
  constructor
  · rintro ⟨h1, h2⟩
    exact ⟨lt_of_le_of_ne h2 (Ne.symm this), h1⟩
  · rintro ⟨h1, h2⟩
    exact ⟨h2, h1.le⟩

theorem triples_take {R : Type} (rf rl aim : List R) (n : Nat) :
    triples (rf.take n) (rl.take n) (aim.take n) = (triples rf rl aim).take n := by
  simp only [triples, List.zip, List.take_zipWith]

theorem triples_drop {R : Type} (rf rl aim : List R) (n : Nat) :
    triples (rf.drop n) (rl.drop n) (aim.drop n) = (triples rf rl aim).drop n := by
  simp only [triples, List.zip, List.drop_zipWith]

theorem triples_map_fst {R : Type} (rf rl aim : List R) (h1 : rl.length = rf.length)
    (h2 : aim.length = rf.length) : (triples rf rl aim).map (·.1) = rf := by
  unfold triples
  rw [List.map_fst_zip]
  rw [List.length_zip]
  omega

theorem species_counts_sorted {R : Type} [LinearOrderedField R] (H : Hardisp R) (s : Samples R)
    (hlen : (H.shells s.rf).1.length = s.k) :
    (prepare H s).nlp = (prepare H s).rf.countP (fun x => x < 0.5) ∧
    (prepare H s).ndi = (prepare H s).rf.countP (fun x => x < 1.5 ∧ x > 0.5) ∧
    (prepare H s).nsd = (prepare H s).rf.countP (fun x => x < 2.5 ∧ x > 1.5) := by
  obtain ⟨hk, hrf, h1, h2, h3⟩ := prepare_counts H s
  rw [hrf, h1, h2, h3, ← hlen]
  exact ⟨countP_range_getD (fun x => decide (x < 0.5)) _,
    countP_range_getD (fun x => decide (x < 1.5 ∧ x > 0.5)) _,
    countP_range_getD (fun x => decide (x < 2.5 ∧ x > 1.5)) _⟩

theorem keyed_species_slices {β R : Type} [LinearOrderedField R] (key : β → R) (T : List β)
    (hs : (T.map key).Sorted (· ≤ ·)) (nlp ndi nsd : Nat)
    (h1 : nlp = (T.map key).countP (fun x => x < 0.5))
    (h2 : ndi = (T.map key).countP (fun x => x < 1.5 ∧ x > 0.5))
    (h3 : nsd = (T.map key).countP (fun x => x < 2.5 ∧ x > 1.5)) :
    T.take nlp = T.filter (fun t => key t < 0.5) ∧
    ((∀ x ∈ T.map key, x ≠ 0.5) →
      (T.drop nlp).take ndi = T.filter (fun t => 0.5 < key t ∧ key t < 1.5)) ∧
    ((∀ x ∈ T.map key, x ≠ 0.5 ∧ x ≠ 1.5) →
      (T.drop (nlp + ndi)).take nsd = T.filter (fun t => 1.5 < key t ∧ key t < 2.5)) := by
  have h05 : (0.5 : R) < 1.5 := by norm_num
  rw [List.countP_map] at h1 h2 h3
  have e1 : nlp = T.countP (fun t => key t < 0.5) := by rw [h1]; rfl
  have e2 : ndi = T.countP (fun t => key t < 1.5 ∧ key t > 0.5) := by rw [h2]; rfl
  have e3 : nsd = T.countP (fun t => key t < 2.5 ∧ key t > 1.5) := by rw [h3]; rfl
  obtain ⟨a1, a2⟩ := keyed_slices key T hs 0.5 1.5
  obtain ⟨b1, b2⟩ := keyed_slices key T hs 1.5 2.5
  refine ⟨by rw [e1]; exact a1, ?_, ?_⟩
  · intro hne
    rw [e1, e2]
    exact a2 (fun t ht => hne _ (List.mem_map_of_mem key ht))
  · intro hne
    have hsplit := countP_lt_split 0.5 1.5 h05 (T.map key) (fun x hx => (hne x hx).1)
    rw [List.countP_map, List.countP_map, List.countP_map] at hsplit
    have e12 : nlp + ndi = T.countP (fun t => key t < 1.5) := by
      rw [e1, e2]
      exact hsplit.symm
    rw [e12, e3]
    exact b2 (fun t ht => (hne _ (List.mem_map_of_mem key ht)).2)

set_option maxRecDepth 100000 in
theorem boundary_handed :
    (speciesSplineCalls (prepare (exampleHardisp ℚ) boundarySamples)).map
        (fun c => (c.nn, c.x.take c.nn, c.u.take c.nn)) =
      [(1, [0.5], [2]), (1, [0.5], [5]), (0, [], []), (0, [], [])] ∧
    (prepare (exampleHardisp ℚ) boundarySamples).rf.filter (fun x => 0.5 < x ∧ x < 1.5) =
      [1.0] := by
  decide!

/-- C13, counterexample: for the sorted frequencies 0.3, 0.5, 1.0 the counts
are `nlp = 1`, `ndi = 1`, so the diurnal slice `[1, 2)` holds the sample at 0.5,
which is not strictly above 0.5, and leaves out the sample at 1.0, the only one
strictly between 0.5 and 1.5: the two diurnal calls of `spline` are handed the
count 1 and arrays that start with the sample at 0.5. -/
theorem boundary_sample_shifts_slices :
    (prepare (exampleHardisp ℚ) boundarySamples).rf = [0.3, 0.5, 1.0] ∧
    (prepare (exampleHardisp ℚ) boundarySamples).rf.Sorted (· ≤ ·) ∧
    (prepare (exampleHardisp ℚ) boundarySamples).nlp = 1 ∧
    (prepare (exampleHardisp ℚ) boundarySamples).ndi = 1 ∧
    (prepare (exampleHardisp ℚ) boundarySamples).nsd = 0 ∧
    ¬ (0.5 < (prepare (exampleHardisp ℚ) boundarySamples).rf.getD 1 0) ∧
    (0.5 < (prepare (exampleHardisp ℚ) boundarySamples).rf.getD 2 0 ∧
      (prepare (exampleHardisp ℚ) boundarySamples).rf.getD 2 0 < 1.5) ∧
    ¬ (∀ i, i < (prepare (exampleHardisp ℚ) boundarySamples).k →
      ((prepare (exampleHardisp ℚ) boundarySamples).nlp ≤ i ∧
          i < (prepare (exampleHardisp ℚ) boundarySamples).nlp +
            (prepare (exampleHardisp ℚ) boundarySamples).ndi ↔
        0.5 < (prepare (exampleHardisp ℚ) boundarySamples).rf.getD i 0 ∧
          (prepare (exampleHardisp ℚ) boundarySamples).rf.getD i 0 < 1.5)) ∧
    (speciesSplineCalls (prepare (exampleHardisp ℚ) boundarySamples)).map
        (fun c => (c.nn, c.x.take c.nn, c.u.take c.nn)) =
      [(1, [0.5], [2]), (1, [0.5], [5]), (0, [], []), (0, [], [])] ∧
    (prepare (exampleHardisp ℚ) boundarySamples).rf.filter (fun x => 0.5 < x ∧ x < 1.5) =
      [1.0] := by
  obtain ⟨h1, h2, h3⟩ := boundary_counts
  have hrf : (prepare (exampleHardisp ℚ) boundarySamples).rf = [0.3, 0.5, 1.0] := rfl
  have hk : (prepare (exampleHardisp ℚ) boundarySamples).k = 3 := rfl
  refine ⟨hrf, ?_, h1, h2, h3, ?_, ?_, ?_, boundary_handed.1, boundary_handed.2⟩
  · rw [hrf]
    simp [List.Sorted]
    norm_num
  · rw [hrf]
    simp
  · rw [hrf]
    simp
    norm_num
  · intro hall
    have h := (hall 1 (by rw [hk]; decide)).1 ⟨by omega, by omega⟩
    rw [hrf] at h
    simp at h

/-- C13, as amended: once `rf` is sorted ascending, the sub-arrays handed to
the spline routines are the slices of the sorted arrays at the offsets 0 (the
two long-period calls, made when `nlp > 0`), `nlp` and `nlp+ndi`, with the
counts `nlp`, `ndi`, `nsd`; the slice `[0, nlp)` holds exactly the samples with
frequency below 0.5; the slice `[nlp, nlp+ndi)` holds exactly the samples with
frequency strictly between 0.5 and 1.5 provided no sample has the frequency
0.5; and the slice `[nlp+ndi, nlp+ndi+nsd)` holds exactly the samples with
frequency strictly between 1.5 and 2.5 provided no sample has the frequency 0.5
or 1.5.  The slices are given as lists of frequencies, as lists of triples
(frequency, real part, imaginary part) when `rl` and `aim` hold `k` values, and
position by position. -/
theorem species_slices {R : Type} [LinearOrderedField R] (H : Hardisp R) (s : Samples R)
    (hlen : (H.shells s.rf).1.length = s.k)
    (hsorted : (H.shells s.rf).1.Sorted (· ≤ ·)) :
    (((prepare H s).nlp ≠ 0 →
        (prepare H s).zdr = H.spline (prepare H s).nlp (prepare H s).rf (prepare H s).rl ∧
        (prepare H s).zdi = H.spline (prepare H s).nlp (prepare H s).rf (prepare H s).aim) ∧
      (prepare H s).dr = H.spline (prepare H s).ndi
        ((prepare H s).rf.drop (prepare H s).nlp) ((prepare H s).rl.drop (prepare H s).nlp) ∧
      (prepare H s).di = H.spline (prepare H s).ndi
        ((prepare H s).rf.drop (prepare H s).nlp) ((prepare H s).aim.drop (prepare H s).nlp) ∧
      (prepare H s).sdr = H.spline (prepare H s).nsd
        ((prepare H s).rf.drop ((prepare H s).nlp + (prepare H s).ndi))
        ((prepare H s).rl.drop ((prepare H s).nlp + (prepare H s).ndi)) ∧
      (prepare H s).sdi = H.spline (prepare H s).nsd
        ((prepare H s).rf.drop ((prepare H s).nlp + (prepare H s).ndi))
        ((prepare H s).aim.drop ((prepare H s).nlp + (prepare H s).ndi)) ∧
      (longPeriodSplineCalls (prepare H s) ++ speciesSplineCalls (prepare H s)).map
          (fun c => (c.nn, c.x, c.u)) =
        (if (prepare H s).nlp ≠ 0 then
          [((prepare H s).nlp, (prepare H s).rf, (prepare H s).rl),
           ((prepare H s).nlp, (prepare H s).rf, (prepare H s).aim)] else []) ++
        [((prepare H s).ndi, (prepare H s).rf.drop (prepare H s).nlp,
            (prepare H s).rl.drop (prepare H s).nlp),
         ((prepare H s).ndi, (prepare H s).rf.drop (prepare H s).nlp,
            (prepare H s).aim.drop (prepare H s).nlp),
         ((prepare H s).nsd, (prepare H s).rf.drop ((prepare H s).nlp + (prepare H s).ndi),
            (prepare H s).rl.drop ((prepare H s).nlp + (prepare H s).ndi)),
         ((prepare H s).nsd, (prepare H s).rf.drop ((prepare H s).nlp + (prepare H s).ndi),
            (prepare H s).aim.drop ((prepare H s).nlp + (prepare H s).ndi))]) ∧
    ((prepare H s).rf.take (prepare H s).nlp = (prepare H s).rf.filter (fun x => x < 0.5) ∧
      ((∀ x ∈ (prepare H s).rf, x ≠ 0.5) →
        ((prepare H s).rf.drop (prepare H s).nlp).take (prepare H s).ndi =
          (prepare H s).rf.filter (fun x => 0.5 < x ∧ x < 1.5)) ∧
      ((∀ x ∈ (prepare H s).rf, x ≠ 0.5 ∧ x ≠ 1.5) →
        ((prepare H s).rf.drop ((prepare H s).nlp + (prepare H s).ndi)).take (prepare H s).nsd =
          (prepare H s).rf.filter (fun x => 1.5 < x ∧ x < 2.5))) ∧
    (s.rl.length = s.k → s.aim.length = s.k →
      triples ((prepare H s).rf.take (prepare H s).nlp) ((prepare H s).rl.take (prepare H s).nlp)
          ((prepare H s).aim.take (prepare H s).nlp) =
        (triples (prepare H s).rf (prepare H s).rl (prepare H s).aim).filter
          (fun t => t.1 < 0.5) ∧
      ((∀ x ∈ (prepare H s).rf, x ≠ 0.5) →
        triples (((prepare H s).rf.drop (prepare H s).nlp).take (prepare H s).ndi)
            (((prepare H s).rl.drop (prepare H s).nlp).take (prepare H s).ndi)
            (((prepare H s).aim.drop (prepare H s).nlp).take (prepare H s).ndi) =
          (triples (prepare H s).rf (prepare H s).rl (prepare H s).aim).filter
            (fun t => 0.5 < t.1 ∧ t.1 < 1.5)) ∧
      ((∀ x ∈ (prepare H s).rf, x ≠ 0.5 ∧ x ≠ 1.5) →
        triples
            (((prepare H s).rf.drop ((prepare H s).nlp + (prepare H s).ndi)).take
              (prepare H s).nsd)
            (((prepare H s).rl.drop ((prepare H s).nlp + (prepare H s).ndi)).take
              (prepare H s).nsd)
            (((prepare H s).aim.drop ((prepare H s).nlp + (prepare H s).ndi)).take
              (prepare H s).nsd) =
          (triples (prepare H s).rf (prepare H s).rl (prepare H s).aim).filter
            (fun t => 1.5 < t.1 ∧ t.1 < 2.5))) ∧
    ((∀ i, i < (prepare H s).k →
        (i < (prepare H s).nlp ↔ (prepare H s).rf.getD i 0 < 0.5)) ∧
      ((∀ x ∈ (prepare H s).rf, x ≠ 0.5) → ∀ i, i < (prepare H s).k →
        ((prepare H s).nlp ≤ i ∧ i < (prepare H s).nlp + (prepare H s).ndi ↔
          0.5 < (prepare H s).rf.getD i 0 ∧ (prepare H s).rf.getD i 0 < 1.5)) ∧
      ((∀ x ∈ (prepare H s).rf, x ≠ 0.5 ∧ x ≠ 1.5) → ∀ i, i < (prepare H s).k →
        ((prepare H s).nlp + (prepare H s).ndi ≤ i ∧
            i < (prepare H s).nlp + (prepare H s).ndi + (prepare H s).nsd ↔
          1.5 < (prepare H s).rf.getD i 0 ∧ (prepare H s).rf.getD i 0 < 2.5))) := by
  obtain ⟨c1, c2, c3⟩ := species_counts_sorted H s hlen
  have hrf : (prepare H s).rf = (H.shells s.rf).1 := rfl
  have hsrt : (prepare H s).rf.Sorted (· ≤ ·) := hsorted
  refine ⟨⟨?_, rfl, rfl, rfl, rfl, ?_⟩, ?_, ?_, slices_by_index H s hlen hsorted⟩
  · intro hn
    have hn' : (countLoop s.k (H.shells s.rf).1 s.rl (H.shells s.rf).2).nlp ≠ 0 := hn
    constructor
    · show (if (countLoop s.k (H.shells s.rf).1 s.rl (H.shells s.rf).2).nlp ≠ 0 then _ else _) = _
      rw [if_pos hn']
      rfl
    · show (if (countLoop s.k (H.shells s.rf).1 s.rl (H.shells s.rf).2).nlp ≠ 0 then _ else _) = _
      rw [if_pos hn']
      rfl
  · by_cases hn : (prepare H s).nlp ≠ 0
    · simp only [longPeriodSplineCalls, speciesSplineCalls, if_pos hn]
      rfl
    · simp only [longPeriodSplineCalls, speciesSplineCalls, if_neg hn]
      rfl
  · have hid : (prepare H s).rf.map (fun x : R => x) = (prepare H s).rf := List.map_id' _
    have h := keyed_species_slices (fun x : R => x) (prepare H s).rf
      (by rw [hid]; exact hsrt) (prepare H s).nlp (prepare H s).ndi (prepare H s).nsd
      (by rw [hid]; exact c1) (by rw [hid]; exact c2) (by rw [hid]; exact c3)
    rw [hid] at h
    exact h
  · intro h1 h2
    obtain ⟨r1, r2⟩ := prepare_reorder H s h1 h2
    have l1 : (prepare H s).rl.length = (prepare H s).rf.length := by
      rw [r1, hrf, hlen]; simp
    have l2 : (prepare H s).aim.length = (prepare H s).rf.length := by
      rw [r2, hrf, hlen]; simp
    have hm := triples_map_fst (prepare H s).rf (prepare H s).rl (prepare H s).aim l1 l2
    have h := keyed_species_slices (fun t : R × R × R => t.1)
      (triples (prepare H s).rf (prepare H s).rl (prepare H s).aim)
      (by rw [hm]; exact hsrt) (prepare H s).nlp (prepare H s).ndi (prepare H s).nsd
      (by rw [hm]; exact c1) (by rw [hm]; exact c2) (by rw [hm]; exact c3)
    rw [hm] at h
    simp only [triples_take, triples_drop]
    exact h

theorem bandSamples_sorted :
    ((exampleHardisp ℚ).shells bandSamples.rf).1.Sorted (· ≤ ·) := by
  simp [exampleHardisp, bandSamples, List.Sorted]
  norm_num

theorem bandSamples_off_boundary :
    ∀ x ∈ (prepare (exampleHardisp ℚ) bandSamples).rf, x ≠ 0.5 ∧ x ≠ 1.5 := by
  have h : (prepare (exampleHardisp ℚ) bandSamples).rf = [0.3, 1.0, 2.0] := rfl
  rw [h]
  intro x hx
  simp only [List.mem_cons, List.mem_singleton, List.mem_nil_iff, or_false] at hx
  rcases hx with rfl | rfl | rfl <;> norm_num

/-- The sorted frequencies 0.3, 1.0, 2.0, none on a boundary: the diurnal
calls of `spline` are handed the arrays at the offset `nlp`, and the first
`ndi` entries are the samples strictly between 0.5 and 1.5; the semidiurnal
slice holds the samples strictly between 1.5 and 2.5. -/
theorem species_slices_witness :
    ((prepare (exampleHardisp ℚ) bandSamples).dr =
      (exampleHardisp ℚ).spline (prepare (exampleHardisp ℚ) bandSamples).ndi
        ((prepare (exampleHardisp ℚ) bandSamples).rf.drop
          (prepare (exampleHardisp ℚ) bandSamples).nlp)
        ((prepare (exampleHardisp ℚ) bandSamples).rl.drop
          (prepare (exampleHardisp ℚ) bandSamples).nlp)) ∧
    (((prepare (exampleHardisp ℚ) bandSamples).rf.drop
        (prepare (exampleHardisp ℚ) bandSamples).nlp).take
        (prepare (exampleHardisp ℚ) bandSamples).ndi =
      (prepare (exampleHardisp ℚ) bandSamples).rf.filter (fun x => 0.5 < x ∧ x < 1.5)) ∧
    (((prepare (exampleHardisp ℚ) bandSamples).rf.drop
        ((prepare (exampleHardisp ℚ) bandSamples).nlp +
          (prepare (exampleHardisp ℚ) bandSamples).ndi)).take
        (prepare (exampleHardisp ℚ) bandSamples).nsd =
      (prepare (exampleHardisp ℚ) bandSamples).rf.filter (fun x => 1.5 < x ∧ x < 2.5)) ∧
    (triples
        (((prepare (exampleHardisp ℚ) bandSamples).rf.drop
          (prepare (exampleHardisp ℚ) bandSamples).nlp).take
          (prepare (exampleHardisp ℚ) bandSamples).ndi)
        (((prepare (exampleHardisp ℚ) bandSamples).rl.drop
          (prepare (exampleHardisp ℚ) bandSamples).nlp).take
          (prepare (exampleHardisp ℚ) bandSamples).ndi)
        (((prepare (exampleHardisp ℚ) bandSamples).aim.drop
          (prepare (exampleHardisp ℚ) bandSamples).nlp).take
          (prepare (exampleHardisp ℚ) bandSamples).ndi) =
      (triples (prepare (exampleHardisp ℚ) bandSamples).rf
        (prepare (exampleHardisp ℚ) bandSamples).rl
        (prepare (exampleHardisp ℚ) bandSamples).aim).filter
        (fun t => 0.5 < t.1 ∧ t.1 < 1.5)) :=
  ⟨(species_slices (exampleHardisp ℚ) bandSamples rfl bandSamples_sorted).1.2.1,
   (species_slices (exampleHardisp ℚ) bandSamples rfl bandSamples_sorted).2.1.2.1
     (fun x hx => (bandSamples_off_boundary x hx).1),
   (species_slices (exampleHardisp ℚ) bandSamples rfl bandSamples_sorted).2.1.2.2
     bandSamples_off_boundary,
   ((species_slices (exampleHardisp ℚ) bandSamples rfl bandSamples_sorted).2.2.1 rfl rfl).2.1
     (fun x hx => (bandSamples_off_boundary x hx).1)⟩

end Hisp
